import Mathlib

/-!
# tiffconvert / libtifwang

A shallow embedding of the binary decoders of `libtifwang`:

* `TiffWangMark` (src/libtifwang/TiffWangMark.cpp, libtiffwang.h): the two-tier
  property state of the mark in progress, with its set-bitmask;
* `WangAnnotationReader` (src/libtifwang/WangAnnotationReader.cpp): the block
  oriented decoder of the eiStream/Wang payload and `EmitMark`;
* `TiffFile` (src/libtifwang/TiffFile.cpp): the header check of the container
  (`Init`), the walk over the chain of directories with its reordering and tag scan
  (`ReadIfdCollection`, `CorrectIfdOrder`), the bounds-checked accessors and the value
  readers; the constructor of `WangAnnotationReader`, which copies the payload out of
  the container.

Conventions. A byte is a `Fin 256`. The host is little endian (the library is built
for Windows: `REG_DWORD == REG_DWORD_LITTLE_ENDIAN`), so a `memcpy` into a struct decodes
every scalar field least significant byte first. `std::string` and `std::vector<uint8_t>`
are lists of bytes, `std::wstring` is a list of 16-bit code units. A C++ exception is the
`.error` side of `Except`; the calls made on the registered `IWangAnnotationCallback`
are collected, in order, in a list. The methods of `TiffFile` that change the object
return an `Outcome`: the result or the exception, paired with the object as the call
left it. Allocation is taken to succeed.
-/

namespace TiffWang

/-- One octet of a file or of a payload. -/
abbrev Byte := Fin 256

/-! ## Scalars in memory -/

/-- The unsigned 16-bit value whose little-endian bytes are `b0 b1`. -/
def le16 (b0 b1 : Byte) : Nat := b0.val + 256 * b1.val

/-- The unsigned 16-bit value whose big-endian bytes are `b0 b1`. -/
def be16 (b0 b1 : Byte) : Nat := 256 * b0.val + b1.val

/-- The unsigned 32-bit value whose little-endian bytes are `b0 b1 b2 b3`. -/
def le32 (b0 b1 b2 b3 : Byte) : Nat :=
  b0.val + 256 * b1.val + 65536 * b2.val + 16777216 * b3.val

/-- The byte at index `i` of a buffer (0 past the end; every caller checks the size first). -/
def byteAt (bs : List Byte) (i : Nat) : Byte := bs.getD i 0

/-- A `uint32_t` / `UINT` / `DWORD` field at byte offset `i` of a record. -/
def u32At (bs : List Byte) (i : Nat) : Nat :=
  le32 (byteAt bs i) (byteAt bs (i + 1)) (byteAt bs (i + 2)) (byteAt bs (i + 3))

/-- Reinterpretation of a 32-bit pattern as `int` / `LONG` / `BOOL` (two's complement). -/
def toInt32 (n : Nat) : Int := if n < 2147483648 then (n : Int) else (n : Int) - 4294967296

/-- An `int` / `LONG` / `BOOL` field at byte offset `i` of a record. -/
def i32At (bs : List Byte) (i : Nat) : Int := toInt32 (u32At bs i)

/-! ## Records of libtiffwang.h and of the Windows SDK -/

/-- Windows SDK `RECT`: four `LONG`s. -/
structure RECT where
  left : Int
  top : Int
  right : Int
  bottom : Int
deriving DecidableEq, Repr, Inhabited

/-- Windows SDK `POINT`: two `LONG`s. -/
structure POINT where
  x : Int
  y : Int
deriving DecidableEq, Repr, Inhabited

/-- Windows SDK `RGBQUAD`: four bytes. -/
structure RGBQUAD where
  rgbBlue : Byte
  rgbGreen : Byte
  rgbRed : Byte
  rgbReserved : Byte
deriving DecidableEq, Repr, Inhabited

/-- Windows SDK `LOGFONTA`: five `LONG`s, eight `BYTE`s and `CHAR lfFaceName[32]`. -/
structure LOGFONTA where
  lfHeight : Int
  lfWidth : Int
  lfEscapement : Int
  lfOrientation : Int
  lfWeight : Int
  lfItalic : Byte
  lfUnderline : Byte
  lfStrikeOut : Byte
  lfCharSet : Byte
  lfOutPrecision : Byte
  lfClipPrecision : Byte
  lfQuality : Byte
  lfPitchAndFamily : Byte
  lfFaceName : List Byte
deriving DecidableEq, Repr, Inhabited

/-- The record `OIAN_MARK_ATTRIBUTES`; `uType` holds the raw `OAIN_MARK_TYPE` value. -/
structure OIAN_MARK_ATTRIBUTES where
  uType : Nat
  lrBounds : RECT
  rgbColor1 : RGBQUAD
  rgbColor2 : RGBQUAD
  bHighlighting : Int
  bTransparent : Int
  uLineSize : Nat
  uReserved1 : Nat
  uReserved2 : Nat
  lfFont : LOGFONTA
  bReserved3 : Nat
  Time : Nat
  bVisible : Int
  dwReserved4 : Nat
  lReserved : List Int
deriving DecidableEq, Repr, Inhabited

/-- The record `AN_POINTS`. -/
structure AN_POINTS where
  nMaxPoints : Int
  nPoints : Int
deriving DecidableEq, Repr, Inhabited

/-- The record `AN_NEW_ROTATE_STRUCT`; `rotation` holds the raw `AN_ROTATE_TYPE` value. -/
structure AN_NEW_ROTATE_STRUCT where
  rotation : Int
  scale : Int
  nHRes : Int
  nVRes : Int
  nOrigHRes : Int
  nOrigVRes : Int
  bReserved1 : Int
  bReserved2 : Int
  nReserved : List Int
deriving DecidableEq, Repr, Inhabited

/-- The record `OIAN_TEXTPRIVDATA`. -/
structure OIAN_TEXTPRIVDATA where
  nCurrentOrientation : Int
  uReserved1 : Nat
  uCreationScale : Nat
  uAnoTextLength : Nat
deriving DecidableEq, Repr, Inhabited

/-- The record `HYPERLINK_NB`. -/
structure HYPERLINK_NB where
  nVersion : Int
  nLinkSize : Int
  szLinkString : List Nat
  nLocationSize : Int
  szLocationString : List Nat
  nWorkDirSize : Int
  szWorkDirString : List Nat
  nFlags : Int
deriving DecidableEq, Repr, Inhabited

/-- The values of `enum class OAIN_MARK_TYPE`. -/
def OAIN_MARK_TYPE.ImageEmbedded : Nat := 1
def OAIN_MARK_TYPE.ImageReference : Nat := 2
def OAIN_MARK_TYPE.StraightLine : Nat := 3
def OAIN_MARK_TYPE.FreehandLine : Nat := 4
def OAIN_MARK_TYPE.HollowRectangle : Nat := 5
def OAIN_MARK_TYPE.FilledRectangle : Nat := 6
def OAIN_MARK_TYPE.TypedText : Nat := 7
def OAIN_MARK_TYPE.TextFromFile : Nat := 8
def OAIN_MARK_TYPE.TextStamp : Nat := 9
def OAIN_MARK_TYPE.AttachANote : Nat := 10
def OAIN_MARK_TYPE.Form : Nat := 12
def OAIN_MARK_TYPE.OCRRegion : Nat := 13

/-- The flags of `enum class TiffWangMarkSet`. -/
inductive TiffWangMarkSet where
  | NoFlagsSet
  | GlobalGroupSet
  | LocalGroupSet
  | GlobalFilenameSet
  | LocalFilenameSet
  | GlobalDibInfoSet
  | LocalDibInfoSet
  | GlobalAsciiTextSet
  | LocalAsciiTextSet
  | GlobalUnicodeTextSet
  | LocalUnicodeTextSet
  | AttributesSet
  | GlobalPointsSet
  | LocalPointsSet
  | GlobalRotationSet
  | LocalRotationSet
  | GlobalHyperlinkSet
  | LocalHyperlinkSet
  | GlobalIndexSet
  | LocalIndexSet
deriving DecidableEq, Repr

/-- The numeric value of a flag: `__flag(name, bit)` is `1 << bit`. -/
def TiffWangMarkSet.val : TiffWangMarkSet → Nat
  | .NoFlagsSet => 0
  | .GlobalGroupSet => 1 <<< 0
  | .LocalGroupSet => 1 <<< 1
  | .GlobalFilenameSet => 1 <<< 2
  | .LocalFilenameSet => 1 <<< 3
  | .GlobalDibInfoSet => 1 <<< 4
  | .LocalDibInfoSet => 1 <<< 5
  | .GlobalAsciiTextSet => 1 <<< 6
  | .LocalAsciiTextSet => 1 <<< 7
  | .GlobalUnicodeTextSet => 1 <<< 8
  | .LocalUnicodeTextSet => 1 <<< 9
  | .AttributesSet => 1 <<< 10
  | .GlobalPointsSet => 1 <<< 11
  | .LocalPointsSet => 1 <<< 12
  | .GlobalRotationSet => 1 <<< 13
  | .LocalRotationSet => 1 <<< 14
  | .GlobalHyperlinkSet => 1 <<< 15
  | .LocalHyperlinkSet => 1 <<< 16
  | .GlobalIndexSet => 1 <<< 17
  | .LocalIndexSet => 1 <<< 18

/-- The bit that `__flag(name, bit)` gives a flag (0 for `NoFlagsSet`, which has none). -/
def TiffWangMarkSet.bit : TiffWangMarkSet → Nat
  | .NoFlagsSet => 0
  | .GlobalGroupSet => 0
  | .LocalGroupSet => 1
  | .GlobalFilenameSet => 2
  | .LocalFilenameSet => 3
  | .GlobalDibInfoSet => 4
  | .LocalDibInfoSet => 5
  | .GlobalAsciiTextSet => 6
  | .LocalAsciiTextSet => 7
  | .GlobalUnicodeTextSet => 8
  | .LocalUnicodeTextSet => 9
  | .AttributesSet => 10
  | .GlobalPointsSet => 11
  | .LocalPointsSet => 12
  | .GlobalRotationSet => 13
  | .LocalRotationSet => 14
  | .GlobalHyperlinkSet => 15
  | .LocalHyperlinkSet => 16
  | .GlobalIndexSet => 17
  | .LocalIndexSet => 18

/-- The Global flag of the property of a Local flag (any other flag is left as it is): the
flag that `__setlocal_ifset` tests before it sets the Local one. -/
def TiffWangMarkSet.globalOf : TiffWangMarkSet → TiffWangMarkSet
  | .LocalGroupSet => .GlobalGroupSet
  | .LocalFilenameSet => .GlobalFilenameSet
  | .LocalDibInfoSet => .GlobalDibInfoSet
  | .LocalAsciiTextSet => .GlobalAsciiTextSet
  | .LocalUnicodeTextSet => .GlobalUnicodeTextSet
  | .LocalPointsSet => .GlobalPointsSet
  | .LocalRotationSet => .GlobalRotationSet
  | .LocalHyperlinkSet => .GlobalHyperlinkSet
  | .LocalIndexSet => .GlobalIndexSet
  | q => q

/-- The struct `TiffWangMarkProperties`: one tier of properties. -/
structure TiffWangMarkProperties where
  Group : List Byte
  Index : List Byte
  FileName : List Byte
  DibInfo : List Byte
  AsciiText : List Byte
  UnicodeText : List Nat
  Attributes : OIAN_MARK_ATTRIBUTES
  Points : AN_POINTS
  PointList : List POINT
  Rotation : AN_NEW_ROTATE_STRUCT
  Text : OIAN_TEXTPRIVDATA
  Hyperlink : HYPERLINK_NB
deriving DecidableEq, Repr, Inhabited

/-- The class `TiffWangMark`: both tiers, the attributes of the mark in progress and the
`uint64_t` bitmask of the properties that are set. -/
structure TiffWangMark where
  m_Local : TiffWangMarkProperties
  m_Global : TiffWangMarkProperties
  m_Attributes : OIAN_MARK_ATTRIBUTES
  m_SetProperties : Nat
deriving DecidableEq, Repr, Inhabited

/-- The exceptions that leave the annotation layer. -/
inductive WangError where
  /-- Exception `std::out_of_range` thrown by `WangAnnotationReader::Seek`. -/
  | seekOutOfRange
  /-- Exception `std::runtime_error` thrown by `WangAnnotationReader::AssertSizeLeft`. -/
  | insufficientData
  /-- Exception `std::runtime_error` "mark property ... not set" thrown by a `TiffWangMark` accessor. -/
  | propertyNotSet
  /-- Exception `std::length_error` thrown by `std::vector::resize` for a size above `max_size()`. -/
  | lengthError
  /-- Not a C++ exception: the iteration bound of the embedding of `Read` was reached. -/
  | fuelExhausted
deriving DecidableEq, Repr

namespace TiffWangMark

/-- Method `TiffWangMark::IsSet`. -/
def IsSet (m : TiffWangMark) (p : TiffWangMarkSet) : Bool :=
  (m.m_SetProperties &&& p.val) != 0

/-- Method `TiffWangMark::AnySet`. -/
def AnySet (m : TiffWangMark) (flags : List TiffWangMarkSet) : Bool :=
  flags.any (fun p => m.IsSet p)

/-- Method `TiffWangMark::Set`. -/
def Set (m : TiffWangMark) (p : TiffWangMarkSet) : TiffWangMark :=
  { m with m_SetProperties := m.m_SetProperties ||| p.val }

/-- Method `TiffWangMark::Attributes`. -/
def Attributes (m : TiffWangMark) : OIAN_MARK_ATTRIBUTES := m.m_Attributes

/-- Method `TiffWangMark::HasAttributes`. -/
def HasAttributes (m : TiffWangMark) : Bool := m.IsSet .AttributesSet

/-- Method `TiffWangMark::SetAttributes`. -/
def SetAttributes (m : TiffWangMark) : TiffWangMark := m.Set .AttributesSet

/-- The complement `~(uint64_t)flag` of a 64-bit value. -/
def not64 (x : Nat) : Nat := x ^^^ (2 ^ 64 - 1)

/-- The static vector `locals` of `AssignGlobalToLocal`. -/
def locals : List TiffWangMarkSet :=
  [ .LocalAsciiTextSet, .LocalDibInfoSet, .LocalFilenameSet, .LocalGroupSet,
    .LocalHyperlinkSet, .LocalIndexSet, .LocalPointsSet, .LocalRotationSet,
    .LocalUnicodeTextSet ]

/-- The loop `for (flag : locals) m_SetProperties &= ~(uint64_t)flag`. -/
def unsetLocals (m : TiffWangMark) : TiffWangMark :=
  { m with m_SetProperties :=
      locals.foldl (fun acc flag => acc &&& not64 flag.val) m.m_SetProperties }

/-- The macro `__setlocal_ifset(fname, pname)`: `copy g l` is `l` with `pname` taken from `g`. -/
def setlocal_ifset (g l : TiffWangMarkSet)
    (copy : TiffWangMarkProperties → TiffWangMarkProperties → TiffWangMarkProperties)
    (m : TiffWangMark) : TiffWangMark :=
  if m.IsSet g then ({ m with m_Local := copy m.m_Global m.m_Local }).Set l else m

/-- Method `TiffWangMark::AssignGlobalToLocal`. -/
def AssignGlobalToLocal (m : TiffWangMark) : TiffWangMark :=
  let m := unsetLocals m
  let m := setlocal_ifset .GlobalGroupSet .LocalGroupSet (fun g l => { l with Group := g.Group }) m
  let m := setlocal_ifset .GlobalIndexSet .LocalIndexSet (fun g l => { l with Index := g.Index }) m
  let m := setlocal_ifset .GlobalFilenameSet .LocalFilenameSet
    (fun g l => { l with FileName := g.FileName }) m
  let m := setlocal_ifset .GlobalDibInfoSet .LocalDibInfoSet
    (fun g l => { l with DibInfo := g.DibInfo }) m
  let m := setlocal_ifset .GlobalAsciiTextSet .LocalAsciiTextSet
    (fun g l => { l with AsciiText := g.AsciiText }) m
  let m := setlocal_ifset .GlobalUnicodeTextSet .LocalUnicodeTextSet
    (fun g l => { l with UnicodeText := g.UnicodeText }) m
  let m := setlocal_ifset .GlobalRotationSet .LocalRotationSet
    (fun g l => { l with Rotation := g.Rotation }) m
  let m := setlocal_ifset .GlobalHyperlinkSet .LocalHyperlinkSet
    (fun g l => { l with Hyperlink := g.Hyperlink }) m
  setlocal_ifset .GlobalPointsSet .LocalPointsSet
    (fun g l => { l with Points := g.Points, PointList := g.PointList }) m

/-- The macro `__return_either(fname, pname)`. -/
def return_either {α : Type} (g l : TiffWangMarkSet) (pname : TiffWangMarkProperties → α)
    (m : TiffWangMark) : Except WangError α :=
  if !(m.IsSet g || m.IsSet l) then .error .propertyNotSet
  else .ok (if m.IsSet l then pname m.m_Local else pname m.m_Global)

/-- The macro `__return_local(fname, pname)`. -/
def return_local {α : Type} (l : TiffWangMarkSet) (pname : TiffWangMarkProperties → α)
    (m : TiffWangMark) : Except WangError α :=
  if !m.IsSet l then .error .propertyNotSet else .ok (pname m.m_Local)

/-- Method `TiffWangMark::Group`. -/
def Group (m : TiffWangMark) := return_either .GlobalGroupSet .LocalGroupSet (·.Group) m
/-- Method `TiffWangMark::Index`. -/
def Index (m : TiffWangMark) := return_either .GlobalIndexSet .LocalIndexSet (·.Index) m
/-- Method `TiffWangMark::FileName`. -/
def FileName (m : TiffWangMark) :=
  return_either .GlobalFilenameSet .LocalFilenameSet (·.FileName) m
/-- Method `TiffWangMark::DibInfo`. -/
def DibInfo (m : TiffWangMark) := return_either .GlobalDibInfoSet .LocalDibInfoSet (·.DibInfo) m
/-- Method `TiffWangMark::AsciiText`. -/
def AsciiText (m : TiffWangMark) :=
  return_either .GlobalAsciiTextSet .LocalAsciiTextSet (·.AsciiText) m
/-- Method `TiffWangMark::UnicodeText`. -/
def UnicodeText (m : TiffWangMark) :=
  return_either .GlobalUnicodeTextSet .LocalUnicodeTextSet (·.UnicodeText) m
/-- Method `TiffWangMark::Points`. -/
def Points (m : TiffWangMark) := return_either .GlobalPointsSet .LocalPointsSet (·.Points) m
/-- Method `TiffWangMark::PointList`. -/
def PointList (m : TiffWangMark) :=
  return_either .GlobalPointsSet .LocalPointsSet (·.PointList) m
/-- Method `TiffWangMark::Rotation`. -/
def Rotation (m : TiffWangMark) :=
  return_either .GlobalRotationSet .LocalRotationSet (·.Rotation) m
/-- Method `TiffWangMark::HyperLink`. -/
def HyperLink (m : TiffWangMark) :=
  return_either .GlobalHyperlinkSet .LocalHyperlinkSet (·.Hyperlink) m

/-- Method `TiffWangMark::Text(bool global)`. -/
def Text (m : TiffWangMark) (global : Bool) : OIAN_TEXTPRIVDATA :=
  if global then m.m_Global.Text else m.m_Local.Text

/-- Method `TiffWangMark::LocalFileName`. -/
def LocalFileName (m : TiffWangMark) := return_local .LocalFilenameSet (·.FileName) m
/-- Method `TiffWangMark::LocalDibInfo`. -/
def LocalDibInfo (m : TiffWangMark) := return_local .LocalDibInfoSet (·.DibInfo) m
/-- Method `TiffWangMark::LocalAsciiText`. -/
def LocalAsciiText (m : TiffWangMark) := return_local .LocalAsciiTextSet (·.AsciiText) m
/-- Method `TiffWangMark::LocalUnicodeText`. -/
def LocalUnicodeText (m : TiffWangMark) := return_local .LocalUnicodeTextSet (·.UnicodeText) m
/-- Method `TiffWangMark::LocalPointList`. -/
def LocalPointList (m : TiffWangMark) := return_local .LocalPointsSet (·.PointList) m
/-- Method `TiffWangMark::LocalRotation`. -/
def LocalRotation (m : TiffWangMark) := return_local .LocalRotationSet (·.Rotation) m

/-- Method `TiffWangMark::LocalText`. -/
def LocalText (m : TiffWangMark) : Except WangError OIAN_TEXTPRIVDATA :=
  if m.IsSet .LocalAsciiTextSet || m.IsSet .LocalUnicodeTextSet then .ok m.m_Local.Text
  else .error .propertyNotSet

/-- Assignment through the reference a setter returned: the tier `global` selects. -/
def assign (global : Bool) (f : TiffWangMarkProperties → TiffWangMarkProperties)
    (m : TiffWangMark) : TiffWangMark :=
  if global then { m with m_Global := f m.m_Global } else { m with m_Local := f m.m_Local }

/-- The macro `__return_setter_either(fname, pname, glob)`: the side effect of asking for
the reference, which is to flag the property of that tier as set. -/
def return_setter_either (g l : TiffWangMarkSet) (glob : Bool) (m : TiffWangMark) :
    TiffWangMark :=
  if glob then m.Set g else m.Set l

/-- Method `TiffWangMark::GroupSetter`. -/
def GroupSetter (m : TiffWangMark) (global : Bool) :=
  return_setter_either .GlobalGroupSet .LocalGroupSet global m
/-- Method `TiffWangMark::IndexSetter`. -/
def IndexSetter (m : TiffWangMark) (global : Bool) :=
  return_setter_either .GlobalIndexSet .LocalIndexSet global m
/-- Method `TiffWangMark::FileNameSetter`. -/
def FileNameSetter (m : TiffWangMark) (global : Bool) :=
  return_setter_either .GlobalFilenameSet .LocalFilenameSet global m
/-- Method `TiffWangMark::DibInfoSetter`. -/
def DibInfoSetter (m : TiffWangMark) (global : Bool) :=
  return_setter_either .GlobalDibInfoSet .LocalDibInfoSet global m
/-- Method `TiffWangMark::AsciiTextSetter`. -/
def AsciiTextSetter (m : TiffWangMark) (global : Bool) :=
  return_setter_either .GlobalAsciiTextSet .LocalAsciiTextSet global m
/-- Method `TiffWangMark::UnicodeTextSetter`. -/
def UnicodeTextSetter (m : TiffWangMark) (global : Bool) :=
  return_setter_either .GlobalUnicodeTextSet .LocalUnicodeTextSet global m
/-- Method `TiffWangMark::PointsSetter`. -/
def PointsSetter (m : TiffWangMark) (global : Bool) :=
  return_setter_either .GlobalPointsSet .LocalPointsSet global m
/-- Method `TiffWangMark::PointListSetter`. -/
def PointListSetter (m : TiffWangMark) (global : Bool) :=
  return_setter_either .GlobalPointsSet .LocalPointsSet global m
/-- Method `TiffWangMark::RotationSetter`. -/
def RotationSetter (m : TiffWangMark) (global : Bool) :=
  return_setter_either .GlobalRotationSet .LocalRotationSet global m
/-- Method `TiffWangMark::TextSetter`: no flag is set. -/
def TextSetter (m : TiffWangMark) (_global : Bool) : TiffWangMark := m

end TiffWangMark

/-! ## Decoding of the fixed-layout records (what `memcpy` does on this host) -/

/-- The bytes of an ASCII string literal. -/
def ascii (s : String) : List Byte := s.toList.map (fun c => Fin.ofNat c.toNat)

/-- Layout of `RECT` at byte offset `i`. -/
def decodeRECT (bs : List Byte) (i : Nat) : RECT :=
  { left := i32At bs i, top := i32At bs (i + 4), right := i32At bs (i + 8),
    bottom := i32At bs (i + 12) }

/-- Layout of `POINT` (8 bytes). -/
def decodePOINT (bs : List Byte) : POINT := { x := i32At bs 0, y := i32At bs 4 }

/-- Layout of `RGBQUAD` at byte offset `i`. -/
def decodeRGBQUAD (bs : List Byte) (i : Nat) : RGBQUAD :=
  { rgbBlue := byteAt bs i, rgbGreen := byteAt bs (i + 1), rgbRed := byteAt bs (i + 2),
    rgbReserved := byteAt bs (i + 3) }

/-- Layout of `LOGFONTA` (60 bytes) at byte offset `i`. -/
def decodeLOGFONTA (bs : List Byte) (i : Nat) : LOGFONTA :=
  { lfHeight := i32At bs i, lfWidth := i32At bs (i + 4), lfEscapement := i32At bs (i + 8),
    lfOrientation := i32At bs (i + 12), lfWeight := i32At bs (i + 16),
    lfItalic := byteAt bs (i + 20), lfUnderline := byteAt bs (i + 21),
    lfStrikeOut := byteAt bs (i + 22), lfCharSet := byteAt bs (i + 23),
    lfOutPrecision := byteAt bs (i + 24), lfClipPrecision := byteAt bs (i + 25),
    lfQuality := byteAt bs (i + 26), lfPitchAndFamily := byteAt bs (i + 27),
    lfFaceName := (bs.drop (i + 28)).take 32 }

/-- The value of `sizeof(OIAN_MARK_ATTRIBUTES)`. -/
def sizeof_OIAN_MARK_ATTRIBUTES : Nat := 164

/-- Layout of `OIAN_MARK_ATTRIBUTES` (164 bytes, every member 4-byte aligned). -/
def decodeAttributes (bs : List Byte) : OIAN_MARK_ATTRIBUTES :=
  { uType := u32At bs 0, lrBounds := decodeRECT bs 4, rgbColor1 := decodeRGBQUAD bs 20,
    rgbColor2 := decodeRGBQUAD bs 24, bHighlighting := i32At bs 28,
    bTransparent := i32At bs 32, uLineSize := u32At bs 36, uReserved1 := u32At bs 40,
    uReserved2 := u32At bs 44, lfFont := decodeLOGFONTA bs 48, bReserved3 := u32At bs 108,
    Time := u32At bs 112, bVisible := i32At bs 116, dwReserved4 := u32At bs 120,
    lReserved := (List.range 10).map (fun k => i32At bs (124 + 4 * k)) }

/-- Layout of `AN_POINTS` (8 bytes). -/
def decodePoints (bs : List Byte) : AN_POINTS :=
  { nMaxPoints := i32At bs 0, nPoints := i32At bs 4 }

/-- Layout of `AN_NEW_ROTATE_STRUCT` (56 bytes). -/
def decodeRotation (bs : List Byte) : AN_NEW_ROTATE_STRUCT :=
  { rotation := i32At bs 0, scale := i32At bs 4, nHRes := i32At bs 8, nVRes := i32At bs 12,
    nOrigHRes := i32At bs 16, nOrigVRes := i32At bs 20, bReserved1 := i32At bs 24,
    bReserved2 := i32At bs 28,
    nReserved := (List.range 6).map (fun k => i32At bs (32 + 4 * k)) }

/-- Layout of `OIAN_TEXTPRIVDATA` (16 bytes). -/
def decodeText (bs : List Byte) : OIAN_TEXTPRIVDATA :=
  { nCurrentOrientation := i32At bs 0, uReserved1 := u32At bs 4, uCreationScale := u32At bs 8,
    uAnoTextLength := u32At bs 12 }

/-- The struct `TiffWangEntry`; `DataType` holds the raw `TiffWangDataType` value. -/
structure TiffWangEntry where
  DataType : Nat
  DataSize : Nat
deriving DecidableEq, Repr, Inhabited

/-- Layout of `TiffWangEntry` (8 bytes). -/
def decodeEntry (bs : List Byte) : TiffWangEntry :=
  { DataType := u32At bs 0, DataSize := u32At bs 4 }

/-- The values of `enum class TiffWangDataType`. -/
def TiffWangDataType.GLOBAL_NAMED_BLOCK : Nat := 2
def TiffWangDataType.ATTRIBUTE_DATA : Nat := 5
def TiffWangDataType.LOCAL_NAMED_BLOCK : Nat := 6

/-- The struct `TiffWangNamedBlock`. -/
structure TiffWangNamedBlock where
  Name : List Byte
  Size : Nat
deriving DecidableEq, Repr, Inhabited

/-- Layout of `TiffWangNamedBlock` (12 bytes). -/
def decodeNamedBlock (bs : List Byte) : TiffWangNamedBlock :=
  { Name := bs.take 8, Size := u32At bs 8 }

/-- The CRT function `strnlen_s`: the number of bytes before the first NUL, at most `n`. -/
def strnlen_s (s : List Byte) (n : Nat) : Nat := ((s.take n).takeWhile (fun b => b != 0)).length

/-! ## The callback interface -/

/-- One call on `IWangAnnotationCallback`, with its arguments. `RenderText` is the
overload for `std::string`, `RenderTextW` the one for `std::wstring`. -/
inductive Call where
  | RenderLine (bounds : RECT) (points : List POINT) (color : RGBQUAD) (size : Nat)
      (highlight transparent : Bool)
  | RenderRect (bounds : RECT) (color : RGBQUAD) (highlight transparent : Bool)
  | RenderBorderedRect (bounds : RECT) (color borderColor : RGBQUAD) (lineSize : Nat)
      (highlight transparent : Bool)
  | RenderOutlinedRect (bounds : RECT) (color : RGBQUAD) (lineSize : Nat)
      (highlight transparent : Bool)
  | RenderText (text : List Byte) (bounds : RECT) (font : LOGFONTA) (info : OIAN_TEXTPRIVDATA)
      (color : RGBQUAD)
  | RenderTextW (text : List Nat) (bounds : RECT) (font : LOGFONTA) (info : OIAN_TEXTPRIVDATA)
      (color : RGBQUAD)
  | RenderMask (filename : List Byte) (bounds : RECT) (rotation : AN_NEW_ROTATE_STRUCT)
  | RenderImageReference (filename : List Byte) (bounds : RECT)
      (rotation : AN_NEW_ROTATE_STRUCT) (highlight transparent : Bool)
  | RenderImage (filename : List Byte) (bounds : RECT) (rotation : AN_NEW_ROTATE_STRUCT)
      (data : List Byte) (highlight transparent : Bool)
deriving DecidableEq, Repr

/-! ## WangAnnotationReader -/

/-- The class `WangAnnotationReader`: the owned payload, the cursor and whether a handler
is registered (`m_Handler != nullptr`). `m_Size` is `m_AnnotationData.size()`. -/
structure WangAnnotationReader where
  m_AnnotationData : List Byte
  m_Offset : Nat
  m_Handler : Bool
deriving DecidableEq, Repr

/-- The three values of `std::ios::seekdir`. -/
inductive seekdir where
  | beg
  | cur
  | fromEnd
deriving DecidableEq, Repr

namespace WangAnnotationReader

/-- Member `m_Size`, set once by the constructor to `m_AnnotationData.size()`. -/
def m_Size (r : WangAnnotationReader) : Nat := r.m_AnnotationData.length

/-- Method `WangAnnotationReader::SizeLeft`. -/
def SizeLeft (r : WangAnnotationReader) : Nat :=
  if r.m_Offset ≥ r.m_Size then 0 else r.m_Size - r.m_Offset

/-- Method `WangAnnotationReader::Eof`. -/
def Eof (r : WangAnnotationReader) : Bool := r.SizeLeft == 0

/-- Method `WangAnnotationReader::AssertSizeLeft`. -/
def AssertSizeLeft (r : WangAnnotationReader) (required : Nat) : Except WangError Unit :=
  if r.SizeLeft < required then .error .insufficientData else .ok ()

/-- Method `WangAnnotationReader::Seek`. -/
def Seek (r : WangAnnotationReader) (offset : Int) (dir : seekdir) :
    Except WangError WangAnnotationReader :=
  match dir with
  | .beg =>
    if offset < 0 ∨ offset ≥ (r.m_Size : Int) then .error .seekOutOfRange
    else .ok { r with m_Offset := offset.toNat }
  | .fromEnd =>
    let newOffset : Int := ((r.m_Offset + r.m_Size : Nat) : Int) + offset
    if newOffset < 0 ∨ newOffset ≥ (r.m_Size : Int) then .error .seekOutOfRange
    else .ok { r with m_Offset := newOffset.toNat }
  | .cur =>
    let newOffset : Int := (r.m_Offset : Int) + offset
    if newOffset < 0 ∨ newOffset ≥ (r.m_Size : Int) then .error .seekOutOfRange
    else .ok { r with m_Offset := newOffset.toNat }

/-- The bytes from the cursor to the end of the payload. -/
def rest (r : WangAnnotationReader) : List Byte := r.m_AnnotationData.drop r.m_Offset

/-- The reader after `m_Offset += n`. -/
def advance (r : WangAnnotationReader) (n : Nat) : WangAnnotationReader :=
  { r with m_Offset := r.m_Offset + n }

/-- The `n` bytes that start at the cursor (`GetAddress` followed by a copy of `n` bytes). -/
def bytesAtCursor (r : WangAnnotationReader) (n : Nat) : List Byte := r.rest.take n

/-- Method `WangAnnotationReader::Read<TValue>()` for a 4-byte integral or enum type. -/
def ReadScalar32 (r : WangAnnotationReader) : Except WangError (Nat × WangAnnotationReader) :=
  match r.AssertSizeLeft 4 with
  | .error e => .error e
  | .ok () => .ok (u32At (r.bytesAtCursor 4) 0, { r with m_Offset := r.m_Offset + 4 })

/-- Method `WangAnnotationReader::Read(TValue&)` for a class of `size` bytes whose layout
is `decode`; `none` is the result `false`, which leaves the value and the cursor alone. -/
def ReadStruct {α : Type} (r : WangAnnotationReader) (size : Nat) (decode : List Byte → α) :
    Option (α × WangAnnotationReader) :=
  if r.SizeLeft < size then none
  else some (decode (r.bytesAtCursor size), { r with m_Offset := r.m_Offset + size })

/-- The index that `Read(std::string&, size_t)` and `Read(std::vector<uint8_t>&, size_t)`
subscript the payload at. Once the guard `if (SizeLeft() < length) return false;` has let
them pass, both evaluate `&m_AnnotationData[m_Offset]`, whatever `length` is (zero
included). `none` is the guard returning false. The index is a valid subscript of the
payload only when it is below `m_Size`. -/
def subscriptOfRead (r : WangAnnotationReader) (length : Nat) : Option Nat :=
  if r.SizeLeft < length then none else some r.m_Offset

/-- Method `WangAnnotationReader::Read(std::string&, size_t)`: the guard, the subscript
`&m_AnnotationData[m_Offset]`, the copy of `length` bytes from there, `m_Offset += length`.
The address is only taken, the bytes read through it are the `length` bytes of the copy; the
result is what the method does when taking the address of the element one past the end does
no harm. -/
def ReadString (r : WangAnnotationReader) (length : Nat) :
    Option (List Byte × WangAnnotationReader) :=
  match r.subscriptOfRead length with
  | none => none
  | some i =>
    some ((r.m_AnnotationData.drop i).take length, { r with m_Offset := r.m_Offset + length })

/-- Method `WangAnnotationReader::Read(std::vector<uint8_t>&, size_t)`: the guard,
`value.resize(length)`, the subscripts `&value[0]` and `&m_AnnotationData[m_Offset]`, the
`memcpy` of `length` bytes, `m_Offset += length`. As in `ReadString` the two addresses are
only taken (for `length = 0` the first is that of element 0 of an empty vector). -/
def ReadBytes (r : WangAnnotationReader) (length : Nat) :
    Option (List Byte × WangAnnotationReader) :=
  match r.subscriptOfRead length with
  | none => none
  | some i =>
    some ((r.m_AnnotationData.drop i).take length, { r with m_Offset := r.m_Offset + length })

end WangAnnotationReader

/-- Conversion of a `BOOL` argument to the `bool` parameter of a callback. -/
def toBool (b : Int) : Bool := b != 0

/-- The placeholder `"<unknown image name>"` of `EmitMark`. -/
def unknownImageName : List Byte := ascii "<unknown image name>"

/-- The gate `m_Handler == nullptr || !attributes.bVisible` of every rendering case. -/
def notRendered (r : WangAnnotationReader) (attributes : OIAN_MARK_ATTRIBUTES) : Bool :=
  !r.m_Handler || attributes.bVisible == 0

/-- The cases `AttachANote`, `TextStamp`, `TypedText` and `TextFromFile` of `EmitMark`. -/
def emitText (r : WangAnnotationReader) (mark : TiffWangMark) :
    Except WangError (TiffWangMark × List Call) :=
  let attributes := mark.Attributes
  if notRendered r attributes then .ok (mark, [])
  else if !mark.AnySet [.LocalAsciiTextSet, .LocalUnicodeTextSet] then .ok (mark, [])
  else
    let rect : List Call :=
      if attributes.uType = OAIN_MARK_TYPE.AttachANote then
        [Call.RenderRect attributes.lrBounds attributes.rgbColor1
          (toBool attributes.bHighlighting) (toBool attributes.bTransparent)]
      else []
    let color :=
      if attributes.uType = OAIN_MARK_TYPE.AttachANote then attributes.rgbColor2
      else attributes.rgbColor1
    if mark.IsSet .LocalAsciiTextSet then
      match mark.LocalAsciiText, mark.LocalText with
      | .ok text, .ok info =>
        .ok (mark, rect ++ [Call.RenderText text attributes.lrBounds attributes.lfFont info color])
      | .error e, _ => .error e
      | _, .error e => .error e
    else if mark.IsSet .LocalUnicodeTextSet then
      match mark.LocalUnicodeText, mark.LocalText with
      | .ok text, .ok info =>
        .ok (mark, rect ++ [Call.RenderTextW text attributes.lrBounds attributes.lfFont info color])
      | .error e, _ => .error e
      | _, .error e => .error e
    else .ok (mark, rect)

/-- The cases `StraightLine` and `FreehandLine` of `EmitMark`. -/
def emitLine (r : WangAnnotationReader) (mark : TiffWangMark) :
    Except WangError (TiffWangMark × List Call) :=
  let attributes := mark.Attributes
  if notRendered r attributes then .ok (mark, [])
  else if !mark.IsSet .LocalPointsSet then .ok (mark, [])
  else
    match mark.LocalPointList with
    | .error e => .error e
    | .ok points =>
      .ok (mark, [Call.RenderLine attributes.lrBounds points attributes.rgbColor1
        attributes.uLineSize (toBool attributes.bHighlighting) (toBool attributes.bTransparent)])

/-- The case `FilledRectangle` of `EmitMark`. -/
def emitFilledRectangle (r : WangAnnotationReader) (mark : TiffWangMark) :
    Except WangError (TiffWangMark × List Call) :=
  let attributes := mark.Attributes
  if notRendered r attributes then .ok (mark, [])
  else .ok (mark, [Call.RenderRect attributes.lrBounds attributes.rgbColor1
    (toBool attributes.bHighlighting) (toBool attributes.bTransparent)])

/-- The case `HollowRectangle` of `EmitMark`. -/
def emitHollowRectangle (r : WangAnnotationReader) (mark : TiffWangMark) :
    Except WangError (TiffWangMark × List Call) :=
  let attributes := mark.Attributes
  if notRendered r attributes then .ok (mark, [])
  else .ok (mark, [Call.RenderOutlinedRect attributes.lrBounds attributes.rgbColor1
    attributes.uLineSize (toBool attributes.bHighlighting) (toBool attributes.bTransparent)])

/-- The case `Form` of `EmitMark`. -/
def emitForm (r : WangAnnotationReader) (mark : TiffWangMark) :
    Except WangError (TiffWangMark × List Call) :=
  let attributes := mark.Attributes
  if notRendered r attributes then .ok (mark, [])
  else if !mark.AnySet [.LocalFilenameSet, .LocalRotationSet] then .ok (mark, [])
  else
    match mark.LocalFileName, mark.LocalRotation with
    | .ok filename, .ok rotation =>
      .ok (mark, [Call.RenderMask filename attributes.lrBounds rotation])
    | .error e, _ => .error e
    | _, .error e => .error e

/-- The case `ImageReference` of `EmitMark`. -/
def emitImageReference (r : WangAnnotationReader) (mark : TiffWangMark) :
    Except WangError (TiffWangMark × List Call) :=
  let attributes := mark.Attributes
  if notRendered r attributes then .ok (mark, [])
  else if !mark.AnySet [.LocalFilenameSet, .LocalRotationSet] then .ok (mark, [])
  else
    match mark.LocalFileName, mark.LocalRotation with
    | .ok filename, .ok rotation =>
      .ok (mark, [Call.RenderImageReference filename attributes.lrBounds rotation
        (toBool attributes.bHighlighting) (toBool attributes.bTransparent)])
    | .error e, _ => .error e
    | _, .error e => .error e

/-- The case `ImageEmbedded` of `EmitMark`; the placeholder file name is written into the
Local tier of the mark (through `FileNameSetter(false)`) before the accessors are called. -/
def emitImageEmbedded (r : WangAnnotationReader) (mark : TiffWangMark) :
    Except WangError (TiffWangMark × List Call) :=
  let attributes := mark.Attributes
  if notRendered r attributes then .ok (mark, [])
  else if !mark.IsSet .LocalDibInfoSet then .ok (mark, [])
  else
    let mark :=
      if !mark.IsSet .LocalFilenameSet then
        (mark.FileNameSetter false).assign false (fun p => { p with FileName := unknownImageName })
      else mark
    match mark.LocalFileName, mark.LocalRotation, mark.LocalDibInfo with
    | .ok filename, .ok rotation, .ok data =>
      .ok (mark, [Call.RenderImage filename attributes.lrBounds rotation data
        (toBool attributes.bHighlighting) (toBool attributes.bTransparent)])
    | .error e, _, _ => .error e
    | _, .error e, _ => .error e
    | _, _, .error e => .error e

/-- Method `WangAnnotationReader::EmitMark`: the switch on `attributes.uType`. The result
is the mark after the call and the calls made on the handler, in order; `OCRRegion` and
every unknown type call nothing. -/
def EmitMark (r : WangAnnotationReader) (mark : TiffWangMark) :
    Except WangError (TiffWangMark × List Call) :=
  let t := mark.Attributes.uType
  if t = OAIN_MARK_TYPE.AttachANote ∨ t = OAIN_MARK_TYPE.TextStamp ∨
      t = OAIN_MARK_TYPE.TypedText ∨ t = OAIN_MARK_TYPE.TextFromFile then emitText r mark
  else if t = OAIN_MARK_TYPE.StraightLine ∨ t = OAIN_MARK_TYPE.FreehandLine then emitLine r mark
  else if t = OAIN_MARK_TYPE.FilledRectangle then emitFilledRectangle r mark
  else if t = OAIN_MARK_TYPE.HollowRectangle then emitHollowRectangle r mark
  else if t = OAIN_MARK_TYPE.Form then emitForm r mark
  else if t = OAIN_MARK_TYPE.ImageReference then emitImageReference r mark
  else if t = OAIN_MARK_TYPE.ImageEmbedded then emitImageEmbedded r mark
  else .ok (mark, [])

/-- The effect of `std::vector<POINT>::resize(n)`: the first `n` elements are kept, new
elements are value-initialised. -/
def resize (l : List POINT) (n : Nat) : List POINT :=
  l.take n ++ List.replicate (n - l.length) { x := 0, y := 0 }

/-- The loop `for (i = 0; i < nPoints; ++i) if (!Read(PointListSetter(isGlobal)[i])) return false;`
of `ProcessNamedBlock`, from index `i` with `remaining` elements still to read. -/
def readPointList (isGlobal : Bool) :
    Nat → Nat → WangAnnotationReader → TiffWangMark → Bool × WangAnnotationReader × TiffWangMark
  | 0, _, r, mark => (true, r, mark)
  | remaining + 1, i, r, mark =>
    let mark := mark.PointListSetter isGlobal
    match r.ReadStruct 8 decodePOINT with
    | none => (false, r, mark)
    | some (pt, r) =>
      readPointList isGlobal remaining (i + 1) r
        (mark.assign isGlobal (fun p => { p with PointList := p.PointList.set i pt }))

/-- The test `!(text.size() & 1)` followed by the scan of `text[0 .. size - 2]` for a zero
byte: true when the bytes are kept as 8-bit text. -/
def isAnsi (text : List Byte) : Bool :=
  if text.length &&& 1 = 0 then !(text.take (text.length - 1)).any (fun b => b == 0) else true

/-- The loop `unicodeText[i / 2] = (text[i] << 8) | text[i + 1]`. -/
def toUnicode : List Byte → List Nat
  | a :: b :: rest => ((a.val <<< 8) ||| b.val) :: toUnicode rest
  | _ => []

/-- The cases `FreehandLine` and `StraightLine` of the branch "OiAnoDat" of
`ProcessNamedBlock`: `Read(PointsSetter)`, `PointListSetter.resize(Points().nPoints)`, then
the loop over the points. The `int` count is converted to `size_t` for `resize`, so a
negative count asks for more than `max_size()` elements and `resize` throws; memory is
taken to suffice for every other count. -/
def processPoints (r : WangAnnotationReader) (mark : TiffWangMark) (isGlobal : Bool) :
    Except WangError (Bool × WangAnnotationReader × TiffWangMark) :=
  let mark := mark.PointsSetter isGlobal
  match r.ReadStruct 8 decodePoints with
  | none => .ok (false, r, mark)
  | some (pts, r) =>
    let mark := mark.assign isGlobal (fun p => { p with Points := pts })
    let mark := mark.PointListSetter isGlobal
    match mark.Points with
    | .error e => .error e
    | .ok points =>
      if points.nPoints < 0 then .error .lengthError
      else
        let n := points.nPoints.toNat
        let mark := mark.assign isGlobal (fun p => { p with PointList := resize p.PointList n })
        .ok (readPointList isGlobal n 0 r mark)

/-- The cases `ImageEmbedded` and `ImageReference` of the branch "OiAnoDat". -/
def processRotation (r : WangAnnotationReader) (mark : TiffWangMark) (isGlobal : Bool) :
    Bool × WangAnnotationReader × TiffWangMark :=
  let mark := mark.RotationSetter isGlobal
  match r.ReadStruct 56 decodeRotation with
  | none => (false, r, mark)
  | some (rot, r) => (true, r, mark.assign isGlobal (fun p => { p with Rotation := rot }))

/-- The branch "OiAnoDat" of `ProcessNamedBlock`. -/
def processAnoDat (r : WangAnnotationReader) (mark : TiffWangMark) (isGlobal : Bool) :
    Except WangError (Bool × WangAnnotationReader × TiffWangMark) :=
  if mark.HasAttributes then
    let t := mark.Attributes.uType
    if t = OAIN_MARK_TYPE.FreehandLine ∨ t = OAIN_MARK_TYPE.StraightLine then
      processPoints r mark isGlobal
    else if t = OAIN_MARK_TYPE.ImageEmbedded ∨ t = OAIN_MARK_TYPE.ImageReference then
      .ok (processRotation r mark isGlobal)
    else .ok (true, r, mark)
  else .ok (true, r, mark)

/-- The branch "OiFilNam" of `ProcessNamedBlock`. -/
def processFilNam (r : WangAnnotationReader) (block : TiffWangNamedBlock) (mark : TiffWangMark)
    (isGlobal : Bool) : Bool × WangAnnotationReader × TiffWangMark :=
  let mark := mark.FileNameSetter isGlobal
  match r.ReadString block.Size with
  | none => (false, r, mark)
  | some (v, r) => (true, r, mark.assign isGlobal (fun p => { p with FileName := v }))

/-- The branch "OiDIB" of `ProcessNamedBlock`. -/
def processDIB (r : WangAnnotationReader) (block : TiffWangNamedBlock) (mark : TiffWangMark)
    (isGlobal : Bool) : Bool × WangAnnotationReader × TiffWangMark :=
  let mark := mark.DibInfoSetter isGlobal
  match r.ReadBytes block.Size with
  | none => (false, r, mark)
  | some (v, r) => (true, r, mark.assign isGlobal (fun p => { p with DibInfo := v }))

/-- The branch "OiGroup" of `ProcessNamedBlock`. -/
def processGroup (r : WangAnnotationReader) (block : TiffWangNamedBlock) (mark : TiffWangMark)
    (isGlobal : Bool) : Bool × WangAnnotationReader × TiffWangMark :=
  let mark := mark.GroupSetter isGlobal
  match r.ReadString block.Size with
  | none => (false, r, mark)
  | some (v, r) => (true, r, mark.assign isGlobal (fun p => { p with Group := v }))

/-- The branch "OiIndex" of `ProcessNamedBlock`. -/
def processIndex (r : WangAnnotationReader) (block : TiffWangNamedBlock) (mark : TiffWangMark)
    (isGlobal : Bool) : Bool × WangAnnotationReader × TiffWangMark :=
  let mark := mark.IndexSetter isGlobal
  match r.ReadString block.Size with
  | none => (false, r, mark)
  | some (v, r) => (true, r, mark.assign isGlobal (fun p => { p with Index := v }))

/-- The branch "OiAnText" of `ProcessNamedBlock`. -/
def processAnText (r : WangAnnotationReader) (mark : TiffWangMark) (isGlobal : Bool) :
    Bool × WangAnnotationReader × TiffWangMark :=
  let mark := mark.TextSetter isGlobal
  match r.ReadStruct 16 decodeText with
  | none => (false, r, mark)
  | some (info, r) =>
    let mark := mark.assign isGlobal (fun p => { p with Text := info })
    if (mark.Text isGlobal).uAnoTextLength = 0 then
      (true, r, (mark.AsciiTextSetter isGlobal).assign isGlobal
        (fun p => { p with AsciiText := [] }))
    else
      match r.ReadBytes (mark.Text isGlobal).uAnoTextLength with
      | none => (false, r, mark)
      | some (text, r) =>
        if isAnsi text then
          (true, r, (mark.AsciiTextSetter isGlobal).assign isGlobal
            (fun p => { p with AsciiText := text }))
        else
          (true, r, (mark.UnicodeTextSetter isGlobal).assign isGlobal
            (fun p => { p with UnicodeText := toUnicode text }))

/-- The name-specific branch of `ProcessNamedBlock`, up to (not including) the final
`Seek(next)`; the Boolean is false where the source executes `return false`. The name is
`std::string(block.Name, strnlen_s(block.Name, 8))`; "OiHypLnk" and every unknown name do
nothing. -/
def namedBlockBranch (r : WangAnnotationReader) (block : TiffWangNamedBlock)
    (mark : TiffWangMark) (isGlobal : Bool) :
    Except WangError (Bool × WangAnnotationReader × TiffWangMark) :=
  let name := block.Name.take (strnlen_s block.Name 8)
  if name = ascii "OiAnoDat" then processAnoDat r mark isGlobal
  else if name = ascii "OiFilNam" then .ok (processFilNam r block mark isGlobal)
  else if name = ascii "OiDIB" then .ok (processDIB r block mark isGlobal)
  else if name = ascii "OiGroup" then .ok (processGroup r block mark isGlobal)
  else if name = ascii "OiIndex" then .ok (processIndex r block mark isGlobal)
  else if name = ascii "OiAnText" then .ok (processAnText r mark isGlobal)
  else .ok (true, r, mark)

/-- Method `WangAnnotationReader::ProcessNamedBlock`: `next` is computed first, then the
branch of the name runs, then `try { Seek(next, std::ios::beg); } catch (...) { return false; }`. -/
def ProcessNamedBlock (r : WangAnnotationReader) (block : TiffWangNamedBlock)
    (mark : TiffWangMark) (is16bit isGlobal : Bool) :
    Except WangError (Bool × WangAnnotationReader × TiffWangMark) :=
  let next : Int := (r.m_Offset : Int) + (block.Size : Int) + (if is16bit then 4 else 0)
  match namedBlockBranch r block mark isGlobal with
  | .error e => .error e
  | .ok (false, r, mark) => .ok (false, r, mark)
  | .ok (true, r, mark) =>
    match r.Seek next .beg with
    | .error _ => .ok (false, r, mark)
    | .ok r => .ok (true, r, mark)

/-- The state of `WangAnnotationReader::Read` while it runs: the reader (cursor), the mark
in progress, the calls made on the handler so far and, as a record of the run, the mark
states that were handed to `EmitMark` so far. -/
structure ReadState where
  reader : WangAnnotationReader
  currentMark : TiffWangMark
  calls : List Call
  emitted : List TiffWangMark
deriving DecidableEq, Repr

/-- The statement `EmitMark(currentMark)` inside `Read`. -/
def emit (s : ReadState) : Except WangError ReadState :=
  match EmitMark s.reader s.currentMark with
  | .error e => .error e
  | .ok (mark, calls) =>
    .ok { s with currentMark := mark, calls := s.calls ++ calls,
                 emitted := s.emitted ++ [s.currentMark] }

/-- The cases `GLOBAL_NAMED_BLOCK` and `LOCAL_NAMED_BLOCK` of the switch in `Read`:
`if (!Read(block) || !ProcessNamedBlock(...)) keepParsing = false;`. -/
def namedBlockCase (is16BitMode isGlobal : Bool) (s : ReadState) :
    Except WangError (Bool × ReadState) :=
  match s.reader.ReadStruct 12 decodeNamedBlock with
  | none => .ok (false, s)
  | some (block, r) =>
    match ProcessNamedBlock r block s.currentMark is16BitMode isGlobal with
    | .error e => .error e
    | .ok (ok, r, mark) => .ok (ok, { s with reader := r, currentMark := mark })

/-- The case `ATTRIBUTE_DATA` of the switch in `Read`. -/
def attributeCase (s : ReadState) : Except WangError (Bool × ReadState) :=
  match (if s.currentMark.HasAttributes then emit s else .ok s) with
  | .error e => .error e
  | .ok s =>
    let mark := s.currentMark.AssignGlobalToLocal
    match s.reader.ReadStruct sizeof_OIAN_MARK_ATTRIBUTES decodeAttributes with
    | none => .ok (false, { s with currentMark := mark })
    | some (attributes, r) =>
      .ok (true, { s with reader := r,
                          currentMark := ({ mark with m_Attributes := attributes }).SetAttributes })

/-- One pass through the body of `while (keepParsing)` in `Read`; the Boolean is the value
of `keepParsing` at the end of the pass (false also for the `break` on a failed entry read). -/
def iteration (is16BitMode : Bool) (s : ReadState) : Except WangError (Bool × ReadState) :=
  match s.reader.ReadStruct 8 decodeEntry with
  | none => .ok (false, s)
  | some (entry, r) =>
    let s := { s with reader := r }
    let switch : Except WangError (Bool × ReadState) :=
      if entry.DataType = TiffWangDataType.GLOBAL_NAMED_BLOCK then namedBlockCase is16BitMode true s
      else if entry.DataType = TiffWangDataType.ATTRIBUTE_DATA then attributeCase s
      else if entry.DataType = TiffWangDataType.LOCAL_NAMED_BLOCK then
        namedBlockCase is16BitMode false s
      else .ok (true, s)
    match switch with
    | .error e => .error e
    | .ok (keepParsing, s) =>
      .ok (keepParsing && (!s.reader.Eof && decide (s.reader.SizeLeft ≥ 20)), s)

/-- The loop `while (keepParsing)` of `Read`, run for at most `fuel` passes. -/
def readLoop (is16BitMode : Bool) : Nat → ReadState → Except WangError ReadState
  | 0, _ => .error .fuelExhausted
  | fuel + 1, s =>
    match iteration is16BitMode s with
    | .error e => .error e
    | .ok (true, s) => readLoop is16BitMode fuel s
    | .ok (false, s) => .ok s

/-- Method `WangAnnotationReader::Read`, on a reader whose cursor is where the constructor
left it. The mark in progress starts with no flag set. Every pass of the loop moves the
cursor forward by at least 8 bytes, so `m_Size + 1` passes are never used up. -/
def Read (r : WangAnnotationReader) : Except WangError ReadState :=
  match r.Seek 4 .cur with
  | .error e => .error e
  | .ok r =>
    match r.ReadScalar32 with
    | .error e => .error e
    | .ok (mode, r) =>
      let is16BitMode := decide (mode = 0)
      match readLoop is16BitMode (r.m_Size + 1)
          { reader := r, currentMark := default, calls := [], emitted := [] } with
      | .error e => .error e
      | .ok s => if s.currentMark.HasAttributes then emit s else .ok s

/-- The reader that the constructor builds over a payload: cursor 0. -/
def WangAnnotationReader.over (payload : List Byte) (handler : Bool) : WangAnnotationReader :=
  { m_AnnotationData := payload, m_Offset := 0, m_Handler := handler }

/-- The outcome of `run()`: `Read` on a fresh reader over `payload`. -/
def run (payload : List Byte) (handler : Bool) : Except WangError ReadState :=
  Read (WangAnnotationReader.over payload handler)

/-! ## TiffFile: the header of the container -/

/-- The exceptions of the container layer (all `std::runtime_error` but the last two,
which are `std::out_of_range`), told apart by their message. -/
inductive TiffError where
  /-- Message "insufficient data left in stream" (`AssertSizeLeft`). -/
  | insufficientData
  /-- Message "malformed or unsupported TIFF header, byte order indication not 'II' or 'MM'". -/
  | byteOrder
  /-- Message "malformed or unsupported TIFF header, magic number is not the expected '42'". -/
  | magicNumber
  /-- Message "unexpected type for IFD tag encountered ..." and its variants. -/
  | unexpectedType
  /-- Message "insufficient data in output buffer ...". -/
  | bufferTooSmall
  /-- Message "cannot process provided TiffIfdEntry, entry holds no values". -/
  | noValues
  /-- Message "requested page index is out of range". -/
  | pageIndex
  /-- Message "requested IFD index is out of range". -/
  | ifdIndex
  /-- Message "cannot process provided TiffIfdEntry as eiStream/WANG Annotation data". -/
  | notWangTag
  /-- The `std::bad_function_call` of an empty `std::function`. -/
  | badFunctionCall
  /-- The `std::out_of_range` of `std::vector::at`. -/
  | vectorAt
  /-- Not an exception: `operator[]` past the end of a vector, where the behaviour of the
  source is undefined. The embedding stops there. -/
  | subscriptPastEnd
  /-- Not an exception: the `while (true)` of `ReadIfdCollection` was still running when
  the fuel of the embedding ran out. -/
  | fuelExhausted
deriving DecidableEq, Repr

/-- The constant `IntelEndian`. -/
def IntelEndian : List Byte := ascii "II"
/-- The constant `MotorolaEndian`. -/
def MotorolaEndian : List Byte := ascii "MM"
/-- The constant `Magic`. -/
def Magic : Nat := 42

/-- The CRT function `tolower` in the "C" locale. -/
def tolower (c : Byte) : Byte := if 65 ≤ c.val ∧ c.val ≤ 90 then c + 32 else c

/-- The CRT function `_stricmp` on two NUL-terminated strings held in memory: the
difference of the first pair of lower-cased characters that differ, 0 when both strings
end together. The end of a list stands for the terminating NUL. -/
def stricmp : List Byte → List Byte → Int
  | [], [] => 0
  | [], c2 :: _ => 0 - ((tolower c2).val : Int)
  | c1 :: _, [] => ((tolower c1).val : Int)
  | c1 :: s1, c2 :: s2 =>
    if tolower c1 ≠ tolower c2 then ((tolower c1).val : Int) - ((tolower c2).val : Int)
    else if c1 = 0 then 0
    else stricmp s1 s2

/-- The intrinsic `_byteswap_ushort`. -/
def byteswap_ushort (v : Nat) : Nat := (v % 256) * 256 + (v / 256) % 256

/-- The intrinsic `_byteswap_ulong`. -/
def byteswap_ulong (v : Nat) : Nat :=
  (v % 256) * 16777216 + ((v / 256) % 256) * 65536 + ((v / 65536) % 256) * 256 +
    (v / 16777216) % 256

/-- The macro `le_to_host_ushort` on this (little-endian) host. -/
def le_to_host_ushort (v : Nat) : Nat := v
/-- The macro `be_to_host_ushort` on this (little-endian) host. -/
def be_to_host_ushort (v : Nat) : Nat := byteswap_ushort v
/-- The macro `le_to_host_ulong` on this (little-endian) host. -/
def le_to_host_ulong (v : Nat) : Nat := v
/-- The macro `be_to_host_ulong` on this (little-endian) host. -/
def be_to_host_ulong (v : Nat) : Nat := byteswap_ulong v

/-- The packed struct `TiffHeader` (8 bytes). -/
structure TiffHeader where
  ByteOrder : List Byte
  Magic : Nat
  OffsetFirstIfd : Nat
deriving DecidableEq, Repr, Inhabited

/-- The packed struct `TiffIfdEntry`; `TagId` and `TagType` hold the raw enum values. -/
structure TiffIfdEntry where
  TagId : Nat
  TagType : Nat
  ValueCount : Nat
  ValueOffset : Nat
  IsWangTag : Bool
deriving DecidableEq, Repr, Inhabited

/-- The struct `TiffDimensions`; a `double` is held as the exact rational it stands for. -/
structure TiffDimensions where
  ResolutionX : Rat := 0
  ResolutionY : Rat := 0
  Height : Nat := 0
  Width : Nat := 0
  ResolutionUnit : Nat := 1
deriving DecidableEq, Repr, Inhabited

/-- Which table of decoders `m_IntegerReader` holds: none before `Init`, the `le_to_host_*`
one or the `be_to_host_*` one (the `...Le` members use `le_to_host_*` in both). -/
inductive TiffNumericReader where
  | empty
  | littleEndian
  | bigEndian
deriving DecidableEq, Repr, Inhabited

/-- The member `m_Stream`: a `std::ifstream` over the bytes of the file, its get position
and its fail state. -/
structure ifstream where
  content : List Byte
  pos : Nat
  failbit : Bool
deriving DecidableEq, Repr, Inhabited

/-- Method `tellg`: the position, or -1 once the stream has failed. -/
def ifstream.tellg (s : ifstream) : Int := if s.failbit then -1 else (s.pos : Int)

/-- Method `read(buffer, n)`: nothing on a failed stream; otherwise up to `n` bytes, and
when fewer than `n` were left the stream fails (a read of no bytes never does). The bytes
that were stored are returned. -/
def ifstream.read (s : ifstream) (n : Nat) : List Byte × ifstream :=
  if s.failbit then ([], s)
  else if s.pos + n ≤ s.content.length then
    ((s.content.drop s.pos).take n, { s with pos := s.pos + n })
  else if n = 0 then ([], s)
  else (s.content.drop s.pos, { s with pos := s.content.length, failbit := true })

/-- The class `TiffFile`. -/
structure TiffFile where
  m_Stream : ifstream
  m_StreamSize : Nat
  m_IntegerReader : TiffNumericReader
  m_Header : TiffHeader
  m_PageIfdCollection : List (List TiffIfdEntry)
  m_Dimensions : List TiffDimensions
  m_Software : List (List Byte)
  m_DateTime : List (List Byte)
  m_Artist : List (List Byte)
deriving DecidableEq, Repr, Inhabited

namespace TiffFile

/-- Method `TiffFile::SizeLeft`. -/
def SizeLeft (f : TiffFile) : Nat :=
  if f.m_Stream.tellg ≥ (f.m_StreamSize : Int) then 0
  else ((f.m_StreamSize : Int) - f.m_Stream.tellg).toNat

/-- Method `TiffFile::AssertSizeLeft`. -/
def AssertSizeLeft (f : TiffFile) (required : Nat) : Except TiffError Unit :=
  if f.SizeLeft < required then .error .insufficientData else .ok ()

/-- Layout of the packed `TiffHeader` as `read` stores it on this host. -/
def decodeHeader (bs : List Byte) : TiffHeader :=
  { ByteOrder := bs.take 2, Magic := le16 (byteAt bs 2) (byteAt bs 3), OffsetFirstIfd := u32At bs 4 }

/-- The bytes of a 16-bit value in the memory of this host. -/
def bytes16 (v : Nat) : List Byte := [Fin.ofNat v, Fin.ofNat (v / 256)]

/-- The bytes of a 32-bit value in the memory of this host. -/
def bytes32 (v : Nat) : List Byte :=
  [Fin.ofNat v, Fin.ofNat (v / 256), Fin.ofNat (v / 65536), Fin.ofNat (v / 16777216)]

/-- The memory that starts at `m_Header.ByteOrder`: the array has no terminating NUL and
the struct is packed, so a C string function that is handed `ByteOrder` reads on into
`Magic` and `OffsetFirstIfd`. -/
def headerMemory (h : TiffHeader) : List Byte :=
  h.ByteOrder ++ bytes16 h.Magic ++ bytes32 h.OffsetFirstIfd

/-- Method `TiffFile::Read(TValue&)` at `TValue = TiffHeader`. -/
def ReadHeader (f : TiffFile) : Except TiffError TiffFile :=
  match f.AssertSizeLeft 8 with
  | .error e => .error e
  | .ok () =>
    let (bs, stream) := f.m_Stream.read 8
    .ok { f with m_Stream := stream, m_Header := decodeHeader bs }

/-- Method `TiffFile::Init`. -/
def Init (f : TiffFile) : Except TiffError TiffFile :=
  match f.ReadHeader with
  | .error e => .error e
  | .ok f =>
    let classified : Except TiffError TiffFile :=
      if stricmp (headerMemory f.m_Header) IntelEndian ≠ 0 then
        .ok { f with
          m_IntegerReader := .littleEndian
          m_Header := { f.m_Header with
            Magic := le_to_host_ushort f.m_Header.Magic
            OffsetFirstIfd := le_to_host_ulong f.m_Header.OffsetFirstIfd } }
      else if stricmp (headerMemory f.m_Header) MotorolaEndian ≠ 0 then
        .ok { f with
          m_IntegerReader := .bigEndian
          m_Header := { f.m_Header with
            Magic := be_to_host_ushort f.m_Header.Magic
            OffsetFirstIfd := be_to_host_ulong f.m_Header.OffsetFirstIfd } }
      else .error .byteOrder
    match classified with
    | .error e => .error e
    | .ok f => if f.m_Header.Magic ≠ Magic then .error .magicNumber else .ok f

/-- The object before `Init()` runs, as the constructor `TiffFile::TiffFile(filepath)`
leaves it on a file that can be opened and holds `file`: the stream at position 0,
`m_StreamSize` the size of the file, an all-zero header, empty collections. -/
def fresh (file : List Byte) : TiffFile :=
  { m_Stream := { content := file, pos := 0, failbit := false }
    m_StreamSize := file.length
    m_IntegerReader := .empty
    m_Header := { ByteOrder := [0, 0], Magic := 0, OffsetFirstIfd := 0 }
    m_PageIfdCollection := []
    m_Dimensions := []
    m_Software := []
    m_DateTime := []
    m_Artist := [] }

/-- The constructor `TiffFile::TiffFile(filepath)`, the `open()` of the specification. -/
def openFile (file : List Byte) : Except TiffError TiffFile := Init (fresh file)

end TiffFile

/-- The 8 bytes of a header with order marker "II": magic and offset least significant
byte first. -/
def encodeHeaderLE (magic offset : Nat) : List Byte :=
  ascii "II" ++ [Fin.ofNat magic, Fin.ofNat (magic / 256)] ++
    [Fin.ofNat offset, Fin.ofNat (offset / 256), Fin.ofNat (offset / 65536),
      Fin.ofNat (offset / 16777216)]

/-- The 8 bytes of a header with order marker "MM": magic and offset most significant
byte first. -/
def encodeHeaderBE (magic offset : Nat) : List Byte :=
  ascii "MM" ++ [Fin.ofNat (magic / 256), Fin.ofNat magic] ++
    [Fin.ofNat (offset / 16777216), Fin.ofNat (offset / 65536), Fin.ofNat (offset / 256),
      Fin.ofNat offset]

/-! ## TiffFile: the directories -/

/-- The values of `enum class TiffTagId`. -/
def TiffTagId.TIFF_WANG_TAG : Nat := 0x80a4
def TiffTagId.TIFF_IMAGE_WIDTH_TAG : Nat := 0x0100
def TiffTagId.TIFF_IMAGE_LENGTH_TAG : Nat := 0x0101
def TiffTagId.TIFF_IMAGE_XRESOLUTION : Nat := 0x011A
def TiffTagId.TIFF_IMAGE_YRESOLUTION : Nat := 0x011B
def TiffTagId.TIFF_IMAGE_RESOLUTION_UNIT : Nat := 0x0128
def TiffTagId.TIFF_PAGE_NUMBER : Nat := 0x0129
def TiffTagId.TIFF_IMAGE_SOFTWARE : Nat := 0x0131
def TiffTagId.TIFF_IMAGE_DATETIME : Nat := 0x0132
def TiffTagId.TIFF_IMAGE_ARTIST : Nat := 0x013B

/-- The values of `enum class TiffTagType`. -/
def TiffTagType.BYTE : Nat := 1
def TiffTagType.ASCII : Nat := 2
def TiffTagType.SHORT : Nat := 3
def TiffTagType.LONG : Nat := 4
def TiffTagType.RATIONAL : Nat := 5

/-- Outcome of a call on a `TiffFile`: the value returned or the exception that left the
call, together with the object as the call left it (members are changed in place, and an
exception undoes nothing). -/
abbrev Outcome (α : Type) := Except TiffError α × TiffFile

/-- Method `seekg(off, std::ios::beg)`: nothing on a failed stream; a negative offset
fails the stream; any other offset is taken, also one past the end of the file. -/
def ifstream.seekg (s : ifstream) (off : Int) : ifstream :=
  if s.failbit then s
  else if off < 0 then { s with failbit := true }
  else { s with pos := off.toNat }

/-- The effect of `std::vector<T>::resize(n)`: the first `n` elements are kept, new
elements are value-initialised to `d`. -/
def vector_resize {α : Type} (l : List α) (n : Nat) (d : α) : List α :=
  l.take n ++ List.replicate (n - l.length) d

/-- The scale of a binary64 quotient: the least `s` with `d * 2^52 ≤ n * 2^s`, so that
`n * 2^s / d` lies in `[2^52, 2^53)`, the range of a 53-bit significand. For `1 ≤ n` and
`d < 2^32` it is at most 84. -/
def binary64Shift (n d : Nat) : Nat :=
  ((List.range 128).find? (fun s => decide (d * 2 ^ 52 ≤ n * 2 ^ s))).getD 0

/-- The division `(double)n / (double)d` of two 32-bit unsigned values, `d ≠ 0`, in IEEE 754
binary64 arithmetic with the default rounding: the exact quotient rounded to 53 significant
bits, to nearest, ties to even. With `s = binary64Shift n d` the result is `m / 2^s`, where
`m` is the integer nearest to `n * 2^s / d` (the even one of two that are equally near).
Neither overflow nor underflow can occur for 32-bit values. -/
def binary64Quotient (n d : Nat) : Rat :=
  if n = 0 then 0
  else
    let s := binary64Shift n d
    let f := n * 2 ^ s / d
    let r := n * 2 ^ s % d
    let m := if 2 * r < d then f else if d < 2 * r then f + 1 else if f % 2 = 0 then f else f + 1
    (m : Rat) / ((2 ^ s : Nat) : Rat)

namespace TiffFile

/-- Method `TiffFile::Read<TValue>()` for a `TValue` of `n` bytes: the bytes of the local
`value` after `m_Stream.read` stored into it. The local is not initialised: `uninit` is
what its memory held before, and stays in the bytes that `read` did not store. -/
def ReadScalar (uninit : List Byte) (f : TiffFile) (n : Nat) : List Byte × TiffFile :=
  let r := f.m_Stream.read n
  (r.1 ++ (uninit.drop r.1.length).take (n - r.1.length), { f with m_Stream := r.2 })

/-- Member `m_IntegerReader.Uint16` as `Init` assigns it; calling the empty
`std::function` of an object that `Init` did not finish throws `std::bad_function_call`. -/
def Uint16 (uninit : List Byte) (f : TiffFile) : Outcome Nat :=
  match f.m_IntegerReader with
  | .empty => (.error .badFunctionCall, f)
  | .littleEndian =>
    let r := ReadScalar uninit f 2
    (.ok (le_to_host_ushort (le16 (byteAt r.1 0) (byteAt r.1 1))), r.2)
  | .bigEndian =>
    let r := ReadScalar uninit f 2
    (.ok (be_to_host_ushort (le16 (byteAt r.1 0) (byteAt r.1 1))), r.2)

/-- Member `m_IntegerReader.Uint32` as `Init` assigns it. -/
def Uint32 (uninit : List Byte) (f : TiffFile) : Outcome Nat :=
  match f.m_IntegerReader with
  | .empty => (.error .badFunctionCall, f)
  | .littleEndian =>
    let r := ReadScalar uninit f 4
    (.ok (le_to_host_ulong (u32At r.1 0)), r.2)
  | .bigEndian =>
    let r := ReadScalar uninit f 4
    (.ok (be_to_host_ulong (u32At r.1 0)), r.2)

/-- The element that `ifd.emplace_back()` constructs: value-initialised. -/
def emptyEntry : TiffIfdEntry :=
  { TagId := 0, TagType := 0, ValueCount := 0, ValueOffset := 0, IsWangTag := false }

/-- One pass of the loop over the tags of a directory in `ReadIfdCollection`: the new
element of `ifd` as far as it was assigned. -/
def readEntry (uninit : List Byte) (f : TiffFile) : Outcome Unit × TiffIfdEntry :=
  let entry := emptyEntry
  match Uint16 uninit f with
  | (.error e, f) => ((.error e, f), entry)
  | (.ok tagId, f) =>
    let entry := { entry with TagId := tagId }
    match Uint16 uninit f with
    | (.error e, f) => ((.error e, f), entry)
    | (.ok tagType, f) =>
      let entry := { entry with TagType := tagType }
      match Uint32 uninit f with
      | (.error e, f) => ((.error e, f), entry)
      | (.ok valueCount, f) =>
        let entry := { entry with ValueCount := valueCount }
        match Uint32 uninit f with
        | (.error e, f) => ((.error e, f), entry)
        | (.ok valueOffset, f) =>
          let entry := { entry with ValueOffset := valueOffset }
          ((.ok (), f),
            { entry with
              IsWangTag := decide (entry.TagId = TiffTagId.TIFF_WANG_TAG ∧
                entry.TagType = TiffTagType.BYTE) })

/-- The loop `for (auto i = 0; i < entries; ++i)` of `ReadIfdCollection` with `remaining`
passes to go; `ifd` is the directory under construction, the last element of
`m_PageIfdCollection`, held apart until the loop is left. -/
def readDirectoryEntries (uninit : List Byte) :
    Nat → TiffFile → List TiffIfdEntry → Outcome Unit × List TiffIfdEntry
  | 0, f, ifd => ((.ok (), f), ifd)
  | remaining + 1, f, ifd =>
    match readEntry uninit f with
    | ((.error e, f), entry) => ((.error e, f), ifd ++ [entry])
    | ((.ok (), f), entry) => readDirectoryEntries uninit remaining f (ifd ++ [entry])

/-- The `while (true)` of `ReadIfdCollection`, from the directory at the get position. -/
def readDirectories (uninit : List Byte) : Nat → TiffFile → Outcome Unit
  | 0, f => (.error .fuelExhausted, f)
  | fuel + 1, f =>
    match Uint16 uninit f with
    | (.error e, f) => (.error e, f)
    | (.ok entries, f) =>
      match readDirectoryEntries uninit entries f [] with
      | ((.error e, f), ifd) =>
        (.error e, { f with m_PageIfdCollection := f.m_PageIfdCollection ++ [ifd] })
      | ((.ok (), f), ifd) =>
        match Uint32 uninit { f with m_PageIfdCollection := f.m_PageIfdCollection ++ [ifd] } with
        | (.error e, f) => (.error e, f)
        | (.ok nextOffset, f) =>
          if nextOffset = 0 then (.ok (), f)
          else readDirectories uninit fuel { f with m_Stream := f.m_Stream.seekg nextOffset }

/-- Method `TiffFile::GetPageCount`. -/
def GetPageCount (f : TiffFile) : Nat := f.m_PageIfdCollection.length

/-- The loop `for (uint32_t i = 0; i < entry.ValueCount; ++i) result[i] = Uint16();` of
`ReadUnsignedShortArray`. -/
def readShorts (uninit : List Byte) : Nat → TiffFile → Outcome (List Nat)
  | 0, f => (.ok [], f)
  | remaining + 1, f =>
    match Uint16 uninit f with
    | (.error e, f) => (.error e, f)
    | (.ok v, f) =>
      match readShorts uninit remaining f with
      | (.error e, f) => (.error e, f)
      | (.ok vs, f) => (.ok (v :: vs), f)

/-- Method `TiffFile::ReadUnsignedShortArray`. -/
def ReadUnsignedShortArray (uninit : List Byte) (f : TiffFile) (entry : TiffIfdEntry) :
    Outcome (List Nat) :=
  if entry.TagType ≠ TiffTagType.SHORT then (.error .unexpectedType, f)
  else
    match readShorts uninit entry.ValueCount
        { f with m_Stream := f.m_Stream.seekg entry.ValueOffset } with
    | (.error e, g) => (.error e, g)
    | (.ok result, g) => (.ok result, { g with m_Stream := g.m_Stream.seekg f.m_Stream.tellg })

/-- Method `TiffFile::ReadRational`. A `double` is held as the rational number it stands
for; the two 32-bit values convert to `double` without rounding, the comparison
`denominator == 0` is that of the integers, and `numerator / denominator` is the binary64
division `binary64Quotient`. -/
def ReadRational (uninit : List Byte) (f : TiffFile) (entry : TiffIfdEntry) : Outcome Rat :=
  if entry.TagType ≠ TiffTagType.RATIONAL then (.error .unexpectedType, f)
  else
    match Uint32 uninit { f with m_Stream := f.m_Stream.seekg entry.ValueOffset } with
    | (.error e, g) => (.error e, g)
    | (.ok numerator, g) =>
      match Uint32 uninit g with
      | (.error e, g) => (.error e, g)
      | (.ok denominator, g) =>
        if denominator = 0 then (.ok 0, { g with m_Stream := g.m_Stream.seekg f.m_Stream.tellg })
        else
          (.ok (binary64Quotient numerator denominator),
            { g with m_Stream := g.m_Stream.seekg f.m_Stream.tellg })

/-- Method `TiffFile::ReadAsciiString`: the string starts as `ValueCount - 1` spaces and
`read` stores over them. -/
def ReadAsciiString (f : TiffFile) (entry : TiffIfdEntry) : Outcome (List Byte) :=
  if entry.TagType ≠ TiffTagType.ASCII then (.error .unexpectedType, f)
  else if entry.ValueCount ≤ 1 then (.ok [], f)
  else
    let r := (f.m_Stream.seekg entry.ValueOffset).read (entry.ValueCount - 1)
    (.ok (r.1 ++ List.replicate (entry.ValueCount - 1 - r.1.length) 32),
      { f with m_Stream := r.2.seekg f.m_Stream.tellg })

/-- Method `TiffFile::Read(const TiffIfdEntry&, uint8_t*, size_t)`: `buffer` is the memory
of the caller, returned as `read` leaves it. -/
def ReadBuffer (f : TiffFile) (entry : TiffIfdEntry) (buffer : List Byte) (size : Nat) :
    Outcome (List Byte) :=
  if entry.TagType ≠ TiffTagType.BYTE then (.error .unexpectedType, f)
  else
    match f.AssertSizeLeft size with
    | .error e => (.error e, f)
    | .ok () =>
      if size < entry.ValueCount then (.error .bufferTooSmall, f)
      else
        let r := (f.m_Stream.seekg entry.ValueOffset).read entry.ValueCount
        (.ok (r.1 ++ buffer.drop r.1.length), { f with m_Stream := r.2.seekg f.m_Stream.tellg })

/-- Method `TiffFile::Read(const TiffIfdEntry&, std::vector<uint8_t>&)`. -/
def ReadVector (f : TiffFile) (entry : TiffIfdEntry) (result : List Byte) :
    Outcome (List Byte) :=
  if entry.TagType ≠ TiffTagType.BYTE then (.error .unexpectedType, f)
  else if entry.ValueCount = 0 then (.error .noValues, f)
  else
    ReadBuffer f entry (vector_resize result entry.ValueCount 0)
      (vector_resize result entry.ValueCount 0).length

/-- What the search for the page-number tag in `CorrectIfdOrder` ends with: the `return`
on an index that is too large, the end of the directory, or the `break` with
`correctIndex`. -/
inductive PageNumberSearch where
  | returned
  | notFound
  | found (correctIndex : Nat)
deriving DecidableEq, Repr

/-- The loop over the tags of one directory in `CorrectIfdOrder`. -/
def findPageNumber (uninit : List Byte) (f : TiffFile) :
    List TiffIfdEntry → Outcome PageNumberSearch
  | [] => (.ok .notFound, f)
  | entry :: rest =>
    if entry.TagId = TiffTagId.TIFF_PAGE_NUMBER then
      match ReadUnsignedShortArray uninit f entry with
      | (.error e, f) => (.error e, f)
      | (.ok [], f) => (.error .subscriptPastEnd, f)
      | (.ok (correctIndex :: _), f) =>
        if correctIndex ≥ f.GetPageCount then (.ok .returned, f)
        else (.ok (.found correctIndex), f)
    else findPageNumber uninit f rest

/-- The loop over `m_PageIfdCollection` in `CorrectIfdOrder`, with `unordered` the
directories still to place: `none` when the function returns early, the filled
`orderedList` otherwise. -/
def placeDirectories (uninit : List Byte) :
    List (List TiffIfdEntry) → List (List TiffIfdEntry) → TiffFile →
      Outcome (Option (List (List TiffIfdEntry)))
  | [], orderedList, f => (.ok (some orderedList), f)
  | collection :: unordered, orderedList, f =>
    match findPageNumber uninit f collection with
    | (.error e, f) => (.error e, f)
    | (.ok .returned, f) => (.ok none, f)
    | (.ok .notFound, f) => (.ok none, f)
    | (.ok (.found correctIndex), f) =>
      placeDirectories uninit unordered (orderedList.set correctIndex collection) f

/-- Method `TiffFile::CorrectIfdOrder`. -/
def CorrectIfdOrder (uninit : List Byte) (f : TiffFile) : Outcome Unit :=
  match placeDirectories uninit f.m_PageIfdCollection
      (List.replicate f.m_PageIfdCollection.length []) f with
  | (.error e, f) => (.error e, f)
  | (.ok none, f) => (.ok (), f)
  | (.ok (some orderedList), f) => (.ok (), { f with m_PageIfdCollection := orderedList })

/-- The `switch (entry.TagId)` of `ReadIfdCollection` for the tag `entry` of page
`pageIndex`. -/
def scanEntry (uninit : List Byte) (pageIndex : Nat) (f : TiffFile) (entry : TiffIfdEntry) :
    Outcome Unit :=
  if entry.TagId = TiffTagId.TIFF_IMAGE_YRESOLUTION then
    match ReadRational uninit f entry with
    | (.error e, f) => (.error e, f)
    | (.ok v, f) =>
      (.ok (), { f with
        m_Dimensions := f.m_Dimensions.modify (fun d => { d with ResolutionY := v }) pageIndex })
  else if entry.TagId = TiffTagId.TIFF_IMAGE_XRESOLUTION then
    match ReadRational uninit f entry with
    | (.error e, f) => (.error e, f)
    | (.ok v, f) =>
      (.ok (), { f with
        m_Dimensions := f.m_Dimensions.modify (fun d => { d with ResolutionX := v }) pageIndex })
  else if entry.TagId = TiffTagId.TIFF_IMAGE_LENGTH_TAG then
    (.ok (), { f with
      m_Dimensions :=
        f.m_Dimensions.modify (fun d => { d with Height := entry.ValueOffset }) pageIndex })
  else if entry.TagId = TiffTagId.TIFF_IMAGE_WIDTH_TAG then
    (.ok (), { f with
      m_Dimensions :=
        f.m_Dimensions.modify (fun d => { d with Width := entry.ValueOffset }) pageIndex })
  else if entry.TagId = TiffTagId.TIFF_IMAGE_RESOLUTION_UNIT then
    (.ok (), { f with
      m_Dimensions :=
        f.m_Dimensions.modify (fun d => { d with ResolutionUnit := entry.ValueOffset % 65536 })
          pageIndex })
  else if entry.TagId = TiffTagId.TIFF_IMAGE_SOFTWARE then
    match ReadAsciiString f entry with
    | (.error e, f) => (.error e, f)
    | (.ok v, f) => (.ok (), { f with m_Software := f.m_Software.set pageIndex v })
  else if entry.TagId = TiffTagId.TIFF_IMAGE_DATETIME then
    match ReadAsciiString f entry with
    | (.error e, f) => (.error e, f)
    | (.ok v, f) => (.ok (), { f with m_DateTime := f.m_DateTime.set pageIndex v })
  else if entry.TagId = TiffTagId.TIFF_IMAGE_ARTIST then
    match ReadAsciiString f entry with
    | (.error e, f) => (.error e, f)
    | (.ok v, f) => (.ok (), { f with m_Artist := f.m_Artist.set pageIndex v })
  else (.ok (), f)

/-- The loop `for (const auto& entry : page)` of `ReadIfdCollection`. -/
def scanPage (uninit : List Byte) (pageIndex : Nat) : TiffFile → List TiffIfdEntry → Outcome Unit
  | f, [] => (.ok (), f)
  | f, entry :: rest =>
    match scanEntry uninit pageIndex f entry with
    | (.error e, f) => (.error e, f)
    | (.ok (), f) => scanPage uninit pageIndex f rest

/-- The loop `for (size_t pageIndex = 0; pageIndex < GetPageCount(); ++pageIndex)` of
`ReadIfdCollection`, from `pageIndex` with `remaining` pages to go. -/
def scanPages (uninit : List Byte) : Nat → Nat → TiffFile → Outcome Unit
  | 0, _, f => (.ok (), f)
  | remaining + 1, pageIndex, f =>
    match scanPage uninit pageIndex f (f.m_PageIfdCollection.getD pageIndex []) with
    | (.error e, f) => (.error e, f)
    | (.ok (), f) => scanPages uninit remaining (pageIndex + 1) f

/-- The four `resize(GetPageCount())` calls of `ReadIfdCollection`. -/
def resizeSideTables (f : TiffFile) : TiffFile :=
  { f with
    m_Dimensions := vector_resize f.m_Dimensions f.GetPageCount {}
    m_Software := vector_resize f.m_Software f.GetPageCount []
    m_Artist := vector_resize f.m_Artist f.GetPageCount []
    m_DateTime := vector_resize f.m_DateTime f.GetPageCount [] }

/-- Method `TiffFile::ReadIfdCollection`, the `read_directories()` of the specification.
The walk over the chain of directories need not end (a next-offset can point back), so
it runs on `fuel`: one unit per directory. -/
def ReadIfdCollection (fuel : Nat) (uninit : List Byte) (f : TiffFile) : Outcome Unit :=
  match readDirectories uninit fuel
      { f with m_Stream := f.m_Stream.seekg f.m_Header.OffsetFirstIfd } with
  | (.error e, f) => (.error e, f)
  | (.ok (), f) =>
    match CorrectIfdOrder uninit f with
    | (.error e, f) => (.error e, f)
    | (.ok (), f) => scanPages uninit f.GetPageCount 0 (resizeSideTables f)

/-- Method `TiffFile::AssertPageIndex`. -/
def AssertPageIndex (f : TiffFile) (pageIndex : Nat) : Except TiffError Unit :=
  if pageIndex ≥ f.GetPageCount then .error .pageIndex else .ok ()

/-- Method `TiffFile::GetPageIfdCount`. -/
def GetPageIfdCount (f : TiffFile) (pageIndex : Nat) : Except TiffError Nat :=
  match f.AssertPageIndex pageIndex with
  | .error e => .error e
  | .ok () =>
    match f.m_PageIfdCollection[pageIndex]? with
    | none => .error .vectorAt
    | some ifd => .ok ifd.length

/-- Method `TiffFile::AssertPageIfdIndex`. -/
def AssertPageIfdIndex (f : TiffFile) (pageIndex ifdIndex : Nat) : Except TiffError Unit :=
  match f.AssertPageIndex pageIndex with
  | .error e => .error e
  | .ok () =>
    match f.GetPageIfdCount pageIndex with
    | .error e => .error e
    | .ok count => if ifdIndex ≥ count then .error .ifdIndex else .ok ()

/-- Method `TiffFile::GetPageIfd`. -/
def GetPageIfd (f : TiffFile) (pageIndex ifdIndex : Nat) : Except TiffError TiffIfdEntry :=
  match f.AssertPageIfdIndex pageIndex ifdIndex with
  | .error e => .error e
  | .ok () =>
    match f.m_PageIfdCollection[pageIndex]? with
    | none => .error .vectorAt
    | some ifd =>
      match ifd[ifdIndex]? with
      | none => .error .vectorAt
      | some entry => .ok entry

/-- Method `TiffFile::GetDimensions`. -/
def GetDimensions (f : TiffFile) (pageIndex : Nat) : Except TiffError TiffDimensions :=
  match f.AssertPageIndex pageIndex with
  | .error e => .error e
  | .ok () =>
    match f.m_Dimensions[pageIndex]? with
    | none => .error .subscriptPastEnd
    | some d => .ok d

/-- Method `TiffFile::GetSoftware`. -/
def GetSoftware (f : TiffFile) (pageIndex : Nat) : Except TiffError (List Byte) :=
  match f.AssertPageIndex pageIndex with
  | .error e => .error e
  | .ok () =>
    match f.m_Software[pageIndex]? with
    | none => .error .subscriptPastEnd
    | some s => .ok s

/-- Method `TiffFile::GetDateTime`. -/
def GetDateTime (f : TiffFile) (pageIndex : Nat) : Except TiffError (List Byte) :=
  match f.AssertPageIndex pageIndex with
  | .error e => .error e
  | .ok () =>
    match f.m_DateTime[pageIndex]? with
    | none => .error .subscriptPastEnd
    | some s => .ok s

/-- Method `TiffFile::GetArtist`. -/
def GetArtist (f : TiffFile) (pageIndex : Nat) : Except TiffError (List Byte) :=
  match f.AssertPageIndex pageIndex with
  | .error e => .error e
  | .ok () =>
    match f.m_Artist[pageIndex]? with
    | none => .error .subscriptPastEnd
    | some s => .ok s

end TiffFile

/-- The constructor `WangAnnotationReader::WangAnnotationReader(TiffFile&, const
TiffIfdEntry&)`: the reader it builds (cursor 0, no handler) or the exception that leaves
it, and the file as the call left it. -/
def WangAnnotationReader.construct (file : TiffFile) (tag : TiffIfdEntry) :
    Except TiffError WangAnnotationReader × TiffFile :=
  if tag.TagId ≠ TiffTagId.TIFF_WANG_TAG ∨ tag.TagType ≠ TiffTagType.BYTE then
    (.error .notWangTag, file)
  else if tag.ValueCount = 0 then (.error .noValues, file)
  else
    match file.ReadVector tag [] with
    | (.error e, file) => (.error e, file)
    | (.ok data, file) =>
      (.ok { m_AnnotationData := data, m_Offset := 0, m_Handler := false }, file)


/-! ## The layout of a chain of directories, in the words of the specification

Offsets are from the start of the file; every field is least significant byte first. -/

/-- The 16-bit entry count of the directory at `off`. -/
def directoryCount (file : List Byte) (off : Nat) : Nat :=
  le16 (byteAt file off) (byteAt file (off + 1))

/-- The 12-byte record at `off`: tagId:16, tagType:16, valueCount:32, valueOrOffset:32, and
the derived annotation flag. -/
def decodeIfdEntry (file : List Byte) (off : Nat) : TiffIfdEntry :=
  { TagId := le16 (byteAt file off) (byteAt file (off + 1))
    TagType := le16 (byteAt file (off + 2)) (byteAt file (off + 3))
    ValueCount := u32At file (off + 4)
    ValueOffset := u32At file (off + 8)
    IsWangTag := decide (le16 (byteAt file off) (byteAt file (off + 1)) = 0x80a4 ∧
      le16 (byteAt file (off + 2)) (byteAt file (off + 3)) = 1) }

/-- The records of the directory at `off`, in file order. -/
def directoryEntries (file : List Byte) (off : Nat) : List TiffIfdEntry :=
  (List.range (directoryCount file off)).map (fun i => decodeIfdEntry file (off + 2 + 12 * i))

/-- The offset of the 32-bit next-offset field of the directory at `off`. -/
def directoryEnd (file : List Byte) (off : Nat) : Nat := off + 2 + 12 * directoryCount file off

/-- The next-offset field of the directory at `off`. -/
def directoryNext (file : List Byte) (off : Nat) : Nat := u32At file (directoryEnd file off)

/-- The offsets of the first `k` directories of the chain that starts at `off`. -/
def chainOffsets (file : List Byte) : Nat → Nat → List Nat
  | 0, _ => []
  | k + 1, off => off :: chainOffsets file k (directoryNext file off)

/-- A chain of exactly `k` directories starts at `off`: each lies inside the file, the
first `k - 1` have a non-zero next-offset and the last one has next-offset 0. -/
def wellFormedChain (file : List Byte) : Nat → Nat → Bool
  | 0, _ => false
  | k + 1, off =>
    decide (directoryEnd file off + 4 ≤ file.length) &&
      (match k with
       | 0 => decide (directoryNext file off = 0)
       | _ + 1 => decide (directoryNext file off ≠ 0) &&
          wellFormedChain file k (directoryNext file off))

/-- The last tag of a directory that carries the id `tag`, if any. -/
def lastTag (tag : Nat) : List TiffIfdEntry → Option TiffIfdEntry
  | [] => none
  | entry :: rest =>
    match lastTag tag rest with
    | some later => some later
    | none => if entry.TagId = tag then some entry else none

/-- The value field of the tag `tag` of a directory, 0 when the directory has no such tag. -/
def tagValue (tag : Nat) (dir : List TiffIfdEntry) : Nat :=
  match lastTag tag dir with
  | some entry => entry.ValueOffset
  | none => 0

/-- The first element of the SHORT array of `entry`, as the bytes of the file hold it. -/
def firstShort (file : List Byte) (entry : TiffIfdEntry) : Nat :=
  le16 (byteAt file entry.ValueOffset) (byteAt file (entry.ValueOffset + 1))

/-- The index that a directory supplies: the first element of its first page-number tag. -/
def suppliedIndex (file : List Byte) (dir : List TiffIfdEntry) : Option Nat :=
  (dir.find? (fun entry => decide (entry.TagId = TiffTagId.TIFF_PAGE_NUMBER))).map
    (firstShort file)

/-- The objects `f` and `g` differ at most in the state of the stream. -/
def TiffFile.sameButStream (f g : TiffFile) : Prop :=
  g.m_StreamSize = f.m_StreamSize ∧ g.m_IntegerReader = f.m_IntegerReader ∧
    g.m_Header = f.m_Header ∧ g.m_PageIfdCollection = f.m_PageIfdCollection ∧
    g.m_Dimensions = f.m_Dimensions ∧ g.m_Software = f.m_Software ∧
    g.m_DateTime = f.m_DateTime ∧ g.m_Artist = f.m_Artist

/-- The objects `f` and `g` have the same directories and decoders, and side tables of
the same sizes. -/
def TiffFile.sameDirectories (f g : TiffFile) : Prop :=
  g.m_IntegerReader = f.m_IntegerReader ∧ g.m_PageIfdCollection = f.m_PageIfdCollection ∧
    g.m_Dimensions.length = f.m_Dimensions.length ∧
    g.m_Software.length = f.m_Software.length ∧
    g.m_DateTime.length = f.m_DateTime.length ∧ g.m_Artist.length = f.m_Artist.length

/-- The declared type of a well-known tag is the one its reader wants: RATIONAL for the
resolutions, ASCII for the strings. -/
def wellTyped (entry : TiffIfdEntry) : Bool :=
  (if entry.TagId = TiffTagId.TIFF_IMAGE_XRESOLUTION ∨
      entry.TagId = TiffTagId.TIFF_IMAGE_YRESOLUTION then
    decide (entry.TagType = TiffTagType.RATIONAL) else true) &&
  (if entry.TagId = TiffTagId.TIFF_IMAGE_SOFTWARE ∨
      entry.TagId = TiffTagId.TIFF_IMAGE_DATETIME ∨
      entry.TagId = TiffTagId.TIFF_IMAGE_ARTIST then
    decide (entry.TagType = TiffTagType.ASCII) else true)

/-! ## Example files -/

/-- The object that the constructor leaves on a little-endian `file` whose header names
the first directory at `offset`: header read, cursor at 8, no directories yet. -/
def opened (file : List Byte) (offset : Nat) : TiffFile :=
  ⟨⟨file, 8, false⟩, file.length, .littleEndian, ⟨[0x49, 0x49], 42, offset⟩, [], [], [], [], []⟩

/-- A little-endian file of two chained directories, at 8 and 26: the first holds the
image width 640, the second the image length 480. -/
def twoPageFile : List Byte :=
  [0x49, 0x49, 0x2A, 0, 8, 0, 0, 0,
    1, 0, 0, 1, 4, 0, 1, 0, 0, 0, 0x80, 2, 0, 0, 26, 0, 0, 0,
    1, 0, 1, 1, 4, 0, 1, 0, 0, 0, 0xE0, 1, 0, 0, 0, 0, 0, 0]

/-- A little-endian file that holds an 8-byte annotation payload at 8 and, after it, its
only directory at 16 with the annotation tag (id 0x80A4, BYTE, count 8, offset 8): the
directory ends the file. -/
def annotatedFile : List Byte :=
  [0x49, 0x49, 0x2A, 0, 16, 0, 0, 0,
    0, 0, 0, 0, 1, 0, 0, 0,
    1, 0, 0xA4, 0x80, 1, 0, 8, 0, 0, 0, 8, 0, 0, 0, 0, 0, 0, 0]

/-- A little-endian file that ends inside its only directory: the entry count 1 and the
first 6 of the 12 bytes of the tag, no next-offset. -/
def truncatedFile : List Byte :=
  [0x49, 0x49, 0x2A, 0, 8, 0, 0, 0, 1, 0, 0, 1, 4, 0, 1, 0]

/-- A little-endian file of two chained directories, at 8 and 38, that name each other's
position: the first holds page number 1 (array at 68) and image width 100, the second
page number 0 (array at 72) and image width 200. -/
def reorderedFile : List Byte :=
  [0x49, 0x49, 0x2A, 0, 8, 0, 0, 0,
    2, 0, 0x29, 1, 3, 0, 2, 0, 0, 0, 68, 0, 0, 0, 0, 1, 4, 0, 1, 0, 0, 0, 100, 0, 0, 0,
    38, 0, 0, 0,
    2, 0, 0x29, 1, 3, 0, 2, 0, 0, 0, 72, 0, 0, 0, 0, 1, 4, 0, 1, 0, 0, 0, 200, 0, 0, 0,
    0, 0, 0, 0,
    1, 0, 2, 0, 0, 0, 2, 0]
/-- A little-endian file of three chained directories, at 8, 26 and 44: the first two
carry the page numbers 1 and 0 (arrays at 62 and 66), the third carries no page number. -/
def threePageFile : List Byte :=
  [0x49, 0x49, 0x2A, 0, 8, 0, 0, 0,
    1, 0, 0x29, 1, 3, 0, 2, 0, 0, 0, 62, 0, 0, 0, 26, 0, 0, 0,
    1, 0, 0x29, 1, 3, 0, 2, 0, 0, 0, 66, 0, 0, 0, 44, 0, 0, 0,
    1, 0, 0, 1, 4, 0, 1, 0, 0, 0, 0x80, 2, 0, 0, 0, 0, 0, 0,
    1, 0, 3, 0, 0, 0, 3, 0]

/-- A little-endian file of two chained directories, at 8 and 38, that both carry the
page number 0 (array at 68); the first holds image width 100, the second 200. -/
def duplicateIndexFile : List Byte :=
  [0x49, 0x49, 0x2A, 0, 8, 0, 0, 0,
    2, 0, 0x29, 1, 3, 0, 2, 0, 0, 0, 68, 0, 0, 0, 0, 1, 4, 0, 1, 0, 0, 0, 100, 0, 0, 0,
    38, 0, 0, 0,
    2, 0, 0x29, 1, 3, 0, 2, 0, 0, 0, 68, 0, 0, 0, 0, 1, 4, 0, 1, 0, 0, 0, 200, 0, 0, 0,
    0, 0, 0, 0,
    0, 0, 2, 0]

/-- A little-endian file of one directory whose x-resolution tag is declared SHORT. -/
def mistypedFile : List Byte :=
  [0x49, 0x49, 0x2A, 0, 8, 0, 0, 0, 1, 0, 0x1A, 1, 3, 0, 1, 0, 0, 0, 72, 0, 0, 0, 0, 0, 0, 0]

/-- The reader on `twoPageFile` as `ReadIfdCollection` leaves it. -/
def twoPageRead : TiffFile := (TiffFile.ReadIfdCollection 2 [] (opened twoPageFile 8)).2

/-- The reader on `reorderedFile` as `ReadIfdCollection` leaves it. -/
def reorderedRead : TiffFile := (TiffFile.ReadIfdCollection 2 [] (opened reorderedFile 8)).2

/-- The reader on `annotatedFile` as `ReadIfdCollection` leaves it. -/
def annotatedRead : TiffFile := (TiffFile.ReadIfdCollection 1 [] (opened annotatedFile 16)).2

/-- The annotation tag of `annotatedFile`. -/
def annotationTag : TiffIfdEntry :=
  { TagId := 0x80A4, TagType := 1, ValueCount := 8, ValueOffset := 8, IsWangTag := true }

/-! ## Example payloads -/

/-- The preamble of a payload in 32-bit mode: four reserved bytes, then mode selector 1. -/
def preamble32 : List Byte := [0, 0, 0, 0, 1, 0, 0, 0]

/-- An entry header with data type `t` and size `size`, both below 256. -/
def entryHeader (t size : Byte) : List Byte := [t, 0, 0, 0, size, 0, 0, 0]

/-- A named-block header: the name, padded with NUL to 8 bytes, then the size (below 256). -/
def blockHeader (name : String) (size : Byte) : List Byte :=
  ascii name ++ List.replicate (8 - name.length) 0 ++ [size, 0, 0, 0]

/-- The attribute record of a visible mark of type `t` whose other fields are all zero. -/
def visibleMark (t : Byte) : List Byte :=
  [t, 0, 0, 0] ++ List.replicate 112 0 ++ [1, 0, 0, 0] ++ List.replicate 44 0

/-- An `OIAN_TEXTPRIVDATA` record with the given orientation, creation scale and text
length, all below 256. -/
def textInfo (orientation scale length : Byte) : List Byte :=
  [orientation, 0, 0, 0, 0, 0, 0, 0, scale, 0, 0, 0, length, 0, 0, 0]

/-- A reader at the start of the data of a block "OiAnText": the descriptor (text length
4), the bytes `00 48 00 69`, one more byte. -/
def wideTextReader : WangAnnotationReader :=
  { m_AnnotationData := textInfo 0 0 4 ++ [0, 72, 0, 105] ++ [0], m_Offset := 0, m_Handler := true }

/-- The mark that the block of `wideTextReader`, processed as a Local block, leaves behind
when it started from a mark with nothing set. -/
def wideTextMark : TiffWangMark :=
  { (default : TiffWangMark) with
    m_Local := { (default : TiffWangMarkProperties) with
      Text := { nCurrentOrientation := 0, uReserved1 := 0, uCreationScale := 0, uAnoTextLength := 4 }
      UnicodeText := [72, 105] }
    m_SetProperties := 512 }

/-- The reader `r1` was reached from the reader `r` over the same payload and with the same
handler, and its cursor is not past the end of the payload if that of `r` was not. -/
def WangAnnotationReader.staysInside (r r1 : WangAnnotationReader) : Prop :=
  r1.m_AnnotationData = r.m_AnnotationData ∧ r1.m_Handler = r.m_Handler ∧
    (r.m_Offset ≤ r.m_Size → r1.m_Offset ≤ r1.m_Size)

/-- A payload of 28 bytes in 32-bit mode that ends with the header of a Local block
"OiGroup" whose size is 0. -/
def emptyGroupPayload : List Byte := preamble32 ++ entryHeader 6 12 ++ blockHeader "OiGroup" 0

/-- The reader over `emptyGroupPayload` once the block header has been read: the cursor is
at 28, the end of the payload. -/
def emptyGroupReader : WangAnnotationReader :=
  (WangAnnotationReader.over emptyGroupPayload true).advance 28

/-! ## Payloads that `Read` reads to the end: the two provisos -/

/-- The attribute record `a` is one that `EmitMark` renders without asking for a property
of an image: the mark is invisible, or its type is none of embedded image, image reference
and Form. -/
def quietRecord (a : OIAN_MARK_ATTRIBUTES) : Bool :=
  a.bVisible == 0 ||
    (a.uType != OAIN_MARK_TYPE.ImageEmbedded && a.uType != OAIN_MARK_TYPE.ImageReference &&
      a.uType != OAIN_MARK_TYPE.Form)

/-- The payload holds no visible image mark: wherever in it an entry header of type
`ATTRIBUTE_DATA` is followed by the 164 bytes of a complete attribute record, that record
is that of an invisible mark or of a mark that is neither an embedded image nor an image
reference nor a Form. -/
def noVisibleImageMark (payload : List Byte) : Bool :=
  (List.range payload.length).all (fun k =>
    !(decide ((decodeEntry ((payload.drop k).take 8)).DataType = TiffWangDataType.ATTRIBUTE_DATA)
        && decide (k + 172 ≤ payload.length)) ||
      quietRecord (decodeAttributes ((payload.drop (k + 8)).take 164)))

/-- The payload holds no negative point count: wherever in it the block name "OiAnoDat" is
followed, after the 4 bytes of the block size, by the 8 bytes of a complete points record,
the count `nPoints` of that record is not negative. -/
def noNegativeCount (payload : List Byte) : Bool :=
  (List.range payload.length).all (fun j =>
    !(decide ((payload.drop j).take 8 = ascii "OiAnoDat") && decide (j + 20 ≤ payload.length)) ||
      decide (0 ≤ (decodePoints ((payload.drop (j + 12)).take 8)).nPoints))

deriving instance DecidableEq for Except

/-! ## The property state: flags, accessors, `AssignGlobalToLocal` -/

namespace TiffWangMark

theorem val_eq_two_pow (p : TiffWangMarkSet) (h : p ≠ .NoFlagsSet) : p.val = 2 ^ p.bit := by
  cases p <;> first | rfl | exact absurd rfl h

theorem IsSet_eq_testBit (m : TiffWangMark) (p : TiffWangMarkSet) (h : p ≠ .NoFlagsSet) :
    m.IsSet p = m.m_SetProperties.testBit p.bit := by
  unfold IsSet
  rw [val_eq_two_pow p h, Nat.and_two_pow]
  cases m.m_SetProperties.testBit p.bit <;> simp

theorem testBit_not64 (x j : Nat) : (not64 x).testBit j = (x.testBit j ^^ decide (j < 64)) := by
  unfold not64
  rw [Nat.testBit_xor, Nat.testBit_two_pow_sub_one]

theorem testBit_unsetLocals (m : TiffWangMark) (j : Nat) :
    (unsetLocals m).m_SetProperties.testBit j =
      (m.m_SetProperties.testBit j &&
        !decide (j = 1 ∨ j = 3 ∨ j = 5 ∨ j = 7 ∨ j = 9 ∨ j = 12 ∨ j = 14 ∨ j = 16 ∨ j = 18 ∨
          64 ≤ j)) := by
  simp only [unsetLocals, locals, List.foldl, Nat.testBit_land, testBit_not64,
    TiffWangMarkSet.val, Nat.one_shiftLeft, Nat.testBit_two_pow]
  by_cases h64 : j < 64
  · have e : decide (j < 64) = true := by simpa using h64
    simp only [e, Bool.xor_true]
    rw [Bool.eq_iff_iff]
    simp only [Bool.and_eq_true, Bool.not_eq_true', decide_eq_false_iff_not, decide_eq_true_eq,
      and_assoc]
    constructor
    · rintro ⟨hp, h⟩
      exact ⟨hp, by omega⟩
    · rintro ⟨hp, h⟩
      exact ⟨hp, by omega⟩
  · have e : decide (j < 64) = false := by simpa using h64
    rw [Bool.eq_iff_iff]
    simp only [e, Bool.xor_false, Bool.and_eq_true, Bool.not_eq_true', decide_eq_false_iff_not,
      decide_eq_true_eq, and_assoc]
    constructor
    · rintro ⟨_, h⟩
      omega
    · rintro ⟨_, h⟩
      omega

theorem IsSet_unsetLocals (m : TiffWangMark) (q : TiffWangMarkSet) :
    (unsetLocals m).IsSet q = (m.IsSet q && !decide (q ∈ locals)) := by
  by_cases hq : q = .NoFlagsSet
  · subst hq
    simp [IsSet, TiffWangMarkSet.val]
  · rw [IsSet_eq_testBit _ q hq, IsSet_eq_testBit _ q hq, testBit_unsetLocals]
    cases q <;> simp [TiffWangMarkSet.bit, locals] at hq ⊢

theorem m_Local_unsetLocals (m : TiffWangMark) : (unsetLocals m).m_Local = m.m_Local := rfl

theorem m_Global_unsetLocals (m : TiffWangMark) : (unsetLocals m).m_Global = m.m_Global := rfl

theorem m_Attributes_unsetLocals (m : TiffWangMark) :
    (unsetLocals m).m_Attributes = m.m_Attributes := rfl

theorem testBit_setlocal_ifset (g l : TiffWangMarkSet)
    (copy : TiffWangMarkProperties → TiffWangMarkProperties → TiffWangMarkProperties)
    (m : TiffWangMark) (j : Nat) :
    (setlocal_ifset g l copy m).m_SetProperties.testBit j =
      (m.m_SetProperties.testBit j || (m.IsSet g && l.val.testBit j)) := by
  unfold setlocal_ifset
  cases h : m.IsSet g <;> simp [Set, Nat.testBit_lor]

theorem IsSet_setlocal_ifset (g l : TiffWangMarkSet)
    (copy : TiffWangMarkProperties → TiffWangMarkProperties → TiffWangMarkProperties)
    (m : TiffWangMark) (q : TiffWangMarkSet) (hl : l ≠ .NoFlagsSet) (hq : q ≠ .NoFlagsSet) :
    (setlocal_ifset g l copy m).IsSet q =
      (m.IsSet q || (m.IsSet g && decide (l.bit = q.bit))) := by
  rw [IsSet_eq_testBit _ q hq, IsSet_eq_testBit _ q hq, testBit_setlocal_ifset,
    val_eq_two_pow l hl, Nat.testBit_two_pow]

theorem m_Global_setlocal_ifset (g l : TiffWangMarkSet)
    (copy : TiffWangMarkProperties → TiffWangMarkProperties → TiffWangMarkProperties)
    (m : TiffWangMark) : (setlocal_ifset g l copy m).m_Global = m.m_Global := by
  unfold setlocal_ifset
  cases h : m.IsSet g <;> simp [Set]

theorem m_Attributes_setlocal_ifset (g l : TiffWangMarkSet)
    (copy : TiffWangMarkProperties → TiffWangMarkProperties → TiffWangMarkProperties)
    (m : TiffWangMark) : (setlocal_ifset g l copy m).m_Attributes = m.m_Attributes := by
  unfold setlocal_ifset
  cases h : m.IsSet g <;> simp [Set]

theorem proj_setlocal_ifset {α : Type} (π : TiffWangMarkProperties → α) (g l : TiffWangMarkSet)
    (copy : TiffWangMarkProperties → TiffWangMarkProperties → TiffWangMarkProperties)
    (m : TiffWangMark) :
    π (setlocal_ifset g l copy m).m_Local =
      if m.IsSet g then π (copy m.m_Global m.m_Local) else π m.m_Local := by
  unfold setlocal_ifset
  cases h : m.IsSet g <;> simp [Set]

theorem m_Global_AssignGlobalToLocal (m : TiffWangMark) :
    m.AssignGlobalToLocal.m_Global = m.m_Global := by
  simp [AssignGlobalToLocal, m_Global_setlocal_ifset, m_Global_unsetLocals]

theorem m_Attributes_AssignGlobalToLocal (m : TiffWangMark) :
    m.AssignGlobalToLocal.m_Attributes = m.m_Attributes := by
  simp [AssignGlobalToLocal, m_Attributes_setlocal_ifset, m_Attributes_unsetLocals]

/-- The flag of a property in the Global tier or in the Local tier is looked at through
`IsSet`: after `AssignGlobalToLocal` a flag is set exactly when, before, it was set and is
not a Local flag, or it is the Local flag of a property whose Global flag was set. -/
theorem IsSet_AssignGlobalToLocal (m : TiffWangMark) :
    (m.AssignGlobalToLocal.IsSet .LocalGroupSet = m.IsSet .GlobalGroupSet ∧
      m.AssignGlobalToLocal.IsSet .LocalIndexSet = m.IsSet .GlobalIndexSet ∧
      m.AssignGlobalToLocal.IsSet .LocalFilenameSet = m.IsSet .GlobalFilenameSet ∧
      m.AssignGlobalToLocal.IsSet .LocalDibInfoSet = m.IsSet .GlobalDibInfoSet ∧
      m.AssignGlobalToLocal.IsSet .LocalAsciiTextSet = m.IsSet .GlobalAsciiTextSet ∧
      m.AssignGlobalToLocal.IsSet .LocalUnicodeTextSet = m.IsSet .GlobalUnicodeTextSet ∧
      m.AssignGlobalToLocal.IsSet .LocalPointsSet = m.IsSet .GlobalPointsSet ∧
      m.AssignGlobalToLocal.IsSet .LocalRotationSet = m.IsSet .GlobalRotationSet ∧
      m.AssignGlobalToLocal.IsSet .LocalHyperlinkSet = m.IsSet .GlobalHyperlinkSet) ∧
    (m.AssignGlobalToLocal.IsSet .GlobalGroupSet = m.IsSet .GlobalGroupSet ∧
      m.AssignGlobalToLocal.IsSet .GlobalIndexSet = m.IsSet .GlobalIndexSet ∧
      m.AssignGlobalToLocal.IsSet .GlobalFilenameSet = m.IsSet .GlobalFilenameSet ∧
      m.AssignGlobalToLocal.IsSet .GlobalDibInfoSet = m.IsSet .GlobalDibInfoSet ∧
      m.AssignGlobalToLocal.IsSet .GlobalAsciiTextSet = m.IsSet .GlobalAsciiTextSet ∧
      m.AssignGlobalToLocal.IsSet .GlobalUnicodeTextSet = m.IsSet .GlobalUnicodeTextSet ∧
      m.AssignGlobalToLocal.IsSet .GlobalPointsSet = m.IsSet .GlobalPointsSet ∧
      m.AssignGlobalToLocal.IsSet .GlobalRotationSet = m.IsSet .GlobalRotationSet ∧
      m.AssignGlobalToLocal.IsSet .GlobalHyperlinkSet = m.IsSet .GlobalHyperlinkSet) ∧
    m.AssignGlobalToLocal.HasAttributes = m.HasAttributes := by
  refine ⟨⟨?_, ?_, ?_, ?_, ?_, ?_, ?_, ?_, ?_⟩, ⟨?_, ?_, ?_, ?_, ?_, ?_, ?_, ?_, ?_⟩, ?_⟩ <;>
    simp [AssignGlobalToLocal, HasAttributes, IsSet_setlocal_ifset, IsSet_unsetLocals,
      TiffWangMarkSet.bit, locals]

theorem return_either_eq {α : Type} (g l : TiffWangMarkSet)
    (pname : TiffWangMarkProperties → α) (m : TiffWangMark) :
    return_either g l pname m =
      if m.IsSet l then .ok (pname m.m_Local)
      else if m.IsSet g then .ok (pname m.m_Global)
      else .error .propertyNotSet := by
  unfold return_either
  cases m.IsSet l <;> cases m.IsSet g <;> simp

end TiffWangMark

namespace TiffWangMark

theorem m_Local_AssignGlobalToLocal (m : TiffWangMark) :
    (m.AssignGlobalToLocal.m_Local.Group =
        if m.IsSet .GlobalGroupSet then m.m_Global.Group else m.m_Local.Group) ∧
    (m.AssignGlobalToLocal.m_Local.Index =
        if m.IsSet .GlobalIndexSet then m.m_Global.Index else m.m_Local.Index) ∧
    (m.AssignGlobalToLocal.m_Local.FileName =
        if m.IsSet .GlobalFilenameSet then m.m_Global.FileName else m.m_Local.FileName) ∧
    (m.AssignGlobalToLocal.m_Local.DibInfo =
        if m.IsSet .GlobalDibInfoSet then m.m_Global.DibInfo else m.m_Local.DibInfo) ∧
    (m.AssignGlobalToLocal.m_Local.AsciiText =
        if m.IsSet .GlobalAsciiTextSet then m.m_Global.AsciiText else m.m_Local.AsciiText) ∧
    (m.AssignGlobalToLocal.m_Local.UnicodeText =
        if m.IsSet .GlobalUnicodeTextSet then m.m_Global.UnicodeText
        else m.m_Local.UnicodeText) ∧
    (m.AssignGlobalToLocal.m_Local.Points =
        if m.IsSet .GlobalPointsSet then m.m_Global.Points else m.m_Local.Points) ∧
    (m.AssignGlobalToLocal.m_Local.PointList =
        if m.IsSet .GlobalPointsSet then m.m_Global.PointList else m.m_Local.PointList) ∧
    (m.AssignGlobalToLocal.m_Local.Rotation =
        if m.IsSet .GlobalRotationSet then m.m_Global.Rotation else m.m_Local.Rotation) ∧
    (m.AssignGlobalToLocal.m_Local.Hyperlink =
        if m.IsSet .GlobalHyperlinkSet then m.m_Global.Hyperlink else m.m_Local.Hyperlink) ∧
    m.AssignGlobalToLocal.m_Local.Text = m.m_Local.Text := by
  refine ⟨?_, ?_, ?_, ?_, ?_, ?_, ?_, ?_, ?_, ?_, ?_⟩
  · simp [AssignGlobalToLocal, proj_setlocal_ifset (·.Group), m_Global_setlocal_ifset,
      m_Local_unsetLocals, m_Global_unsetLocals, IsSet_setlocal_ifset, IsSet_unsetLocals,
      TiffWangMarkSet.bit, locals]
  · simp [AssignGlobalToLocal, proj_setlocal_ifset (·.Index), m_Global_setlocal_ifset,
      m_Local_unsetLocals, m_Global_unsetLocals, IsSet_setlocal_ifset, IsSet_unsetLocals,
      TiffWangMarkSet.bit, locals]
  · simp [AssignGlobalToLocal, proj_setlocal_ifset (·.FileName), m_Global_setlocal_ifset,
      m_Local_unsetLocals, m_Global_unsetLocals, IsSet_setlocal_ifset, IsSet_unsetLocals,
      TiffWangMarkSet.bit, locals]
  · simp [AssignGlobalToLocal, proj_setlocal_ifset (·.DibInfo), m_Global_setlocal_ifset,
      m_Local_unsetLocals, m_Global_unsetLocals, IsSet_setlocal_ifset, IsSet_unsetLocals,
      TiffWangMarkSet.bit, locals]
  · simp [AssignGlobalToLocal, proj_setlocal_ifset (·.AsciiText), m_Global_setlocal_ifset,
      m_Local_unsetLocals, m_Global_unsetLocals, IsSet_setlocal_ifset, IsSet_unsetLocals,
      TiffWangMarkSet.bit, locals]
  · simp [AssignGlobalToLocal, proj_setlocal_ifset (·.UnicodeText), m_Global_setlocal_ifset,
      m_Local_unsetLocals, m_Global_unsetLocals, IsSet_setlocal_ifset, IsSet_unsetLocals,
      TiffWangMarkSet.bit, locals]
  · simp [AssignGlobalToLocal, proj_setlocal_ifset (·.Points), m_Global_setlocal_ifset,
      m_Local_unsetLocals, m_Global_unsetLocals, IsSet_setlocal_ifset, IsSet_unsetLocals,
      TiffWangMarkSet.bit, locals]
  · simp [AssignGlobalToLocal, proj_setlocal_ifset (·.PointList), m_Global_setlocal_ifset,
      m_Local_unsetLocals, m_Global_unsetLocals, IsSet_setlocal_ifset, IsSet_unsetLocals,
      TiffWangMarkSet.bit, locals]
  · simp [AssignGlobalToLocal, proj_setlocal_ifset (·.Rotation), m_Global_setlocal_ifset,
      m_Local_unsetLocals, m_Global_unsetLocals, IsSet_setlocal_ifset, IsSet_unsetLocals,
      TiffWangMarkSet.bit, locals]
  · simp [AssignGlobalToLocal, proj_setlocal_ifset (·.Hyperlink), m_Global_setlocal_ifset,
      m_Local_unsetLocals, m_Global_unsetLocals, IsSet_setlocal_ifset, IsSet_unsetLocals,
      TiffWangMarkSet.bit, locals]
  · simp [AssignGlobalToLocal, proj_setlocal_ifset (·.Text), m_Local_unsetLocals]

end TiffWangMark

/-! ## Claims on the property state and on `EmitMark` -/

/-- C2: for every mark whose visibility flag `bVisible` is false, `EmitMark` invokes no
callback at all (and raises nothing), whatever the mark type, whichever Global or Local
properties are set and whether or not a handler is registered. -/
theorem C2_EmitMark_invisible_no_callback (r : WangAnnotationReader) (mark : TiffWangMark)
    (hvis : mark.Attributes.bVisible = 0) : EmitMark r mark = .ok (mark, []) := by
  have hn : notRendered r mark.Attributes = true := by simp [notRendered, hvis]
  unfold EmitMark
  simp only [emitText, emitLine, emitFilledRectangle, emitHollowRectangle, emitForm,
    emitImageReference, emitImageEmbedded, hn, if_true]
  split_ifs <;> rfl

/-- C2, at a registered handler and a filled-rectangle mark with every flag set. -/
theorem C2_EmitMark_invisible_no_callback_witness :
    EmitMark { m_AnnotationData := [], m_Offset := 0, m_Handler := true }
        { (default : TiffWangMark) with
          m_Attributes := { (default : OIAN_MARK_ATTRIBUTES) with uType := 6, bVisible := 0 }
          m_SetProperties := 524287 } =
      .ok ({ (default : TiffWangMark) with
          m_Attributes := { (default : OIAN_MARK_ATTRIBUTES) with uType := 6, bVisible := 0 }
          m_SetProperties := 524287 }, []) :=
  C2_EmitMark_invisible_no_callback _ _ rfl

/-- C4: for every visible attach-a-note mark with the Local ascii text set and a handler
registered, `EmitMark` makes exactly two calls, in this order: the filled-rectangle
callback with the bounds of the mark and its primary color `rgbColor1`, then the ascii
text callback with the Local ascii text and the secondary color `rgbColor2`. -/
theorem C4_EmitMark_attach_a_note (r : WangAnnotationReader) (mark : TiffWangMark)
    (hh : r.m_Handler = true)
    (ht : mark.Attributes.uType = OAIN_MARK_TYPE.AttachANote)
    (hv : mark.Attributes.bVisible ≠ 0)
    (ha : mark.IsSet .LocalAsciiTextSet = true) :
    EmitMark r mark = .ok (mark,
      [ Call.RenderRect mark.Attributes.lrBounds mark.Attributes.rgbColor1
          (toBool mark.Attributes.bHighlighting) (toBool mark.Attributes.bTransparent),
        Call.RenderText mark.m_Local.AsciiText mark.Attributes.lrBounds mark.Attributes.lfFont
          mark.m_Local.Text mark.Attributes.rgbColor2 ]) := by
  unfold EmitMark
  simp [emitText, notRendered, hh, ht, hv, ha, TiffWangMark.AnySet,
    TiffWangMark.LocalAsciiText, TiffWangMark.LocalText, TiffWangMark.return_local]

/-- C4, at a note with text "Hi", a blue fill and a red text color. -/
theorem C4_EmitMark_attach_a_note_witness :
    EmitMark { m_AnnotationData := [], m_Offset := 0, m_Handler := true }
        { (default : TiffWangMark) with
          m_Local := { (default : TiffWangMarkProperties) with AsciiText := [72, 105] }
          m_Attributes := { (default : OIAN_MARK_ATTRIBUTES) with
            uType := 10, bVisible := 1, rgbColor1 := ⟨255, 0, 0, 0⟩, rgbColor2 := ⟨0, 0, 255, 0⟩ }
          m_SetProperties := 1152 } =
      .ok ({ (default : TiffWangMark) with
          m_Local := { (default : TiffWangMarkProperties) with AsciiText := [72, 105] }
          m_Attributes := { (default : OIAN_MARK_ATTRIBUTES) with
            uType := 10, bVisible := 1, rgbColor1 := ⟨255, 0, 0, 0⟩, rgbColor2 := ⟨0, 0, 255, 0⟩ }
          m_SetProperties := 1152 },
        [ Call.RenderRect default ⟨255, 0, 0, 0⟩ false false,
          Call.RenderText [72, 105] default default default ⟨0, 0, 255, 0⟩ ]) :=
  C4_EmitMark_attach_a_note _ _ rfl rfl (by decide) (by decide)

/-- C6: for every mark state, after `AssignGlobalToLocal` the Local tier mirrors the set
part of the Global tier: for each of the nine property keys the Local flag is set exactly
when the Global flag is set, and where it is set the Local value is the Global value (the
point count and the point list go together; where it is not set the Local value is left
as it was); every Global value, every Global flag, the attributes and the attributes-set
flag are unchanged. -/
theorem C6_AssignGlobalToLocal_mirrors_global (m : TiffWangMark) :
    (m.AssignGlobalToLocal.IsSet .LocalGroupSet = m.IsSet .GlobalGroupSet ∧
      m.AssignGlobalToLocal.IsSet .LocalIndexSet = m.IsSet .GlobalIndexSet ∧
      m.AssignGlobalToLocal.IsSet .LocalFilenameSet = m.IsSet .GlobalFilenameSet ∧
      m.AssignGlobalToLocal.IsSet .LocalDibInfoSet = m.IsSet .GlobalDibInfoSet ∧
      m.AssignGlobalToLocal.IsSet .LocalAsciiTextSet = m.IsSet .GlobalAsciiTextSet ∧
      m.AssignGlobalToLocal.IsSet .LocalUnicodeTextSet = m.IsSet .GlobalUnicodeTextSet ∧
      m.AssignGlobalToLocal.IsSet .LocalPointsSet = m.IsSet .GlobalPointsSet ∧
      m.AssignGlobalToLocal.IsSet .LocalRotationSet = m.IsSet .GlobalRotationSet ∧
      m.AssignGlobalToLocal.IsSet .LocalHyperlinkSet = m.IsSet .GlobalHyperlinkSet) ∧
    ((m.AssignGlobalToLocal.m_Local.Group =
        if m.IsSet .GlobalGroupSet then m.m_Global.Group else m.m_Local.Group) ∧
      (m.AssignGlobalToLocal.m_Local.Index =
        if m.IsSet .GlobalIndexSet then m.m_Global.Index else m.m_Local.Index) ∧
      (m.AssignGlobalToLocal.m_Local.FileName =
        if m.IsSet .GlobalFilenameSet then m.m_Global.FileName else m.m_Local.FileName) ∧
      (m.AssignGlobalToLocal.m_Local.DibInfo =
        if m.IsSet .GlobalDibInfoSet then m.m_Global.DibInfo else m.m_Local.DibInfo) ∧
      (m.AssignGlobalToLocal.m_Local.AsciiText =
        if m.IsSet .GlobalAsciiTextSet then m.m_Global.AsciiText else m.m_Local.AsciiText) ∧
      (m.AssignGlobalToLocal.m_Local.UnicodeText =
        if m.IsSet .GlobalUnicodeTextSet then m.m_Global.UnicodeText
        else m.m_Local.UnicodeText) ∧
      (m.AssignGlobalToLocal.m_Local.Points =
        if m.IsSet .GlobalPointsSet then m.m_Global.Points else m.m_Local.Points) ∧
      (m.AssignGlobalToLocal.m_Local.PointList =
        if m.IsSet .GlobalPointsSet then m.m_Global.PointList else m.m_Local.PointList) ∧
      (m.AssignGlobalToLocal.m_Local.Rotation =
        if m.IsSet .GlobalRotationSet then m.m_Global.Rotation else m.m_Local.Rotation) ∧
      (m.AssignGlobalToLocal.m_Local.Hyperlink =
        if m.IsSet .GlobalHyperlinkSet then m.m_Global.Hyperlink else m.m_Local.Hyperlink)) ∧
    m.AssignGlobalToLocal.m_Global = m.m_Global ∧
    (m.AssignGlobalToLocal.IsSet .GlobalGroupSet = m.IsSet .GlobalGroupSet ∧
      m.AssignGlobalToLocal.IsSet .GlobalIndexSet = m.IsSet .GlobalIndexSet ∧
      m.AssignGlobalToLocal.IsSet .GlobalFilenameSet = m.IsSet .GlobalFilenameSet ∧
      m.AssignGlobalToLocal.IsSet .GlobalDibInfoSet = m.IsSet .GlobalDibInfoSet ∧
      m.AssignGlobalToLocal.IsSet .GlobalAsciiTextSet = m.IsSet .GlobalAsciiTextSet ∧
      m.AssignGlobalToLocal.IsSet .GlobalUnicodeTextSet = m.IsSet .GlobalUnicodeTextSet ∧
      m.AssignGlobalToLocal.IsSet .GlobalPointsSet = m.IsSet .GlobalPointsSet ∧
      m.AssignGlobalToLocal.IsSet .GlobalRotationSet = m.IsSet .GlobalRotationSet ∧
      m.AssignGlobalToLocal.IsSet .GlobalHyperlinkSet = m.IsSet .GlobalHyperlinkSet) ∧
    m.AssignGlobalToLocal.m_Attributes = m.m_Attributes ∧
    m.AssignGlobalToLocal.HasAttributes = m.HasAttributes := by
  obtain ⟨hl, hg, ha⟩ := TiffWangMark.IsSet_AssignGlobalToLocal m
  obtain ⟨v1, v2, v3, v4, v5, v6, v7, v8, v9, v10, _⟩ := TiffWangMark.m_Local_AssignGlobalToLocal m
  exact ⟨hl, ⟨v1, v2, v3, v4, v5, v6, v7, v8, v9, v10⟩,
    TiffWangMark.m_Global_AssignGlobalToLocal m, hg,
    TiffWangMark.m_Attributes_AssignGlobalToLocal m, ha⟩

/-- C7: for every mark state, each of the ten resolving accessors (`Group`, `Index`,
`FileName`, `DibInfo`, `AsciiText`, `UnicodeText`, `Points`, `PointList`, `Rotation`,
`HyperLink`) returns the Local value when the Local flag is set, otherwise the Global value
when the Global flag is set, and raises "property not set" exactly when neither is set. -/
theorem C7_resolving_accessors (m : TiffWangMark) :
    (m.Group = if m.IsSet .LocalGroupSet then .ok m.m_Local.Group
      else if m.IsSet .GlobalGroupSet then .ok m.m_Global.Group
      else .error .propertyNotSet) ∧
    (m.Index = if m.IsSet .LocalIndexSet then .ok m.m_Local.Index
      else if m.IsSet .GlobalIndexSet then .ok m.m_Global.Index
      else .error .propertyNotSet) ∧
    (m.FileName = if m.IsSet .LocalFilenameSet then .ok m.m_Local.FileName
      else if m.IsSet .GlobalFilenameSet then .ok m.m_Global.FileName
      else .error .propertyNotSet) ∧
    (m.DibInfo = if m.IsSet .LocalDibInfoSet then .ok m.m_Local.DibInfo
      else if m.IsSet .GlobalDibInfoSet then .ok m.m_Global.DibInfo
      else .error .propertyNotSet) ∧
    (m.AsciiText = if m.IsSet .LocalAsciiTextSet then .ok m.m_Local.AsciiText
      else if m.IsSet .GlobalAsciiTextSet then .ok m.m_Global.AsciiText
      else .error .propertyNotSet) ∧
    (m.UnicodeText = if m.IsSet .LocalUnicodeTextSet then .ok m.m_Local.UnicodeText
      else if m.IsSet .GlobalUnicodeTextSet then .ok m.m_Global.UnicodeText
      else .error .propertyNotSet) ∧
    (m.Points = if m.IsSet .LocalPointsSet then .ok m.m_Local.Points
      else if m.IsSet .GlobalPointsSet then .ok m.m_Global.Points
      else .error .propertyNotSet) ∧
    (m.PointList = if m.IsSet .LocalPointsSet then .ok m.m_Local.PointList
      else if m.IsSet .GlobalPointsSet then .ok m.m_Global.PointList
      else .error .propertyNotSet) ∧
    (m.Rotation = if m.IsSet .LocalRotationSet then .ok m.m_Local.Rotation
      else if m.IsSet .GlobalRotationSet then .ok m.m_Global.Rotation
      else .error .propertyNotSet) ∧
    (m.HyperLink = if m.IsSet .LocalHyperlinkSet then .ok m.m_Local.Hyperlink
      else if m.IsSet .GlobalHyperlinkSet then .ok m.m_Global.Hyperlink
      else .error .propertyNotSet) := by
  refine ⟨?_, ?_, ?_, ?_, ?_, ?_, ?_, ?_, ?_, ?_⟩ <;>
    exact TiffWangMark.return_either_eq _ _ _ _

/-! ## Claims on the header of the container -/

namespace TiffFile

theorem SizeLeft_fresh (file : List Byte) : (fresh file).SizeLeft = file.length := by
  simp only [SizeLeft, fresh, ifstream.tellg]
  by_cases h0 : file.length = 0
  · simp [h0]
  · have : ¬ ((0 : Int) ≥ (file.length : Int)) := by omega
    simp [this]

theorem ReadHeader_fresh (file : List Byte) (h : 8 ≤ file.length) :
    ReadHeader (fresh file) =
      .ok { fresh file with
            m_Stream := { content := file, pos := 8, failbit := false }
            m_Header := decodeHeader (file.take 8) } := by
  have h2 : ¬ file.length < 8 := by omega
  simp only [ReadHeader, AssertSizeLeft, SizeLeft_fresh]
  simp [h2, ifstream.read, fresh, h]

theorem ReadHeader_short (file : List Byte) (h : file.length < 8) :
    ReadHeader (fresh file) = .error .insufficientData := by
  simp [ReadHeader, AssertSizeLeft, SizeLeft_fresh, h]

end TiffFile

theorem stricmp_cons_eq_zero (c1 c2 : Byte) (s1 s2 : List Byte)
    (h : stricmp (c1 :: s1) (c2 :: s2) = 0) : tolower c1 = tolower c2 := by
  by_contra hne
  rw [stricmp, if_pos hne] at h
  have : (tolower c1).val = (tolower c2).val := by omega
  exact hne (Fin.ext this)

theorem stricmp_cons_ne_zero (c1 c2 : Byte) (s1 s2 : List Byte)
    (hne : tolower c1 ≠ tolower c2) : stricmp (c1 :: s1) (c2 :: s2) ≠ 0 := by
  intro h
  exact hne (stricmp_cons_eq_zero c1 c2 s1 s2 h)

/-- The `throw` of `Init` for an unknown byte order is dead code: a header that compares
equal to "II" in the first test differs from "MM" in the second. -/
theorem openFile_never_byteOrder (file : List Byte) :
    TiffFile.openFile file ≠ .error .byteOrder := by
  by_cases h8 : file.length < 8
  · rw [TiffFile.openFile, TiffFile.Init, TiffFile.ReadHeader_short file h8]
    simp
  · have h8 : 8 ≤ file.length := by omega
    rw [TiffFile.openFile, TiffFile.Init, TiffFile.ReadHeader_fresh file h8]
    match file, h8 with
    | c0 :: c1 :: c2 :: c3 :: c4 :: c5 :: c6 :: c7 :: tl, _ =>
      by_cases hII : stricmp (TiffFile.headerMemory
          (TiffFile.decodeHeader ((c0 :: c1 :: c2 :: c3 :: c4 :: c5 :: c6 :: c7 :: tl).take 8)))
          IntelEndian = 0
      · have hc0 : tolower c0 = tolower 73 := stricmp_cons_eq_zero c0 73 _ _ hII
        have hMM : stricmp (TiffFile.headerMemory
            (TiffFile.decodeHeader ((c0 :: c1 :: c2 :: c3 :: c4 :: c5 :: c6 :: c7 :: tl).take 8)))
            MotorolaEndian ≠ 0 := by
          apply stricmp_cons_ne_zero c0 77
          rw [hc0]
          decide
        simp only [hII, hMM, ne_eq, not_true_eq_false, not_false_eq_true, if_false, if_true]
        split_ifs <;> simp
      · simp only [hII, ne_eq, not_false_eq_true, if_true]
        split_ifs <;> simp

/-- C8 (the code departs from the claim): a header whose order marker is "XX", followed by
the bytes 2A 00 and an offset, is accepted by `open()` and decoded as little endian, where
the claim has it raise; indeed `open()` never raises the byte-order error, on any file. -/
theorem C8_unknown_marker_accepted :
    (∃ f, TiffFile.openFile [0x58, 0x58, 0x2A, 0x00, 0x08, 0x00, 0x00, 0x00] = .ok f ∧
      f.m_IntegerReader = .littleEndian ∧ f.m_Header.Magic = 42 ∧
      f.m_Header.OffsetFirstIfd = 8) ∧
    ∀ file : List Byte, TiffFile.openFile file ≠ .error .byteOrder :=
  ⟨⟨_, rfl, rfl, rfl, rfl⟩, openFile_never_byteOrder⟩

/-- C9 (the code departs from the claim): the header "MM" 2A 00 has a recognized marker and
a magic field that, decoded in the big-endian order that "MM" declares, is 10752 and not
42, yet `open()` accepts it (as little endian); likewise "II" 00 2A, whose magic decoded
as little endian is 10752, is accepted (as big endian). -/
theorem C9_wrong_magic_accepted :
    (be16 0x2A 0x00 ≠ Magic ∧
      ∃ f, TiffFile.openFile [0x4D, 0x4D, 0x2A, 0x00, 0x08, 0x00, 0x00, 0x00] = .ok f ∧
        f.m_IntegerReader = .littleEndian) ∧
    (le16 0x00 0x2A ≠ Magic ∧
      ∃ f, TiffFile.openFile [0x49, 0x49, 0x00, 0x2A, 0x00, 0x00, 0x00, 0x08] = .ok f ∧
        f.m_IntegerReader = .bigEndian) :=
  ⟨⟨by decide, _, rfl, rfl⟩, ⟨by decide, _, rfl, rfl⟩⟩

/-- C10 (the code departs from the claim): for every first-directory offset and whatever
follows the header, the big-endian encoding (marker "MM") of the header with magic 42 is
rejected by `open()` with the magic-number error, so it is never decoded to the fields
that the little-endian encoding yields. -/
theorem C10_big_endian_header_rejected (offset : Nat) (rest : List Byte) :
    TiffFile.openFile (encodeHeaderBE Magic offset ++ rest) = .error .magicNumber := by
  have hMM : ascii "MM" = [77, 77] := by decide
  have hlen : 8 ≤ (encodeHeaderBE Magic offset ++ rest).length := by
    simp [encodeHeaderBE, hMM]
  rw [TiffFile.openFile, TiffFile.Init, TiffFile.ReadHeader_fresh _ hlen]
  rfl

/-! ## The annotation reader: reads, errors and progress -/

namespace WangAnnotationReader


theorem length_rest (r : WangAnnotationReader) : r.rest.length = r.m_Size - r.m_Offset := by
  simp [rest, m_Size]

theorem SizeLeft_eq (r : WangAnnotationReader) : r.SizeLeft = r.rest.length := by
  rw [length_rest, SizeLeft]
  split_ifs <;> omega

theorem rest_advance (r : WangAnnotationReader) (n : Nat) : (r.advance n).rest = r.rest.drop n := by
  simp [rest, advance, List.drop_drop, Nat.add_comm]

theorem advance_advance (r : WangAnnotationReader) (a b : Nat) :
    (r.advance a).advance b = r.advance (a + b) := by
  simp [advance, Nat.add_assoc]

theorem m_Size_advance (r : WangAnnotationReader) (n : Nat) : (r.advance n).m_Size = r.m_Size := rfl
theorem m_Handler_advance (r : WangAnnotationReader) (n : Nat) : (r.advance n).m_Handler = r.m_Handler := rfl
theorem m_Offset_advance (r : WangAnnotationReader) (n : Nat) : (r.advance n).m_Offset = r.m_Offset + n := rfl

theorem ReadStruct_eq {α : Type} (r : WangAnnotationReader) (n : Nat) (decode : List Byte → α) :
    r.ReadStruct n decode =
      if r.rest.length < n then none else some (decode (r.rest.take n), r.advance n) := by
  simp [ReadStruct, SizeLeft_eq, bytesAtCursor, advance]

theorem ReadString_eq (r : WangAnnotationReader) (n : Nat) :
    r.ReadString n = if r.rest.length < n then none else some (r.rest.take n, r.advance n) := by
  simp only [ReadString, subscriptOfRead, SizeLeft_eq, rest, advance]
  split_ifs <;> rfl

theorem ReadBytes_eq (r : WangAnnotationReader) (n : Nat) :
    r.ReadBytes n = if r.rest.length < n then none else some (r.rest.take n, r.advance n) := by
  simp only [ReadBytes, subscriptOfRead, SizeLeft_eq, rest, advance]
  split_ifs <;> rfl

theorem ReadStruct_append {α : Type} (r : WangAnnotationReader) (n : Nat) (decode : List Byte → α)
    (chunk tl : List Byte) (hr : r.rest = chunk ++ tl) (hn : chunk.length = n) :
    r.ReadStruct n decode = some (decode chunk, r.advance n) ∧ (r.advance n).rest = tl := by
  subst hn
  rw [ReadStruct_eq, rest_advance, hr]
  simp

theorem ReadString_append (r : WangAnnotationReader) (chunk tl : List Byte)
    (hr : r.rest = chunk ++ tl) :
    r.ReadString chunk.length = some (chunk, r.advance chunk.length) ∧
      (r.advance chunk.length).rest = tl := by
  rw [ReadString_eq, rest_advance, hr]
  simp

/-- Seek to the absolute offset `r0.m_Offset + k`, by a reader `r` that shares the payload of `r0`. -/
theorem Seek_beg_eq (r : WangAnnotationReader) (k : Nat) :
    r.Seek (k : Int) .beg = if r.m_Size ≤ k then .error .seekOutOfRange else .ok { r with m_Offset := k } := by
  simp only [Seek]
  have : ¬ ((k : Int) < 0) := by omega
  by_cases h : r.m_Size ≤ k
  · have h2 : (k : Int) ≥ (r.m_Size : Int) := by omega
    simp [h, h2]
  · have h2 : ¬ (k : Int) ≥ (r.m_Size : Int) := by omega
    simp [h, h2, this]


theorem m_AnnotationData_advance (r : WangAnnotationReader) (n : Nat) :
    (r.advance n).m_AnnotationData = r.m_AnnotationData := rfl

end WangAnnotationReader

theorem return_local_error {α : Type} (l : TiffWangMarkSet) (pname : TiffWangMarkProperties → α)
    (m : TiffWangMark) (e : WangError) (h : TiffWangMark.return_local l pname m = .error e) :
    e = .propertyNotSet := by
  unfold TiffWangMark.return_local at h
  split_ifs at h
  · cases h; rfl

theorem LocalText_error (m : TiffWangMark) (e : WangError) (h : m.LocalText = .error e) :
    e = .propertyNotSet := by
  unfold TiffWangMark.LocalText at h
  split_ifs at h
  · cases h; rfl

theorem emitText_error (r : WangAnnotationReader) (mark : TiffWangMark) (e : WangError)
    (h : emitText r mark = .error e) : e = .propertyNotSet := by
  unfold emitText at h
  simp only at h
  split_ifs at h <;>
    (split at h
     · cases h
     · cases h; exact return_local_error _ _ _ _ ‹_›
     · cases h; exact LocalText_error _ _ ‹_›)

theorem emitLine_error (r : WangAnnotationReader) (mark : TiffWangMark) (e : WangError)
    (h : emitLine r mark = .error e) : e = .propertyNotSet := by
  unfold emitLine at h
  simp only at h
  split_ifs at h
  split at h
  · cases h; exact return_local_error _ _ _ _ ‹_›
  · cases h

theorem emitForm_error (r : WangAnnotationReader) (mark : TiffWangMark) (e : WangError)
    (h : emitForm r mark = .error e) : e = .propertyNotSet := by
  unfold emitForm at h
  simp only at h
  split_ifs at h
  split at h
  · cases h
  · cases h; exact return_local_error _ _ _ _ ‹_›
  · cases h; exact return_local_error _ _ _ _ ‹_›

theorem emitImageReference_error (r : WangAnnotationReader) (mark : TiffWangMark) (e : WangError)
    (h : emitImageReference r mark = .error e) : e = .propertyNotSet := by
  unfold emitImageReference at h
  simp only at h
  split_ifs at h
  split at h
  · cases h
  · cases h; exact return_local_error _ _ _ _ ‹_›
  · cases h; exact return_local_error _ _ _ _ ‹_›

theorem emitImageEmbedded_error (r : WangAnnotationReader) (mark : TiffWangMark) (e : WangError)
    (h : emitImageEmbedded r mark = .error e) : e = .propertyNotSet := by
  unfold emitImageEmbedded at h
  simp only at h
  split_ifs at h <;>
    (split at h
     · cases h
     · cases h; exact return_local_error _ _ _ _ ‹_›
     · cases h; exact return_local_error _ _ _ _ ‹_›
     · cases h; exact return_local_error _ _ _ _ ‹_›)

theorem EmitMark_error (r : WangAnnotationReader) (mark : TiffWangMark) (e : WangError)
    (h : EmitMark r mark = .error e) : e = .propertyNotSet := by
  unfold EmitMark at h
  simp only at h
  split_ifs at h
  · exact emitText_error _ _ _ h
  · exact emitLine_error _ _ _ h
  · simp [emitFilledRectangle] at h
    split_ifs at h
  · simp [emitHollowRectangle] at h
    split_ifs at h
  · exact emitForm_error _ _ _ h
  · exact emitImageReference_error _ _ _ h
  · exact emitImageEmbedded_error _ _ _ h

theorem emit_error (s : ReadState) (e : WangError) (h : emit s = .error e) :
    e = .propertyNotSet := by
  unfold emit at h
  split at h
  · cases h; exact EmitMark_error _ _ _ ‹_›
  · cases h

theorem emit_reader (s s1 : ReadState) (h : emit s = .ok s1) : s1.reader = s.reader := by
  unfold emit at h
  split at h
  · cases h
  · cases h; rfl


theorem readPointList_data (isGlobal : Bool) (n i : Nat) (r : WangAnnotationReader)
    (mark : TiffWangMark) :
    (readPointList isGlobal n i r mark).2.1.m_AnnotationData = r.m_AnnotationData := by
  induction n generalizing i r mark with
  | zero => rfl
  | succ k ih =>
    rw [readPointList]
    simp only [WangAnnotationReader.ReadStruct_eq]
    split_ifs
    · rfl
    · simp only []
      rw [ih]
      rfl

theorem Points_error (m : TiffWangMark) (e : WangError) (h : m.Points = .error e) :
    e = .propertyNotSet := by
  rw [TiffWangMark.Points, TiffWangMark.return_either_eq] at h
  split_ifs at h
  cases h
  rfl

theorem processPoints_error (r : WangAnnotationReader) (mark : TiffWangMark) (isGlobal : Bool)
    (e : WangError) (h : processPoints r mark isGlobal = .error e) :
    e = .propertyNotSet ∨ e = .lengthError := by
  unfold processPoints at h
  simp only [WangAnnotationReader.ReadStruct_eq] at h
  split_ifs at h
  simp only at h
  split at h
  next e1 hP =>
    cases h
    exact Or.inl (Points_error _ _ hP)
  next points hP =>
    split_ifs at h
    cases h
    exact Or.inr rfl

theorem processPoints_data (r : WangAnnotationReader) (mark : TiffWangMark) (isGlobal : Bool)
    (b : Bool) (r1 : WangAnnotationReader) (m1 : TiffWangMark)
    (h : processPoints r mark isGlobal = .ok (b, r1, m1)) :
    r1.m_AnnotationData = r.m_AnnotationData := by
  unfold processPoints at h
  simp only [WangAnnotationReader.ReadStruct_eq] at h
  split_ifs at h
  · cases h; rfl
  · simp only at h
    split at h
    next e1 hP => cases h
    next points hP =>
      split_ifs at h
      simp only [Except.ok.injEq] at h
      have h2 := congrArg (fun t => t.2.1.m_AnnotationData) h
      simp only at h2
      rw [← h2, readPointList_data]
      rfl

theorem namedBlockBranch_error (r : WangAnnotationReader) (block : TiffWangNamedBlock)
    (mark : TiffWangMark) (isGlobal : Bool) (e : WangError)
    (h : namedBlockBranch r block mark isGlobal = .error e) :
    e = .propertyNotSet ∨ e = .lengthError := by
  unfold namedBlockBranch at h
  simp only at h
  split_ifs at h
  unfold processAnoDat at h
  simp only at h
  split_ifs at h
  exact processPoints_error _ _ _ _ h

theorem processRotation_data (r : WangAnnotationReader) (mark : TiffWangMark) (isGlobal : Bool) :
    (processRotation r mark isGlobal).2.1.m_AnnotationData = r.m_AnnotationData := by
  unfold processRotation
  simp only [WangAnnotationReader.ReadStruct_eq]
  split_ifs <;> rfl

theorem processFilNam_data (r : WangAnnotationReader) (block : TiffWangNamedBlock)
    (mark : TiffWangMark) (isGlobal : Bool) :
    (processFilNam r block mark isGlobal).2.1.m_AnnotationData = r.m_AnnotationData := by
  unfold processFilNam
  simp only [WangAnnotationReader.ReadString_eq]
  split_ifs <;> rfl

theorem processDIB_data (r : WangAnnotationReader) (block : TiffWangNamedBlock)
    (mark : TiffWangMark) (isGlobal : Bool) :
    (processDIB r block mark isGlobal).2.1.m_AnnotationData = r.m_AnnotationData := by
  unfold processDIB
  simp only [WangAnnotationReader.ReadBytes_eq]
  split_ifs <;> rfl

theorem processGroup_data (r : WangAnnotationReader) (block : TiffWangNamedBlock)
    (mark : TiffWangMark) (isGlobal : Bool) :
    (processGroup r block mark isGlobal).2.1.m_AnnotationData = r.m_AnnotationData := by
  unfold processGroup
  simp only [WangAnnotationReader.ReadString_eq]
  split_ifs <;> rfl

theorem processIndex_data (r : WangAnnotationReader) (block : TiffWangNamedBlock)
    (mark : TiffWangMark) (isGlobal : Bool) :
    (processIndex r block mark isGlobal).2.1.m_AnnotationData = r.m_AnnotationData := by
  unfold processIndex
  simp only [WangAnnotationReader.ReadString_eq]
  split_ifs <;> rfl

theorem processAnText_data (r : WangAnnotationReader) (mark : TiffWangMark) (isGlobal : Bool) :
    (processAnText r mark isGlobal).2.1.m_AnnotationData = r.m_AnnotationData := by
  unfold processAnText
  simp only [WangAnnotationReader.ReadStruct_eq, WangAnnotationReader.ReadBytes_eq]
  split_ifs with h1
  · rfl
  · simp only []
    split_ifs with h2 h3
    all_goals first | rfl | (simp only []; split_ifs <;> rfl)

theorem reader_of_ok_eq {X : Bool × WangAnnotationReader × TiffWangMark} {b : Bool}
    {r1 : WangAnnotationReader} {m1 : TiffWangMark}
    (h : (Except.ok X : Except WangError _) = .ok (b, r1, m1)) : r1 = X.2.1 := by
  injection h with h
  rw [h]

theorem namedBlockBranch_data (r : WangAnnotationReader) (block : TiffWangNamedBlock)
    (mark : TiffWangMark) (isGlobal : Bool) (b : Bool) (r1 : WangAnnotationReader)
    (m1 : TiffWangMark) (h : namedBlockBranch r block mark isGlobal = .ok (b, r1, m1)) :
    r1.m_AnnotationData = r.m_AnnotationData := by
  unfold namedBlockBranch at h
  simp only at h
  split_ifs at h
  · unfold processAnoDat at h
    simp only at h
    split_ifs at h
    · exact processPoints_data _ _ _ _ _ _ h
    · rw [reader_of_ok_eq h]
      exact processRotation_data _ _ _
    · rw [reader_of_ok_eq h]
    · rw [reader_of_ok_eq h]
  · rw [reader_of_ok_eq h]; exact processFilNam_data _ _ _ _
  · rw [reader_of_ok_eq h]; exact processDIB_data _ _ _ _
  · rw [reader_of_ok_eq h]; exact processGroup_data _ _ _ _
  · rw [reader_of_ok_eq h]; exact processIndex_data _ _ _ _
  · rw [reader_of_ok_eq h]; exact processAnText_data _ _ _
  · rw [reader_of_ok_eq h]

theorem ProcessNamedBlock_error (r : WangAnnotationReader) (block : TiffWangNamedBlock)
    (mark : TiffWangMark) (is16bit isGlobal : Bool) (e : WangError)
    (h : ProcessNamedBlock r block mark is16bit isGlobal = .error e) :
    e = .propertyNotSet ∨ e = .lengthError := by
  unfold ProcessNamedBlock at h
  simp only at h
  split at h
  next e1 hb =>
    cases h
    exact namedBlockBranch_error _ _ _ _ _ hb
  next => cases h
  next =>
    split at h <;> cases h

/-- A named block that was processed with success leaves the cursor at or after the place
where the block started, on the same payload. -/
theorem ProcessNamedBlock_true (r : WangAnnotationReader) (block : TiffWangNamedBlock)
    (mark : TiffWangMark) (is16bit isGlobal : Bool) (r1 : WangAnnotationReader)
    (m1 : TiffWangMark)
    (h : ProcessNamedBlock r block mark is16bit isGlobal = .ok (true, r1, m1)) :
    r1.m_AnnotationData = r.m_AnnotationData ∧ r.m_Offset ≤ r1.m_Offset := by
  unfold ProcessNamedBlock at h
  simp only at h
  split at h
  next => cases h
  next => cases h
  next r2 m2 hb =>
    have hd := namedBlockBranch_data _ _ _ _ _ _ _ hb
    have hnext : ∃ k : Nat, r.m_Offset ≤ k ∧
        (r.m_Offset : Int) + (block.Size : Int) + (if is16bit = true then 4 else 0) = (k : Int) := by
      refine ⟨r.m_Offset + block.Size + (if is16bit = true then 4 else 0), by omega, ?_⟩
      split_ifs <;> push_cast <;> ring
    obtain ⟨k, hk, hnext⟩ := hnext
    rw [hnext, WangAnnotationReader.Seek_beg_eq] at h
    by_cases hs : r2.m_Size ≤ k
    · rw [if_pos hs] at h
      cases h
    · rw [if_neg hs] at h
      simp only [Except.ok.injEq, Prod.mk.injEq, true_and] at h
      obtain ⟨h1, _⟩ := h
      subst h1
      exact ⟨hd, hk⟩



theorem namedBlockCase_error (is16BitMode isGlobal : Bool) (s : ReadState) (e : WangError)
    (h : namedBlockCase is16BitMode isGlobal s = .error e) :
    e = .propertyNotSet ∨ e = .lengthError := by
  unfold namedBlockCase at h
  split at h
  next => cases h
  next block r hr =>
    split at h
    next e1 hp =>
      cases h
      exact ProcessNamedBlock_error _ _ _ _ _ _ hp
    next => cases h

theorem namedBlockCase_true (is16BitMode isGlobal : Bool) (s s1 : ReadState)
    (h : namedBlockCase is16BitMode isGlobal s = .ok (true, s1)) :
    s1.reader.m_AnnotationData = s.reader.m_AnnotationData ∧
      s.reader.m_Offset ≤ s1.reader.m_Offset := by
  unfold namedBlockCase at h
  split at h
  next => cases h
  next block r hr =>
    rw [WangAnnotationReader.ReadStruct_eq] at hr
    split_ifs at hr
    simp only [Option.some.injEq, Prod.mk.injEq] at hr
    obtain ⟨_, hr⟩ := hr
    subst hr
    split at h
    next => cases h
    next ok r2 m2 hp =>
      simp only [Except.ok.injEq, Prod.mk.injEq] at h
      obtain ⟨h1, h2⟩ := h
      subst h1 h2
      obtain ⟨hd, ho⟩ := ProcessNamedBlock_true _ _ _ _ _ _ _ hp
      exact ⟨hd, by rw [WangAnnotationReader.m_Offset_advance] at ho; simp only []; omega⟩

theorem attributeCase_error (s : ReadState) (e : WangError) (h : attributeCase s = .error e) :
    e = .propertyNotSet := by
  unfold attributeCase at h
  split at h
  next e1 he =>
    cases h
    split_ifs at he
    exact emit_error _ _ he
  next s2 he =>
    simp only at h
    split at h <;> cases h

theorem attributeCase_true (s s1 : ReadState) (h : attributeCase s = .ok (true, s1)) :
    s1.reader.m_AnnotationData = s.reader.m_AnnotationData ∧
      s.reader.m_Offset ≤ s1.reader.m_Offset := by
  unfold attributeCase at h
  split at h
  next => cases h
  next s2 he =>
    have hr : s2.reader = s.reader := by
      split_ifs at he
      · exact emit_reader _ _ he
      · cases he; rfl
    simp only at h
    split at h
    next => cases h
    next attributes r hread =>
      rw [WangAnnotationReader.ReadStruct_eq] at hread
      split_ifs at hread
      simp only [Option.some.injEq, Prod.mk.injEq] at hread
      obtain ⟨_, hread⟩ := hread
      subst hread
      simp only [Except.ok.injEq, Prod.mk.injEq, true_and] at h
      subst h
      rw [hr]
      exact ⟨rfl, by simp [WangAnnotationReader.advance]⟩

theorem iteration_error (is16BitMode : Bool) (s : ReadState) (e : WangError)
    (h : iteration is16BitMode s = .error e) : e = .propertyNotSet ∨ e = .lengthError := by
  unfold iteration at h
  split at h
  next => cases h
  next entry r hr =>
    simp only at h
    split at h
    next e1 hsw =>
      cases h
      split_ifs at hsw
      · exact namedBlockCase_error _ _ _ _ hsw
      · exact Or.inl (attributeCase_error _ _ hsw)
      · exact namedBlockCase_error _ _ _ _ hsw
    next => cases h

/-- A pass of the loop after which `keepParsing` is still true has moved the cursor forward
by at least the 8 bytes of the entry header, and has left it inside the payload. -/
theorem iteration_true (is16BitMode : Bool) (s s1 : ReadState)
    (h : iteration is16BitMode s = .ok (true, s1)) :
    s1.reader.m_AnnotationData = s.reader.m_AnnotationData ∧
      s.reader.m_Offset + 8 ≤ s1.reader.m_Offset ∧
      s1.reader.m_Offset < s1.reader.m_Size := by
  unfold iteration at h
  split at h
  next => cases h
  next entry r hr =>
    rw [WangAnnotationReader.ReadStruct_eq] at hr
    split_ifs at hr
    simp only [Option.some.injEq, Prod.mk.injEq] at hr
    obtain ⟨_, hr⟩ := hr
    subst hr
    simp only at h
    split at h
    next => cases h
    next keepParsing s2 hsw =>
      simp only [Except.ok.injEq, Prod.mk.injEq, Bool.and_eq_true, Bool.not_eq_true',
        decide_eq_true_eq] at h
      obtain ⟨⟨hk, heof, h20⟩, hs⟩ := h
      subst hs hk
      have hlt : s2.reader.m_Offset < s2.reader.m_Size := by
        rw [WangAnnotationReader.SizeLeft] at h20
        split_ifs at h20 <;> omega
      have hstep : s2.reader.m_AnnotationData = s.reader.m_AnnotationData ∧
          s.reader.m_Offset + 8 ≤ s2.reader.m_Offset := by
        split_ifs at hsw
        · obtain ⟨a, b⟩ := namedBlockCase_true _ _ _ _ hsw
          exact ⟨a, b⟩
        · obtain ⟨a, b⟩ := attributeCase_true _ _ hsw
          exact ⟨a, b⟩
        · obtain ⟨a, b⟩ := namedBlockCase_true _ _ _ _ hsw
          exact ⟨a, b⟩
        · simp only [Except.ok.injEq, Prod.mk.injEq, true_and] at hsw
          subst hsw
          exact ⟨rfl, le_refl _⟩
      exact ⟨hstep.1, hstep.2, hlt⟩


theorem readLoop_result (is16BitMode : Bool) (fuel : Nat) (s : ReadState)
    (hf : s.reader.m_Size - s.reader.m_Offset < fuel) :
    (∃ s1, readLoop is16BitMode fuel s = .ok s1) ∨
      readLoop is16BitMode fuel s = .error .propertyNotSet ∨
      readLoop is16BitMode fuel s = .error .lengthError := by
  induction fuel generalizing s with
  | zero => omega
  | succ k ih =>
    rw [readLoop]
    split
    next e he =>
      rcases iteration_error _ _ _ he with h | h <;> subst h <;> simp
    next s1 he =>
      obtain ⟨hd, ho, hlt⟩ := iteration_true _ _ _ he
      apply ih
      have : s1.reader.m_Size = s.reader.m_Size := by
        simp only [WangAnnotationReader.m_Size, hd]
      omega
    next s1 he => exact Or.inl ⟨s1, rfl⟩

theorem Seek_cur_4 (r : WangAnnotationReader) (h0 : r.m_Offset = 0) (h : 4 < r.m_Size) :
    r.Seek 4 .cur = .ok (r.advance 4) := by
  simp only [WangAnnotationReader.Seek, h0]
  have : ¬ (((0 : Nat) : Int) + 4 < 0 ∨ ((0 : Nat) : Int) + 4 ≥ (r.m_Size : Int)) := by omega
  rw [if_neg this]
  simp [WangAnnotationReader.advance, h0]

theorem Seek_cur_4_short (r : WangAnnotationReader) (h0 : r.m_Offset = 0) (h : r.m_Size ≤ 4) :
    r.Seek 4 .cur = .error .seekOutOfRange := by
  simp only [WangAnnotationReader.Seek, h0]
  have : (((0 : Nat) : Int) + 4 < 0 ∨ ((0 : Nat) : Int) + 4 ≥ (r.m_Size : Int)) := by omega
  rw [if_pos this]

theorem ReadScalar32_eq (r : WangAnnotationReader) :
    r.ReadScalar32 =
      if r.rest.length < 4 then .error .insufficientData
      else .ok (u32At (r.rest.take 4) 0, r.advance 4) := by
  simp only [WangAnnotationReader.ReadScalar32, WangAnnotationReader.AssertSizeLeft,
    WangAnnotationReader.SizeLeft_eq, WangAnnotationReader.bytesAtCursor,
    WangAnnotationReader.advance]
  split_ifs <;> rfl

theorem Read_result (r : WangAnnotationReader) (h0 : r.m_Offset = 0) (h8 : 8 ≤ r.m_Size) :
    (∃ s, Read r = .ok s) ∨ Read r = .error .propertyNotSet ∨ Read r = .error .lengthError := by
  unfold Read
  rw [Seek_cur_4 r h0 (by omega)]
  simp only [ReadScalar32_eq]
  have hlen : ¬ (r.advance 4).rest.length < 4 := by
    rw [WangAnnotationReader.length_rest]
    simp only [WangAnnotationReader.m_Size_advance, WangAnnotationReader.m_Offset_advance, h0]
    omega
  rw [if_neg hlen]
  simp only
  have hfuel : ((r.advance 4).advance 4).m_Size - ((r.advance 4).advance 4).m_Offset <
      ((r.advance 4).advance 4).m_Size + 1 := by omega
  rcases readLoop_result (decide (u32At (List.take 4 (r.advance 4).rest) 0 = 0)) _
    ⟨(r.advance 4).advance 4, default, [], []⟩ hfuel with ⟨s1, h1⟩ | h1 | h1
  · rw [h1]
    simp only
    split_ifs
    · cases he : emit s1 with
      | error e =>
        have := emit_error _ _ he
        subst this
        exact Or.inr (Or.inl rfl)
      | ok s2 => exact Or.inl ⟨s2, rfl⟩
    · exact Or.inl ⟨s1, rfl⟩
  · rw [h1]
    exact Or.inr (Or.inl rfl)
  · rw [h1]
    exact Or.inr (Or.inr rfl)

/-- A payload of at most 4 bytes makes the `Seek(4)` of `Read` throw, one of 5 to 7 bytes
makes the read of the mode selector throw. -/
theorem run_short (payload : List Byte) (handler : Bool) :
    (payload.length ≤ 4 → run payload handler = .error .seekOutOfRange) ∧
    (4 < payload.length → payload.length < 8 → run payload handler = .error .insufficientData) := by
  constructor
  · intro h
    unfold run Read
    rw [Seek_cur_4_short (WangAnnotationReader.over payload handler) rfl h]
  · intro h4 h8
    unfold run Read
    rw [Seek_cur_4 (WangAnnotationReader.over payload handler) rfl h4]
    simp only [ReadScalar32_eq]
    have hlen : ((WangAnnotationReader.over payload handler).advance 4).rest.length < 4 := by
      rw [WangAnnotationReader.length_rest]
      simp only [WangAnnotationReader.m_Size_advance, WangAnnotationReader.m_Offset_advance]
      simp only [WangAnnotationReader.m_Size, WangAnnotationReader.over]
      omega
    rw [if_pos hlen]

/-! ## Claims on `Read` -/

theorem rest_over (payload : List Byte) (handler : Bool) :
    (WangAnnotationReader.over payload handler).rest = payload := rfl

theorem IsSet_Set_self (m : TiffWangMark) (p : TiffWangMarkSet) (hp : p ≠ .NoFlagsSet) :
    (m.Set p).IsSet p = true := by
  rw [TiffWangMark.IsSet_eq_testBit _ _ hp]
  simp [TiffWangMark.Set, Nat.testBit_lor, TiffWangMark.val_eq_two_pow p hp, Nat.testBit_two_pow]

theorem HasAttributes_default : (default : TiffWangMark).HasAttributes = false := by decide

theorem HasAttributes_SetAttributes (m : TiffWangMark) : m.SetAttributes.HasAttributes = true :=
  IsSet_Set_self m .AttributesSet (by decide)

/-- The pass of the loop over an `ATTRIBUTE_DATA` entry followed by a complete attribute
record: the mark in progress (if any) is emitted, the Local tier is reset from the Global
tier, the record becomes the attributes of the new mark. -/
theorem iteration_attribute (is16BitMode : Bool) (s s1 : ReadState) (hdr attr tl : List Byte)
    (hr : s.reader.rest = hdr ++ (attr ++ tl)) (hh : hdr.length = 8)
    (ht : (decodeEntry hdr).DataType = TiffWangDataType.ATTRIBUTE_DATA)
    (ha : attr.length = 164)
    (he : (if s.currentMark.HasAttributes then emit { s with reader := s.reader.advance 8 }
            else .ok { s with reader := s.reader.advance 8 }) = .ok s1) :
    iteration is16BitMode s = .ok (decide (20 ≤ tl.length),
      { s1 with
        reader := s.reader.advance 172
        currentMark :=
          ({ s1.currentMark.AssignGlobalToLocal with
              m_Attributes := decodeAttributes attr }).SetAttributes }) ∧
    (s.reader.advance 172).rest = tl := by
  obtain ⟨h1, h1r⟩ := WangAnnotationReader.ReadStruct_append s.reader 8 decodeEntry hdr _ hr hh
  have hs1 : s1.reader = s.reader.advance 8 := by
    split_ifs at he
    · exact emit_reader _ _ he
    · cases he; rfl
  obtain ⟨h2, h2r⟩ := WangAnnotationReader.ReadStruct_append (s.reader.advance 8) 164
    decodeAttributes attr tl h1r ha
  rw [WangAnnotationReader.advance_advance] at h2 h2r
  refine ⟨?_, h2r⟩
  have hne : TiffWangDataType.ATTRIBUTE_DATA ≠ TiffWangDataType.GLOBAL_NAMED_BLOCK := by decide
  have hsl : (s.reader.advance 172).SizeLeft = tl.length := by
    rw [WangAnnotationReader.SizeLeft_eq, h2r]
  have hkeep : (!(s.reader.advance 172).Eof && decide ((s.reader.advance 172).SizeLeft ≥ 20)) =
      decide (20 ≤ tl.length) := by
    simp only [WangAnnotationReader.Eof, hsl]
    by_cases h20 : 20 ≤ tl.length
    · have : tl.length ≠ 0 := by omega
      simp [h20, this]
    · simp [h20]
  unfold iteration
  rw [h1]
  simp only [ht, hne, if_false, if_true]
  unfold attributeCase
  simp only [he, sizeof_OIAN_MARK_ATTRIBUTES, hs1, h2, Bool.true_and, hkeep]


/-- Method `Read` on a payload that starts with a full preamble: the loop starts at offset 8 on
what follows the preamble, and the mark in progress is flushed after it. -/
theorem run_preamble (reserved mode body : List Byte) (handler : Bool)
    (hres : reserved.length = 4) (hmode : mode.length = 4) :
    run (reserved ++ (mode ++ body)) handler =
      (match readLoop (decide (u32At mode 0 = 0)) ((reserved ++ (mode ++ body)).length + 1)
          { reader := (WangAnnotationReader.over (reserved ++ (mode ++ body)) handler).advance 8,
            currentMark := default, calls := [], emitted := [] } with
      | .error e => .error e
      | .ok s => if s.currentMark.HasAttributes then emit s else .ok s) ∧
    ((WangAnnotationReader.over (reserved ++ (mode ++ body)) handler).advance 8).rest = body := by
  have hr4 : ((WangAnnotationReader.over (reserved ++ (mode ++ body)) handler).advance 4).rest =
      mode ++ body := by
    rw [WangAnnotationReader.rest_advance, rest_over, List.drop_left' hres]
  have hr8 : ((WangAnnotationReader.over (reserved ++ (mode ++ body)) handler).advance 8).rest =
      body := by
    rw [WangAnnotationReader.rest_advance, rest_over, ← List.append_assoc,
      List.drop_left' (by simp [hres, hmode])]
  refine ⟨?_, hr8⟩
  unfold run Read
  rw [Seek_cur_4 _ rfl (by simp [WangAnnotationReader.m_Size, WangAnnotationReader.over]; omega)]
  simp only [ReadScalar32_eq, hr4]
  have hlen : ¬ (mode ++ body).length < 4 := by simp [hmode]
  rw [if_neg hlen]
  have htake : List.take 4 (mode ++ body) = mode := by
    rw [List.take_left' hmode]
  simp only [htake, WangAnnotationReader.advance_advance]
  rfl

theorem EmitMark_filled_rectangle (r : WangAnnotationReader) (mark : TiffWangMark)
    (hh : r.m_Handler = true)
    (ht : mark.Attributes.uType = OAIN_MARK_TYPE.FilledRectangle)
    (hv : mark.Attributes.bVisible ≠ 0) :
    EmitMark r mark = .ok (mark,
      [Call.RenderRect mark.Attributes.lrBounds mark.Attributes.rgbColor1
        (toBool mark.Attributes.bHighlighting) (toBool mark.Attributes.bTransparent)]) := by
  unfold EmitMark
  simp [ht, emitFilledRectangle, notRendered, hh, hv, OAIN_MARK_TYPE.FilledRectangle,
    OAIN_MARK_TYPE.AttachANote, OAIN_MARK_TYPE.TextStamp, OAIN_MARK_TYPE.TypedText,
    OAIN_MARK_TYPE.TextFromFile, OAIN_MARK_TYPE.StraightLine, OAIN_MARK_TYPE.FreehandLine]



theorem name_OiGroup :
    (ascii "OiGroup" ++ [0]).take (strnlen_s (ascii "OiGroup" ++ [0]) 8) = ascii "OiGroup" := by
  decide

/-- The pass of the loop over a named-block entry (Global for entry type 2, Local for entry
type 6) whose block is "OiGroup" with a value `v`, complete and followed by more data: the
group of that tier becomes `v`, its flag is set, and the cursor is put after the padding. -/
theorem iteration_group (is16BitMode isGlobal : Bool) (s : ReadState)
    (hdr nb v pad tl : List Byte)
    (hr : s.reader.rest = hdr ++ (nb ++ (v ++ (pad ++ tl))))
    (hh : hdr.length = 8)
    (ht : (decodeEntry hdr).DataType =
      if isGlobal then TiffWangDataType.GLOBAL_NAMED_BLOCK
      else TiffWangDataType.LOCAL_NAMED_BLOCK)
    (hnb : nb.length = 12)
    (hname : nb.take 8 = ascii "OiGroup" ++ [0])
    (hsize : u32At nb 8 = v.length)
    (hpad : pad.length = if is16BitMode then 4 else 0)
    (htl : tl ≠ []) :
    iteration is16BitMode s = .ok (decide (20 ≤ tl.length),
      { s with
        reader := s.reader.advance (20 + v.length + pad.length)
        currentMark := (s.currentMark.GroupSetter isGlobal).assign isGlobal
          (fun p => { p with Group := v }) }) ∧
    (s.reader.advance (20 + v.length + pad.length)).rest = tl := by
  obtain ⟨h1, h1r⟩ := WangAnnotationReader.ReadStruct_append s.reader 8 decodeEntry hdr _ hr hh
  obtain ⟨h2, h2r⟩ := WangAnnotationReader.ReadStruct_append (s.reader.advance 8) 12
    decodeNamedBlock nb _ h1r hnb
  rw [WangAnnotationReader.advance_advance] at h2 h2r
  have h3 := WangAnnotationReader.ReadString_append (s.reader.advance (8 + 12)) v _ h2r
  obtain ⟨h3, h3r⟩ := h3
  rw [WangAnnotationReader.advance_advance] at h3 h3r
  have hrest : (s.reader.advance (20 + v.length + pad.length)).rest = tl := by
    have := WangAnnotationReader.rest_advance (s.reader.advance (8 + 12 + v.length)) pad.length
    rw [WangAnnotationReader.advance_advance, h3r, List.drop_left' rfl] at this
    exact this
  refine ⟨?_, hrest⟩
  have hsl : (s.reader.advance (20 + v.length + pad.length)).SizeLeft = tl.length := by
    rw [WangAnnotationReader.SizeLeft_eq, hrest]
  have hkeep : (!(s.reader.advance (20 + v.length + pad.length)).Eof &&
      decide ((s.reader.advance (20 + v.length + pad.length)).SizeLeft ≥ 20)) =
      decide (20 ≤ tl.length) := by
    simp only [WangAnnotationReader.Eof, hsl]
    by_cases h20 : 20 ≤ tl.length
    · have : tl.length ≠ 0 := by omega
      simp [h20, this]
    · simp [h20]
  -- the named block
  have hblock : decodeNamedBlock nb = { Name := ascii "OiGroup" ++ [0], Size := v.length } := by
    simp only [decodeNamedBlock, hname, hsize]
  have hbranch : namedBlockBranch (s.reader.advance (8 + 12))
      { Name := ascii "OiGroup" ++ [0], Size := v.length } s.currentMark isGlobal =
      .ok (true, s.reader.advance (8 + 12 + v.length),
        (s.currentMark.GroupSetter isGlobal).assign isGlobal (fun p => { p with Group := v })) := by
    have n1 : ascii "OiGroup" ≠ ascii "OiAnoDat" := by decide
    have n2 : ascii "OiGroup" ≠ ascii "OiFilNam" := by decide
    have n3 : ascii "OiGroup" ≠ ascii "OiDIB" := by decide
    unfold namedBlockBranch processGroup
    simp only [name_OiGroup, n1, n2, n3, if_false, if_true, h3]
  have hsize2 : (s.reader.advance (8 + 12 + v.length)).m_Size >
      s.reader.m_Offset + 20 + v.length + pad.length := by
    have hl := WangAnnotationReader.length_rest (s.reader.advance (8 + 12 + v.length))
    rw [h3r] at hl
    simp only [List.length_append, WangAnnotationReader.m_Offset_advance] at hl
    have : 0 < tl.length := List.length_pos.mpr htl
    omega
  have hproc : ProcessNamedBlock (s.reader.advance (8 + 12))
      { Name := ascii "OiGroup" ++ [0], Size := v.length } s.currentMark is16BitMode isGlobal =
      .ok (true, s.reader.advance (20 + v.length + pad.length),
        (s.currentMark.GroupSetter isGlobal).assign isGlobal (fun p => { p with Group := v })) := by
    unfold ProcessNamedBlock
    simp only [hbranch]
    have hnext : ((s.reader.advance (8 + 12)).m_Offset : Int) + ((v.length : Nat) : Int) +
        (if is16BitMode = true then 4 else 0) =
        ((s.reader.m_Offset + 20 + v.length + pad.length : Nat) : Int) := by
      rw [hpad, WangAnnotationReader.m_Offset_advance]
      split_ifs <;> push_cast <;> ring
    rw [hnext, WangAnnotationReader.Seek_beg_eq, if_neg (by omega)]
    simp only [WangAnnotationReader.advance]
    have hadd : s.reader.m_Offset + 20 + v.length + pad.length =
        s.reader.m_Offset + (20 + v.length + pad.length) := by omega
    rw [hadd]
  unfold iteration
  rw [h1]
  simp only
  have hcase : namedBlockCase is16BitMode isGlobal { s with reader := s.reader.advance 8 } =
      .ok (true, { s with
        reader := s.reader.advance (20 + v.length + pad.length)
        currentMark := (s.currentMark.GroupSetter isGlobal).assign isGlobal
          (fun p => { p with Group := v }) }) := by
    unfold namedBlockCase
    simp only [h2, hblock, hproc]
  cases isGlobal with
  | true =>
    simp only [if_true] at ht
    simp only [ht, if_true, hcase, Bool.true_and, hkeep]
  | false =>
    simp only [Bool.false_eq_true, if_false] at ht
    have hne1 : TiffWangDataType.LOCAL_NAMED_BLOCK ≠ TiffWangDataType.GLOBAL_NAMED_BLOCK := by
      decide
    have hne2 : TiffWangDataType.LOCAL_NAMED_BLOCK ≠ TiffWangDataType.ATTRIBUTE_DATA := by
      decide
    simp only [ht, hne1, hne2, if_false, if_true, hcase, Bool.true_and, hkeep]

/-- A mark none of whose Local text, points, file name, rotation or image flags is set is
emitted without error, whatever its type. -/
theorem EmitMark_bare (r : WangAnnotationReader) (mark : TiffWangMark)
    (h1 : mark.IsSet .LocalAsciiTextSet = false) (h2 : mark.IsSet .LocalUnicodeTextSet = false)
    (h3 : mark.IsSet .LocalPointsSet = false) (h4 : mark.IsSet .LocalFilenameSet = false)
    (h5 : mark.IsSet .LocalRotationSet = false) (h6 : mark.IsSet .LocalDibInfoSet = false) :
    ∃ calls, EmitMark r mark = .ok (mark, calls) := by
  have ha : mark.AnySet [.LocalAsciiTextSet, .LocalUnicodeTextSet] = false := by
    simp [TiffWangMark.AnySet, h1, h2]
  have hb : mark.AnySet [.LocalFilenameSet, .LocalRotationSet] = false := by
    simp [TiffWangMark.AnySet, h4, h5]
  unfold EmitMark
  simp only
  split_ifs
  · simp only [emitText, ha, Bool.not_false, if_true]
    split_ifs <;> exact ⟨_, rfl⟩
  · simp only [emitLine, h3, Bool.not_false, if_true]
    split_ifs <;> exact ⟨_, rfl⟩
  · simp only [emitFilledRectangle]
    split_ifs <;> exact ⟨_, rfl⟩
  · simp only [emitHollowRectangle]
    split_ifs <;> exact ⟨_, rfl⟩
  · simp only [emitForm, hb, Bool.not_false, if_true]
    split_ifs <;> exact ⟨_, rfl⟩
  · simp only [emitImageReference, hb, Bool.not_false, if_true]
    split_ifs <;> exact ⟨_, rfl⟩
  · simp only [emitImageEmbedded, h6, Bool.not_false, if_true]
    split_ifs <;> exact ⟨_, rfl⟩
  · exact ⟨_, rfl⟩

theorem emit_bare (s : ReadState)
    (h1 : s.currentMark.IsSet .LocalAsciiTextSet = false)
    (h2 : s.currentMark.IsSet .LocalUnicodeTextSet = false)
    (h3 : s.currentMark.IsSet .LocalPointsSet = false)
    (h4 : s.currentMark.IsSet .LocalFilenameSet = false)
    (h5 : s.currentMark.IsSet .LocalRotationSet = false)
    (h6 : s.currentMark.IsSet .LocalDibInfoSet = false) :
    ∃ calls, emit s = .ok { s with calls := s.calls ++ calls,
                                   emitted := s.emitted ++ [s.currentMark] } := by
  obtain ⟨calls, hc⟩ := EmitMark_bare s.reader s.currentMark h1 h2 h3 h4 h5 h6
  exact ⟨calls, by unfold emit; rw [hc]⟩

namespace TiffWangMark

theorem IsSet_default (q : TiffWangMarkSet) : (default : TiffWangMark).IsSet q = false := by
  cases q <;> decide

theorem IsSet_assign (global : Bool) (f : TiffWangMarkProperties → TiffWangMarkProperties)
    (m : TiffWangMark) (q : TiffWangMarkSet) : (m.assign global f).IsSet q = m.IsSet q := by
  cases global <;> rfl

theorem IsSet_Set (m : TiffWangMark) (p q : TiffWangMarkSet) (hp : p ≠ .NoFlagsSet)
    (hq : q ≠ .NoFlagsSet) : (m.Set p).IsSet q = (m.IsSet q || decide (p.bit = q.bit)) := by
  rw [IsSet_eq_testBit _ q hq, IsSet_eq_testBit _ q hq]
  simp [Set, Nat.testBit_lor, val_eq_two_pow p hp, Nat.testBit_two_pow]

theorem IsSet_return_setter_either (g l : TiffWangMarkSet) (glob : Bool) (m : TiffWangMark)
    (q : TiffWangMarkSet) (hg : g ≠ .NoFlagsSet) (hl : l ≠ .NoFlagsSet) (hq : q ≠ .NoFlagsSet) :
    (return_setter_either g l glob m).IsSet q =
      (m.IsSet q || decide ((if glob then g else l).bit = q.bit)) := by
  cases glob
  · simp [return_setter_either, IsSet_Set _ _ _ hl hq]
  · simp [return_setter_either, IsSet_Set _ _ _ hg hq]

theorem IsSet_with_m_Attributes (m : TiffWangMark) (a : OIAN_MARK_ATTRIBUTES)
    (q : TiffWangMarkSet) : ({ m with m_Attributes := a } : TiffWangMark).IsSet q = m.IsSet q :=
  rfl

theorem IsSet_AssignGlobalToLocal_eq (m : TiffWangMark) (q : TiffWangMarkSet) :
    m.AssignGlobalToLocal.IsSet q = m.IsSet q.globalOf := by
  cases q <;>
    first
    | (simp [IsSet, TiffWangMarkSet.val, TiffWangMarkSet.globalOf]; done)
    | simp [AssignGlobalToLocal, IsSet_setlocal_ifset, IsSet_unsetLocals, TiffWangMarkSet.bit,
        locals, TiffWangMarkSet.globalOf]

end TiffWangMark

/-- C5: for every payload made of the 8-byte preamble, one `ATTRIBUTE_DATA` entry header,
one complete attribute record of a visible filled-rectangle mark and then `k` trailing
bytes with `1 ≤ k < 8` (a truncated entry header), `run()` with a registered handler
returns normally and has invoked the handler exactly once, with the filled-rectangle call
of that mark. -/
theorem C5_run_truncated_entry_header (reserved mode hdr attr tail : List Byte)
    (hres : reserved.length = 4) (hmode : mode.length = 4) (hhdr : hdr.length = 8)
    (htype : (decodeEntry hdr).DataType = TiffWangDataType.ATTRIBUTE_DATA)
    (hattr : attr.length = 164)
    (hfill : (decodeAttributes attr).uType = OAIN_MARK_TYPE.FilledRectangle)
    (hvis : (decodeAttributes attr).bVisible ≠ 0)
    (hk1 : 1 ≤ tail.length) (hk8 : tail.length < 8) :
    ∃ s, run (reserved ++ (mode ++ (hdr ++ (attr ++ tail)))) true = .ok s ∧
      s.calls = [Call.RenderRect (decodeAttributes attr).lrBounds (decodeAttributes attr).rgbColor1
        (toBool (decodeAttributes attr).bHighlighting)
        (toBool (decodeAttributes attr).bTransparent)] := by
  obtain ⟨hrun, hrest⟩ := run_preamble reserved mode (hdr ++ (attr ++ tail)) true hres hmode
  obtain ⟨hit, -⟩ := iteration_attribute (decide (u32At mode 0 = 0))
    { reader := (WangAnnotationReader.over (reserved ++ (mode ++ (hdr ++ (attr ++ tail)))) true).advance 8,
      currentMark := default, calls := [], emitted := [] }
    { reader := ((WangAnnotationReader.over
        (reserved ++ (mode ++ (hdr ++ (attr ++ tail)))) true).advance 8).advance 8,
      currentMark := default, calls := [], emitted := [] } hdr attr tail hrest hhdr htype hattr
    (by simp [HasAttributes_default])
  have h20 : ¬ 20 ≤ tail.length := by omega
  rw [hrun, readLoop, hit]
  simp only [h20, decide_False]
  rw [if_pos (HasAttributes_SetAttributes _)]
  have key : ∀ (r : WangAnnotationReader) (mark : TiffWangMark), r.m_Handler = true →
      mark.Attributes = decodeAttributes attr →
      EmitMark r mark = .ok (mark,
        [Call.RenderRect (decodeAttributes attr).lrBounds (decodeAttributes attr).rgbColor1
          (toBool (decodeAttributes attr).bHighlighting)
          (toBool (decodeAttributes attr).bTransparent)]) := by
    intro r mark hh hA
    rw [EmitMark_filled_rectangle r mark hh (hA ▸ hfill) (hA ▸ hvis), hA]
  unfold emit
  rw [key]
  · exact ⟨_, rfl, rfl⟩
  · rfl
  · rfl

set_option maxRecDepth 100000 in
/-- C5, at a 32-bit-mode payload with a filled rectangle and three trailing bytes. -/
theorem C5_run_truncated_entry_header_witness :
    ∃ s, run ([0, 0, 0, 0] ++ ([1, 0, 0, 0] ++ ([5, 0, 0, 0, 164, 0, 0, 0] ++
        (([6, 0, 0, 0] ++ List.replicate 112 7 ++ [1, 0, 0, 0] ++ List.replicate 44 0) ++
          [2, 0, 0])))) true = .ok s ∧
      s.calls = [Call.RenderRect
        (decodeAttributes
          ([6, 0, 0, 0] ++ List.replicate 112 7 ++ [1, 0, 0, 0] ++ List.replicate 44 0)).lrBounds
        (decodeAttributes
          ([6, 0, 0, 0] ++ List.replicate 112 7 ++ [1, 0, 0, 0] ++ List.replicate 44 0)).rgbColor1
        (toBool (decodeAttributes
          ([6, 0, 0, 0] ++ List.replicate 112 7 ++ [1, 0, 0, 0] ++
            List.replicate 44 0)).bHighlighting)
        (toBool (decodeAttributes
          ([6, 0, 0, 0] ++ List.replicate 112 7 ++ [1, 0, 0, 0] ++
            List.replicate 44 0)).bTransparent)] :=
  C5_run_truncated_entry_header [0, 0, 0, 0] [1, 0, 0, 0] [5, 0, 0, 0, 164, 0, 0, 0]
    ([6, 0, 0, 0] ++ List.replicate 112 7 ++ [1, 0, 0, 0] ++ List.replicate 44 0) [2, 0, 0]
    rfl rfl rfl (by decide) (by decide) (by decide) (by decide) (by decide) (by decide)


theorem readLoop_continue (is16BitMode : Bool) (fuel : Nat) (s s1 : ReadState)
    (h : iteration is16BitMode s = .ok (true, s1)) :
    readLoop is16BitMode (fuel + 1) s = readLoop is16BitMode fuel s1 := by
  rw [readLoop, h]

theorem readLoop_stop (is16BitMode : Bool) (fuel : Nat) (s s1 : ReadState)
    (h : iteration is16BitMode s = .ok (false, s1)) :
    readLoop is16BitMode (fuel + 1) s = .ok s1 := by
  rw [readLoop, h]

theorem m_Local_SetAttributes_with (m : TiffWangMark) (a : OIAN_MARK_ATTRIBUTES) :
    ({ m with m_Attributes := a } : TiffWangMark).SetAttributes.m_Local = m.m_Local := rfl

/-- C3: for all byte strings `A` and `B`, in either framing mode: when a payload holds a
Global "OiGroup" block with value `A`, then an `ATTRIBUTE_DATA` record (mark 1), then a
Local "OiGroup" block with value `B`, then a second `ATTRIBUTE_DATA` record (mark 2) with
no Local group block, `run()` returns normally after exactly two calls of `EmitMark`; the
mark state handed to the first resolves `Group()` to `B` and the one handed to the second
resolves `Group()` to `A`. -/
theorem C3_run_group_inheritance (A B reserved mode hdr1 nb1 pad1 hdr2 attr1 hdr3 nb2 pad2 hdr4 attr2 : List Byte)
    (handler : Bool)
    (hres : reserved.length = 4) (hmode : mode.length = 4)
    (hh1 : hdr1.length = 8)
    (ht1 : (decodeEntry hdr1).DataType = TiffWangDataType.GLOBAL_NAMED_BLOCK)
    (hn1 : nb1.length = 12) (hname1 : nb1.take 8 = ascii "OiGroup" ++ [0])
    (hsz1 : u32At nb1 8 = A.length)
    (hp1 : pad1.length = if u32At mode 0 = 0 then 4 else 0)
    (hh2 : hdr2.length = 8)
    (ht2 : (decodeEntry hdr2).DataType = TiffWangDataType.ATTRIBUTE_DATA)
    (ha1 : attr1.length = 164)
    (hh3 : hdr3.length = 8)
    (ht3 : (decodeEntry hdr3).DataType = TiffWangDataType.LOCAL_NAMED_BLOCK)
    (hn2 : nb2.length = 12) (hname2 : nb2.take 8 = ascii "OiGroup" ++ [0])
    (hsz2 : u32At nb2 8 = B.length)
    (hp2 : pad2.length = if u32At mode 0 = 0 then 4 else 0)
    (hh4 : hdr4.length = 8)
    (ht4 : (decodeEntry hdr4).DataType = TiffWangDataType.ATTRIBUTE_DATA)
    (ha2 : attr2.length = 164) :
    ∃ s mark1 mark2,
      run (reserved ++ (mode ++ (hdr1 ++ (nb1 ++ (A ++ (pad1 ++ (hdr2 ++ (attr1 ++
        (hdr3 ++ (nb2 ++ (B ++ (pad2 ++ (hdr4 ++ attr2))))))))))))) handler = .ok s ∧
      s.emitted = [mark1, mark2] ∧ mark1.Group = .ok B ∧ mark2.Group = .ok A := by
  have hnil : hdr4 ++ attr2 = hdr4 ++ (attr2 ++ []) := by simp
  rw [hnil]
  obtain ⟨hrun, hrest0⟩ := run_preamble reserved mode
    (hdr1 ++ (nb1 ++ (A ++ (pad1 ++ (hdr2 ++ (attr1 ++
        (hdr3 ++ (nb2 ++ (B ++ (pad2 ++ (hdr4 ++ (attr2 ++ []))))))))))))
    handler hres hmode
  generalize hP : (reserved ++ (mode ++ (hdr1 ++ (nb1 ++ (A ++ (pad1 ++ (hdr2 ++ (attr1 ++
        (hdr3 ++ (nb2 ++ (B ++ (pad2 ++ (hdr4 ++ (attr2 ++ [])))))))))))))) = P at hrun hrest0 ⊢
  have hpad1 : pad1.length = if decide (u32At mode 0 = 0) = true then 4 else 0 := by
    simpa using hp1
  have hpad2 : pad2.length = if decide (u32At mode 0 = 0) = true then 4 else 0 := by
    simpa using hp2
  have hfuel : ∃ k, P.length + 1 = k + 4 := by
    refine ⟨P.length - 3, ?_⟩
    have : 8 ≤ P.length := by
      rw [← hP]
      simp only [List.length_append, hres, hmode]
      omega
    omega
  obtain ⟨k, hk⟩ := hfuel
  rw [hk] at hrun
  generalize (WangAnnotationReader.over P handler).advance 8 = R0 at hrun hrest0
  -- pass 1: the Global group
  obtain ⟨hi1, hr1⟩ := iteration_group (decide (u32At mode 0 = 0)) true
    { reader := R0, currentMark := default, calls := [], emitted := [] }
    hdr1 nb1 A pad1 _ hrest0 hh1 ht1 hn1 hname1 hsz1 hpad1
    (by intro h; have := congrArg List.length h; simp [hh2] at this)
  have h20a : decide (20 ≤ (hdr2 ++ (attr1 ++ (hdr3 ++ (nb2 ++ (B ++ (pad2 ++
      (hdr4 ++ (attr2 ++ [])))))))).length) = true := by
    simp only [List.length_append, hh2, ha1, decide_eq_true_eq]
    omega
  rw [h20a] at hi1
  simp only at hi1 hr1
  generalize R0.advance (20 + A.length + pad1.length) = R1 at hi1 hr1
  generalize hm1 : ((default : TiffWangMark).GroupSetter true).assign true
    (fun p => { p with Group := A }) = m1 at hi1
  rw [readLoop_continue _ _ _ _ hi1] at hrun
  -- pass 2: the first attribute record
  have hm1a : m1.HasAttributes = false := by
    subst hm1
    simp [TiffWangMark.HasAttributes, TiffWangMark.IsSet_assign, TiffWangMark.GroupSetter,
      TiffWangMark.IsSet_return_setter_either, TiffWangMark.IsSet_default, TiffWangMarkSet.bit]
  obtain ⟨hi2, hr2⟩ := iteration_attribute (decide (u32At mode 0 = 0))
    { reader := R1, currentMark := m1, calls := [], emitted := [] }
    { reader := R1.advance 8, currentMark := m1, calls := [], emitted := [] }
    hdr2 attr1 _ hr1 hh2 ht2 ha1 (by simp only [hm1a]; rfl)
  have h20b : decide (20 ≤ (hdr3 ++ (nb2 ++ (B ++ (pad2 ++
      (hdr4 ++ (attr2 ++ [])))))).length) = true := by
    simp only [List.length_append, hh3, hn2, decide_eq_true_eq]
    omega
  rw [h20b] at hi2
  simp only at hi2 hr2
  generalize R1.advance 172 = R2 at hi2 hr2
  generalize hm2 : ({ m1.AssignGlobalToLocal with
    m_Attributes := decodeAttributes attr1 } : TiffWangMark).SetAttributes = m2 at hi2
  rw [readLoop_continue _ _ _ _ hi2] at hrun
  -- pass 3: the Local group
  obtain ⟨hi3, hr3⟩ := iteration_group (decide (u32At mode 0 = 0)) false
    { reader := R2, currentMark := m2, calls := [], emitted := [] }
    hdr3 nb2 B pad2 _ hr2 hh3 ht3 hn2 hname2 hsz2 hpad2
    (by intro h; have := congrArg List.length h; simp [hh4] at this)
  have h20c : decide (20 ≤ (hdr4 ++ (attr2 ++ [])).length) = true := by
    simp only [List.length_append, hh4, ha2, decide_eq_true_eq]
    omega
  rw [h20c] at hi3
  simp only at hi3 hr3
  generalize R2.advance (20 + B.length + pad2.length) = R3 at hi3 hr3
  generalize hm3 : (m2.GroupSetter false).assign false
    (fun p => { p with Group := B }) = m3 at hi3
  rw [readLoop_continue _ _ _ _ hi3] at hrun
  -- pass 4: the second attribute record, which emits mark 1
  have bits3 : ∀ q : TiffWangMarkSet, q ≠ .NoFlagsSet → m3.IsSet q =
      decide (q = .GlobalGroupSet ∨ q = .LocalGroupSet ∨ q = .AttributesSet) := by
    intro q hq
    subst hm3 hm2 hm1
    cases q <;>
      simp [TiffWangMark.IsSet_assign, TiffWangMark.GroupSetter, TiffWangMark.SetAttributes,
        TiffWangMark.IsSet_return_setter_either, TiffWangMark.IsSet_default,
        TiffWangMark.IsSet_Set, TiffWangMark.IsSet_with_m_Attributes,
        TiffWangMark.IsSet_AssignGlobalToLocal_eq, TiffWangMarkSet.globalOf,
        TiffWangMarkSet.bit] at hq ⊢
  obtain ⟨calls1, he1⟩ := emit_bare
    { reader := R3.advance 8, currentMark := m3, calls := [], emitted := [] }
    (by rw [bits3 _ (by decide)]; decide) (by rw [bits3 _ (by decide)]; decide)
    (by rw [bits3 _ (by decide)]; decide) (by rw [bits3 _ (by decide)]; decide)
    (by rw [bits3 _ (by decide)]; decide) (by rw [bits3 _ (by decide)]; decide)
  have hm3a : m3.HasAttributes = true := by
    rw [TiffWangMark.HasAttributes, bits3 _ (by decide)]; decide
  obtain ⟨hi4, hr4⟩ := iteration_attribute (decide (u32At mode 0 = 0))
    { reader := R3, currentMark := m3, calls := [], emitted := [] }
    { reader := R3.advance 8, currentMark := m3, calls := [] ++ calls1, emitted := [] ++ [m3] }
    hdr4 attr2 [] hr3 hh4 ht4 ha2 (by rw [if_pos hm3a]; exact he1)
  have h20d : decide (20 ≤ ([] : List Byte).length) = false := by decide
  rw [h20d] at hi4
  simp only [List.nil_append] at hi4
  generalize R3.advance 172 = R4 at hi4 hr4
  generalize hm4 : ({ m3.AssignGlobalToLocal with
    m_Attributes := decodeAttributes attr2 } : TiffWangMark).SetAttributes = m4 at hi4
  rw [readLoop_stop _ _ _ _ hi4] at hrun
  -- the flush of mark 2
  have bits4 : ∀ q : TiffWangMarkSet, q ≠ .NoFlagsSet → m4.IsSet q =
      decide (q = .GlobalGroupSet ∨ q = .LocalGroupSet ∨ q = .AttributesSet) := by
    intro q hq
    subst hm4
    rw [TiffWangMark.SetAttributes, TiffWangMark.IsSet_Set _ _ _ (by decide) hq,
      TiffWangMark.IsSet_with_m_Attributes, TiffWangMark.IsSet_AssignGlobalToLocal_eq]
    cases q
    case NoFlagsSet => exact absurd rfl hq
    all_goals (rw [bits3 _ (by decide)]; decide)
  obtain ⟨calls2, he2⟩ := emit_bare
    { reader := R4, currentMark := m4, calls := calls1, emitted := [m3] }
    (by rw [bits4 _ (by decide)]; decide) (by rw [bits4 _ (by decide)]; decide)
    (by rw [bits4 _ (by decide)]; decide) (by rw [bits4 _ (by decide)]; decide)
    (by rw [bits4 _ (by decide)]; decide) (by rw [bits4 _ (by decide)]; decide)
  have hm4a : m4.HasAttributes = true := by
    rw [TiffWangMark.HasAttributes, bits4 _ (by decide)]; decide
  simp only [hm4a, if_true, List.nil_append] at hrun
  rw [he2] at hrun
  refine ⟨_, m3, m4, hrun, rfl, ?_, ?_⟩
  · rw [TiffWangMark.Group, TiffWangMark.return_either_eq, bits3 _ (by decide),
      if_pos (by decide)]
    have hv : m3.m_Local.Group = B := by
      rw [← hm3]
      rfl
    rw [hv]
  · rw [TiffWangMark.Group, TiffWangMark.return_either_eq, bits4 _ (by decide),
      if_pos (by decide)]
    have hg1 : m1.m_Global.Group = A := by
      rw [← hm1]
      rfl
    have hg2 : m2.m_Global.Group = A := by
      rw [← hm2, ← hg1]
      exact congrArg (fun p => p.Group) (TiffWangMark.m_Global_AssignGlobalToLocal m1)
    have hg3 : m3.m_Global.Group = A := by
      rw [← hm3, ← hg2]
      rfl
    have hv : m4.m_Local.Group = A := by
      have hl : m4.m_Local = m3.AssignGlobalToLocal.m_Local := by
        rw [← hm4]
        exact m_Local_SetAttributes_with _ _
      rw [hl, (TiffWangMark.m_Local_AssignGlobalToLocal m3).1, bits3 _ (by decide),
        if_pos (by decide), hg3]
    rw [hv]

set_option maxRecDepth 100000 in
/-- C3, at `A` = "A" and `B` = "BB" in 16-bit mode (four padding bytes after each block),
with two filled rectangles and a registered handler. -/
theorem C3_run_group_inheritance_witness :
    ∃ s mark1 mark2,
      run ([0, 0, 0, 0] ++ ([0, 0, 0, 0] ++ ([2, 0, 0, 0, 0, 0, 0, 0] ++
        ((ascii "OiGroup" ++ [0, 1, 0, 0, 0]) ++ ([65] ++ ([9, 9, 9, 9] ++
        ([5, 0, 0, 0, 164, 0, 0, 0] ++ (([6, 0, 0, 0] ++ List.replicate 160 0) ++
        ([6, 0, 0, 0, 0, 0, 0, 0] ++ ((ascii "OiGroup" ++ [0, 2, 0, 0, 0]) ++ ([66, 66] ++
        ([9, 9, 9, 9] ++ ([5, 0, 0, 0, 164, 0, 0, 0] ++
        ([5, 0, 0, 0] ++ List.replicate 160 0)))))))))))))) true = .ok s ∧
      s.emitted = [mark1, mark2] ∧ mark1.Group = .ok [66, 66] ∧ mark2.Group = .ok [65] :=
  C3_run_group_inheritance [65] [66, 66] [0, 0, 0, 0] [0, 0, 0, 0] [2, 0, 0, 0, 0, 0, 0, 0]
    (ascii "OiGroup" ++ [0, 1, 0, 0, 0]) [9, 9, 9, 9] [5, 0, 0, 0, 164, 0, 0, 0]
    ([6, 0, 0, 0] ++ List.replicate 160 0) [6, 0, 0, 0, 0, 0, 0, 0]
    (ascii "OiGroup" ++ [0, 2, 0, 0, 0]) [9, 9, 9, 9] [5, 0, 0, 0, 164, 0, 0, 0]
    ([5, 0, 0, 0] ++ List.replicate 160 0) true
    rfl rfl rfl (by decide) (by decide) (by decide) (by decide) (by decide)
    rfl (by decide) (by decide)
    rfl (by decide) (by decide) (by decide) (by decide) (by decide)
    rfl (by decide) (by decide)

/-! ## The container: reads on a good stream -/

theorem read_good (file : List Byte) (pos n : Nat) (h : pos + n ≤ file.length) :
    ifstream.read ⟨file, pos, false⟩ n = ((file.drop pos).take n, ⟨file, pos + n, false⟩) := by
  simp [ifstream.read, h]

theorem seekg_good (file : List Byte) (pos off : Nat) :
    ifstream.seekg ⟨file, pos, false⟩ (off : Int) = ⟨file, off, false⟩ := by
  simp [ifstream.seekg]

theorem tellg_good (file : List Byte) (pos : Nat) :
    ifstream.tellg ⟨file, pos, false⟩ = (pos : Int) := by
  simp [ifstream.tellg]

theorem byteAt_take_drop (file : List Byte) (pos n i : Nat) (hi : i < n) :
    byteAt ((file.drop pos).take n) i = byteAt file (pos + i) := by
  simp [byteAt, List.getD, List.getElem?_take, hi, List.getElem?_drop]

namespace TiffFile

theorem ReadScalar_good (uninit file : List Byte) (pos n size : Nat) (rdr : TiffNumericReader)
    (hdr : TiffHeader) (coll : List (List TiffIfdEntry)) (dims : List TiffDimensions)
    (sw dt ar : List (List Byte)) (h : pos + n ≤ file.length) :
    ReadScalar uninit ⟨⟨file, pos, false⟩, size, rdr, hdr, coll, dims, sw, dt, ar⟩ n =
      ((file.drop pos).take n, ⟨⟨file, pos + n, false⟩, size, rdr, hdr, coll, dims, sw, dt, ar⟩) := by
  have hl : ((file.drop pos).take n).length = n := by
    simp [List.length_take, List.length_drop]; omega
  simp only [ReadScalar, read_good file pos n h, hl]
  simp

theorem Uint16_good (uninit file : List Byte) (pos size : Nat)
    (hdr : TiffHeader) (coll : List (List TiffIfdEntry)) (dims : List TiffDimensions)
    (sw dt ar : List (List Byte)) (h : pos + 2 ≤ file.length) :
    Uint16 uninit ⟨⟨file, pos, false⟩, size, .littleEndian, hdr, coll, dims, sw, dt, ar⟩ =
      (.ok (le16 (byteAt file pos) (byteAt file (pos + 1))),
        ⟨⟨file, pos + 2, false⟩, size, .littleEndian, hdr, coll, dims, sw, dt, ar⟩) := by
  simp only [Uint16, ReadScalar_good _ _ _ _ _ _ _ _ _ _ _ _ h, le_to_host_ushort]
  rw [byteAt_take_drop _ _ _ _ (by omega), byteAt_take_drop _ _ _ _ (by omega)]
  rfl

theorem Uint32_good (uninit file : List Byte) (pos size : Nat)
    (hdr : TiffHeader) (coll : List (List TiffIfdEntry)) (dims : List TiffDimensions)
    (sw dt ar : List (List Byte)) (h : pos + 4 ≤ file.length) :
    Uint32 uninit ⟨⟨file, pos, false⟩, size, .littleEndian, hdr, coll, dims, sw, dt, ar⟩ =
      (.ok (u32At file pos),
        ⟨⟨file, pos + 4, false⟩, size, .littleEndian, hdr, coll, dims, sw, dt, ar⟩) := by
  simp only [Uint32, ReadScalar_good _ _ _ _ _ _ _ _ _ _ _ _ h, le_to_host_ulong, u32At]
  rw [byteAt_take_drop _ _ _ _ (by omega), byteAt_take_drop _ _ _ _ (by omega),
    byteAt_take_drop _ _ _ _ (by omega), byteAt_take_drop _ _ _ _ (by omega)]
  rfl

theorem readEntry_good (uninit file : List Byte) (pos size : Nat)
    (hdr : TiffHeader) (coll : List (List TiffIfdEntry)) (dims : List TiffDimensions)
    (sw dt ar : List (List Byte)) (h : pos + 12 ≤ file.length) :
    readEntry uninit ⟨⟨file, pos, false⟩, size, .littleEndian, hdr, coll, dims, sw, dt, ar⟩ =
      ((.ok (), ⟨⟨file, pos + 12, false⟩, size, .littleEndian, hdr, coll, dims, sw, dt, ar⟩),
        decodeIfdEntry file pos) := by
  simp only [readEntry, Uint16_good _ _ _ _ _ _ _ _ _ _ (show pos + 2 ≤ file.length by omega),
    Uint16_good _ _ _ _ _ _ _ _ _ _ (show pos + 2 + 2 ≤ file.length by omega),
    Uint32_good _ _ _ _ _ _ _ _ _ _ (show pos + 2 + 2 + 4 ≤ file.length by omega),
    Uint32_good _ _ _ _ _ _ _ _ _ _ (show pos + 2 + 2 + 4 + 4 ≤ file.length by omega)]
  simp only [decodeIfdEntry, emptyEntry, TiffTagId.TIFF_WANG_TAG, TiffTagType.BYTE,
    show pos + 2 + 1 = pos + 3 by omega, show pos + 2 + 2 = pos + 4 by omega,
    show pos + 4 + 4 = pos + 8 by omega, show pos + 8 + 4 = pos + 12 by omega]

theorem readDirectoryEntries_good (uninit file : List Byte) (size : Nat)
    (hdr : TiffHeader) (coll : List (List TiffIfdEntry)) (dims : List TiffDimensions)
    (sw dt ar : List (List Byte)) (n : Nat) :
    ∀ (pos : Nat) (ifd : List TiffIfdEntry), pos + 12 * n ≤ file.length →
    readDirectoryEntries uninit n
        ⟨⟨file, pos, false⟩, size, .littleEndian, hdr, coll, dims, sw, dt, ar⟩ ifd =
      ((.ok (), ⟨⟨file, pos + 12 * n, false⟩, size, .littleEndian, hdr, coll, dims, sw, dt, ar⟩),
        ifd ++ (List.range n).map (fun i => decodeIfdEntry file (pos + 12 * i))) := by
  induction n with
  | zero => intro pos ifd _; simp [readDirectoryEntries]
  | succ n ih =>
    intro pos ifd h
    rw [readDirectoryEntries, readEntry_good _ _ _ _ _ _ _ _ _ _ (by omega)]
    simp only
    rw [ih (pos + 12) (ifd ++ [decodeIfdEntry file pos]) (by omega)]
    have e1 : pos + 12 + 12 * n = pos + 12 * (n + 1) := by omega
    rw [e1, List.range_succ_eq_map, List.map_cons, List.map_map]
    simp only [List.append_assoc, List.singleton_append, Nat.mul_zero, Nat.add_zero]
    congr 3
    apply List.map_congr_left
    intro i _
    simp only [Function.comp]
    congr 1
    omega

end TiffFile

namespace TiffFile

theorem readDirectories_chain (uninit file : List Byte) (size : Nat)
    (hdr : TiffHeader) (dims : List TiffDimensions) (sw dt ar : List (List Byte)) (k : Nat) :
    ∀ (fuel off : Nat) (coll : List (List TiffIfdEntry)),
    wellFormedChain file k off = true → k ≤ fuel →
    ∃ pos, readDirectories uninit fuel
        ⟨⟨file, off, false⟩, size, .littleEndian, hdr, coll, dims, sw, dt, ar⟩ =
      (.ok (), ⟨⟨file, pos, false⟩, size, .littleEndian, hdr,
        coll ++ (chainOffsets file k off).map (directoryEntries file), dims, sw, dt, ar⟩) := by
  induction k with
  | zero => intro fuel off coll h _; simp [wellFormedChain] at h
  | succ k ih =>
    intro fuel off coll h hfuel
    obtain ⟨fuel, rfl⟩ : ∃ m, fuel = m + 1 := ⟨fuel - 1, by omega⟩
    rw [wellFormedChain.eq_def] at h
    simp only [Bool.and_eq_true, decide_eq_true_eq] at h
    obtain ⟨hin, hrest⟩ := h
    have hin2 : off + 2 + 12 * directoryCount file off + 4 ≤ file.length := hin
    rw [readDirectories, Uint16_good _ _ _ _ _ _ _ _ _ _ (by omega)]
    simp only
    rw [readDirectoryEntries_good _ _ _ _ _ _ _ _ _ _ _ _ (by
      show off + 2 + 12 * le16 (byteAt file off) (byteAt file (off + 1)) ≤ file.length
      have : le16 (byteAt file off) (byteAt file (off + 1)) = directoryCount file off := rfl
      omega)]
    simp only [List.nil_append]
    rw [Uint32_good _ _ _ _ _ _ _ _ _ _ (by
      show off + 2 + 12 * le16 (byteAt file off) (byteAt file (off + 1)) + 4 ≤ file.length
      exact hin2)]
    simp only
    have hnext : u32At file (off + 2 + 12 * le16 (byteAt file off) (byteAt file (off + 1))) =
        directoryNext file off := rfl
    have hdir : List.map (fun i => decodeIfdEntry file (off + 2 + 12 * i))
        (List.range (le16 (byteAt file off) (byteAt file (off + 1)))) =
        directoryEntries file off := rfl
    rw [hnext, hdir]
    cases k with
    | zero =>
      simp only [decide_eq_true_eq] at hrest
      rw [if_pos hrest]
      exact ⟨off + 2 + 12 * le16 (byteAt file off) (byteAt file (off + 1)) + 4, by
        simp [chainOffsets]⟩
    | succ k =>
      simp only [Bool.and_eq_true, decide_eq_true_eq] at hrest
      rw [if_neg hrest.1, seekg_good]
      obtain ⟨pos, hpos⟩ := ih fuel (directoryNext file off) (coll ++ [directoryEntries file off])
        hrest.2 (by omega)
      refine ⟨pos, ?_⟩
      rw [hpos]
      simp [chainOffsets]

end TiffFile

namespace TiffFile

theorem sameButStream_refl (f : TiffFile) : f.sameButStream f :=
  ⟨rfl, rfl, rfl, rfl, rfl, rfl, rfl, rfl⟩

theorem sameButStream_trans {f g h : TiffFile} (a : f.sameButStream g) (b : g.sameButStream h) :
    f.sameButStream h :=
  ⟨b.1.trans a.1, b.2.1.trans a.2.1, b.2.2.1.trans a.2.2.1, b.2.2.2.1.trans a.2.2.2.1,
    b.2.2.2.2.1.trans a.2.2.2.2.1, b.2.2.2.2.2.1.trans a.2.2.2.2.2.1,
    b.2.2.2.2.2.2.1.trans a.2.2.2.2.2.2.1, b.2.2.2.2.2.2.2.trans a.2.2.2.2.2.2.2⟩

theorem sameButStream_stream (f : TiffFile) (s : ifstream) :
    f.sameButStream { f with m_Stream := s } :=
  ⟨rfl, rfl, rfl, rfl, rfl, rfl, rfl, rfl⟩

theorem ReadScalar_frame (u : List Byte) (f : TiffFile) (n : Nat) :
    f.sameButStream (ReadScalar u f n).2 :=
  ⟨rfl, rfl, rfl, rfl, rfl, rfl, rfl, rfl⟩

theorem Uint16_frame (u : List Byte) (f : TiffFile) : f.sameButStream (Uint16 u f).2 := by
  unfold Uint16
  cases f.m_IntegerReader <;> exact ⟨rfl, rfl, rfl, rfl, rfl, rfl, rfl, rfl⟩

theorem Uint32_frame (u : List Byte) (f : TiffFile) : f.sameButStream (Uint32 u f).2 := by
  unfold Uint32
  cases f.m_IntegerReader <;> exact ⟨rfl, rfl, rfl, rfl, rfl, rfl, rfl, rfl⟩

theorem Uint16_ok (u : List Byte) (f : TiffFile) (h : f.m_IntegerReader ≠ .empty) :
    ∃ v, (Uint16 u f).1 = .ok v := by
  unfold Uint16
  cases hr : f.m_IntegerReader
  · exact absurd hr h
  · exact ⟨_, rfl⟩
  · exact ⟨_, rfl⟩

theorem Uint32_ok (u : List Byte) (f : TiffFile) (h : f.m_IntegerReader ≠ .empty) :
    ∃ v, (Uint32 u f).1 = .ok v := by
  unfold Uint32
  cases hr : f.m_IntegerReader
  · exact absurd hr h
  · exact ⟨_, rfl⟩
  · exact ⟨_, rfl⟩

theorem Uint16_error (u : List Byte) (f : TiffFile) (e : TiffError)
    (h : (Uint16 u f).1 = .error e) : e = .badFunctionCall := by
  unfold Uint16 at h
  cases hr : f.m_IntegerReader <;> rw [hr] at h <;> simp at h
  exact h.symm

theorem Uint32_error (u : List Byte) (f : TiffFile) (e : TiffError)
    (h : (Uint32 u f).1 = .error e) : e = .badFunctionCall := by
  unfold Uint32 at h
  cases hr : f.m_IntegerReader <;> rw [hr] at h <;> simp at h
  exact h.symm

theorem readShorts_frame (u : List Byte) (n : Nat) :
    ∀ f : TiffFile, f.sameButStream (readShorts u n f).2 := by
  induction n with
  | zero => intro f; exact sameButStream_refl f
  | succ n ih =>
    intro f
    rw [readShorts]
    have h1 := Uint16_frame u f
    rcases hU : Uint16 u f with ⟨_ | v, g⟩
    · rw [hU] at h1; exact h1
    · rw [hU] at h1
      dsimp only
      have h2 := ih g
      rcases hS : readShorts u n g with ⟨_ | vs, g2⟩
      · rw [hS] at h2; exact sameButStream_trans h1 h2
      · rw [hS] at h2; exact sameButStream_trans h1 h2

theorem ReadUnsignedShortArray_frame (u : List Byte) (f : TiffFile) (entry : TiffIfdEntry) :
    f.sameButStream (ReadUnsignedShortArray u f entry).2 := by
  unfold ReadUnsignedShortArray
  split
  · exact sameButStream_refl f
  · have h1 := readShorts_frame u entry.ValueCount
      { f with m_Stream := f.m_Stream.seekg entry.ValueOffset }
    rcases hS : readShorts u entry.ValueCount
      { f with m_Stream := f.m_Stream.seekg entry.ValueOffset } with ⟨_ | vs, g⟩
    · rw [hS] at h1; exact sameButStream_trans (sameButStream_stream f _) h1
    · rw [hS] at h1
      exact sameButStream_trans (sameButStream_trans (sameButStream_stream f _) h1)
        (sameButStream_stream g _)

theorem ReadRational_frame (u : List Byte) (f : TiffFile) (entry : TiffIfdEntry) :
    f.sameButStream (ReadRational u f entry).2 := by
  unfold ReadRational
  split
  · exact sameButStream_refl f
  · have h0 := sameButStream_stream f (f.m_Stream.seekg entry.ValueOffset)
    have h1 := Uint32_frame u { f with m_Stream := f.m_Stream.seekg entry.ValueOffset }
    rcases hU : Uint32 u { f with m_Stream := f.m_Stream.seekg entry.ValueOffset }
      with ⟨_ | v, g⟩
    · rw [hU] at h1; exact sameButStream_trans h0 h1
    · rw [hU] at h1
      dsimp only
      have h2 := Uint32_frame u g
      rcases hV : Uint32 u g with ⟨_ | w, g2⟩
      · rw [hV] at h2; exact sameButStream_trans (sameButStream_trans h0 h1) h2
      · rw [hV] at h2
        have h3 := sameButStream_trans (sameButStream_trans (sameButStream_trans h0 h1) h2)
          (sameButStream_stream g2 (g2.m_Stream.seekg f.m_Stream.tellg))
        dsimp only
        split
        · exact h3
        · exact h3

theorem ReadAsciiString_frame (f : TiffFile) (entry : TiffIfdEntry) :
    f.sameButStream (ReadAsciiString f entry).2 := by
  unfold ReadAsciiString
  split
  · exact sameButStream_refl f
  · split
    · exact sameButStream_refl f
    · exact sameButStream_stream f _

theorem findPageNumber_frame (u : List Byte) (dir : List TiffIfdEntry) :
    ∀ f : TiffFile, f.sameButStream (findPageNumber u f dir).2 := by
  induction dir with
  | nil => intro f; exact sameButStream_refl f
  | cons entry rest ih =>
    intro f
    rw [findPageNumber]
    split
    · have h1 := ReadUnsignedShortArray_frame u f entry
      rcases hR : ReadUnsignedShortArray u f entry with ⟨_ | pageInfo, g⟩
      · rw [hR] at h1; exact h1
      · rw [hR] at h1
        cases pageInfo with
        | nil => exact h1
        | cons x xs =>
          dsimp only
          split
          · exact h1
          · exact h1
    · exact ih f

theorem placeDirectories_frame (u : List Byte) (unordered : List (List TiffIfdEntry)) :
    ∀ (orderedList : List (List TiffIfdEntry)) (f : TiffFile),
      f.sameButStream (placeDirectories u unordered orderedList f).2 := by
  induction unordered with
  | nil => intro o f; exact sameButStream_refl f
  | cons collection rest ih =>
    intro o f
    rw [placeDirectories]
    have h1 := findPageNumber_frame u collection f
    rcases hF : findPageNumber u f collection with ⟨_ | r, g⟩
    · rw [hF] at h1; exact h1
    · rw [hF] at h1
      cases r with
      | returned => exact h1
      | notFound => exact h1
      | found idx => exact sameButStream_trans h1 (ih _ g)

end TiffFile

namespace TiffFile

theorem sameDirectories_refl (f : TiffFile) : f.sameDirectories f :=
  ⟨rfl, rfl, rfl, rfl, rfl, rfl⟩

theorem sameDirectories_trans {f g h : TiffFile} (a : f.sameDirectories g)
    (b : g.sameDirectories h) : f.sameDirectories h :=
  ⟨b.1.trans a.1, b.2.1.trans a.2.1, b.2.2.1.trans a.2.2.1, b.2.2.2.1.trans a.2.2.2.1,
    b.2.2.2.2.1.trans a.2.2.2.2.1, b.2.2.2.2.2.trans a.2.2.2.2.2⟩

theorem sameDirectories_of_sameButStream {f g : TiffFile} (a : f.sameButStream g) :
    f.sameDirectories g :=
  ⟨a.2.1, a.2.2.2.1, by rw [a.2.2.2.2.1], by rw [a.2.2.2.2.2.1], by rw [a.2.2.2.2.2.2.1],
    by rw [a.2.2.2.2.2.2.2]⟩

theorem sameDirectories_dims (f : TiffFile) (upd : TiffDimensions → TiffDimensions) (p : Nat) :
    f.sameDirectories { f with m_Dimensions := f.m_Dimensions.modify upd p } :=
  ⟨rfl, rfl, by simp, rfl, rfl, rfl⟩

theorem sameDirectories_software (f : TiffFile) (v : List Byte) (p : Nat) :
    f.sameDirectories { f with m_Software := f.m_Software.set p v } :=
  ⟨rfl, rfl, rfl, by simp, rfl, rfl⟩

theorem sameDirectories_dateTime (f : TiffFile) (v : List Byte) (p : Nat) :
    f.sameDirectories { f with m_DateTime := f.m_DateTime.set p v } :=
  ⟨rfl, rfl, rfl, rfl, by simp, rfl⟩

theorem sameDirectories_artist (f : TiffFile) (v : List Byte) (p : Nat) :
    f.sameDirectories { f with m_Artist := f.m_Artist.set p v } :=
  ⟨rfl, rfl, rfl, rfl, rfl, by simp⟩

theorem scanEntry_frame (u : List Byte) (p : Nat) (f : TiffFile) (entry : TiffIfdEntry) :
    f.sameDirectories (scanEntry u p f entry).2 := by
  have hR := ReadRational_frame u f entry
  have hA := ReadAsciiString_frame f entry
  unfold scanEntry
  split
  · rcases hX : ReadRational u f entry with ⟨_ | v, g⟩
    · rw [hX] at hR; exact sameDirectories_of_sameButStream hR
    · rw [hX] at hR
      exact sameDirectories_trans (sameDirectories_of_sameButStream hR) (sameDirectories_dims g _ p)
  split
  · rcases hX : ReadRational u f entry with ⟨_ | v, g⟩
    · rw [hX] at hR; exact sameDirectories_of_sameButStream hR
    · rw [hX] at hR
      exact sameDirectories_trans (sameDirectories_of_sameButStream hR) (sameDirectories_dims g _ p)
  split
  · exact sameDirectories_dims f _ p
  split
  · exact sameDirectories_dims f _ p
  split
  · exact sameDirectories_dims f _ p
  split
  · rcases hX : ReadAsciiString f entry with ⟨_ | v, g⟩
    · rw [hX] at hA; exact sameDirectories_of_sameButStream hA
    · rw [hX] at hA
      exact sameDirectories_trans (sameDirectories_of_sameButStream hA)
        (sameDirectories_software g _ p)
  split
  · rcases hX : ReadAsciiString f entry with ⟨_ | v, g⟩
    · rw [hX] at hA; exact sameDirectories_of_sameButStream hA
    · rw [hX] at hA
      exact sameDirectories_trans (sameDirectories_of_sameButStream hA)
        (sameDirectories_dateTime g _ p)
  split
  · rcases hX : ReadAsciiString f entry with ⟨_ | v, g⟩
    · rw [hX] at hA; exact sameDirectories_of_sameButStream hA
    · rw [hX] at hA
      exact sameDirectories_trans (sameDirectories_of_sameButStream hA)
        (sameDirectories_artist g _ p)
  · exact sameDirectories_refl f

theorem scanPage_frame (u : List Byte) (p : Nat) (dir : List TiffIfdEntry) :
    ∀ f : TiffFile, f.sameDirectories (scanPage u p f dir).2 := by
  induction dir with
  | nil => intro f; exact sameDirectories_refl f
  | cons entry rest ih =>
    intro f
    rw [scanPage]
    have h1 := scanEntry_frame u p f entry
    rcases hS : scanEntry u p f entry with ⟨_ | v, g⟩
    · rw [hS] at h1; exact h1
    · rw [hS] at h1; exact sameDirectories_trans h1 (ih g)

theorem scanPages_frame (u : List Byte) (n : Nat) :
    ∀ (p : Nat) (f : TiffFile), f.sameDirectories (scanPages u n p f).2 := by
  induction n with
  | zero => intro p f; exact sameDirectories_refl f
  | succ n ih =>
    intro p f
    rw [scanPages]
    have h1 := scanPage_frame u p (f.m_PageIfdCollection.getD p []) f
    rcases hS : scanPage u p f (f.m_PageIfdCollection.getD p []) with ⟨_ | v, g⟩
    · rw [hS] at h1; exact h1
    · rw [hS] at h1; exact sameDirectories_trans h1 (ih (p + 1) g)

theorem ReadRational_ok (u : List Byte) (f : TiffFile) (entry : TiffIfdEntry)
    (hr : f.m_IntegerReader ≠ .empty) (ht : entry.TagType = TiffTagType.RATIONAL) :
    ∃ v, (ReadRational u f entry).1 = .ok v := by
  unfold ReadRational
  rw [if_neg (by simpa using ht)]
  have hr1 : ({ f with m_Stream := f.m_Stream.seekg entry.ValueOffset } : TiffFile).m_IntegerReader
      ≠ .empty := hr
  obtain ⟨v, hv⟩ := Uint32_ok u _ hr1
  have h1 := Uint32_frame u { f with m_Stream := f.m_Stream.seekg entry.ValueOffset }
  rcases hU : Uint32 u { f with m_Stream := f.m_Stream.seekg entry.ValueOffset } with ⟨_ | v, g⟩
  · rw [hU] at hv; simp at hv
  · rw [hU] at h1
    dsimp only
    have hr2 : g.m_IntegerReader ≠ .empty := by rw [h1.2.1]; exact hr
    obtain ⟨w, hw⟩ := Uint32_ok u g hr2
    rcases hV : Uint32 u g with ⟨_ | w, g2⟩
    · rw [hV] at hw; simp at hw
    · dsimp only
      split
      · exact ⟨_, rfl⟩
      · exact ⟨_, rfl⟩

theorem ReadAsciiString_ok (f : TiffFile) (entry : TiffIfdEntry)
    (ht : entry.TagType = TiffTagType.ASCII) : ∃ v, (ReadAsciiString f entry).1 = .ok v := by
  unfold ReadAsciiString
  rw [if_neg (by simpa using ht)]
  split
  · exact ⟨_, rfl⟩
  · exact ⟨_, rfl⟩

theorem scanEntry_ok (u : List Byte) (p : Nat) (f : TiffFile) (entry : TiffIfdEntry)
    (hr : f.m_IntegerReader ≠ .empty) (ht : wellTyped entry = true) :
    (scanEntry u p f entry).1 = .ok () := by
  simp only [wellTyped, Bool.and_eq_true] at ht
  obtain ⟨ht1, ht2⟩ := ht
  unfold scanEntry
  split
  · rename_i hid
    rw [if_pos (Or.inr hid)] at ht1
    obtain ⟨v, hv⟩ := ReadRational_ok u f entry hr (by simpa using ht1)
    rcases hX : ReadRational u f entry with ⟨_ | v, g⟩
    · rw [hX] at hv; simp at hv
    · rfl
  split
  · rename_i hid
    rw [if_pos (Or.inl hid)] at ht1
    obtain ⟨v, hv⟩ := ReadRational_ok u f entry hr (by simpa using ht1)
    rcases hX : ReadRational u f entry with ⟨_ | v, g⟩
    · rw [hX] at hv; simp at hv
    · rfl
  split
  · rfl
  split
  · rfl
  split
  · rfl
  split
  · rename_i hid
    rw [if_pos (Or.inl hid)] at ht2
    obtain ⟨v, hv⟩ := ReadAsciiString_ok f entry (by simpa using ht2)
    rcases hX : ReadAsciiString f entry with ⟨_ | v, g⟩
    · rw [hX] at hv; simp at hv
    · rfl
  split
  · rename_i hid
    rw [if_pos (Or.inr (Or.inl hid))] at ht2
    obtain ⟨v, hv⟩ := ReadAsciiString_ok f entry (by simpa using ht2)
    rcases hX : ReadAsciiString f entry with ⟨_ | v, g⟩
    · rw [hX] at hv; simp at hv
    · rfl
  split
  · rename_i hid
    rw [if_pos (Or.inr (Or.inr hid))] at ht2
    obtain ⟨v, hv⟩ := ReadAsciiString_ok f entry (by simpa using ht2)
    rcases hX : ReadAsciiString f entry with ⟨_ | v, g⟩
    · rw [hX] at hv; simp at hv
    · rfl
  · rfl

theorem scanPage_ok (u : List Byte) (p : Nat) (dir : List TiffIfdEntry) :
    ∀ f : TiffFile, f.m_IntegerReader ≠ .empty → (∀ e ∈ dir, wellTyped e = true) →
      (scanPage u p f dir).1 = .ok () := by
  induction dir with
  | nil => intro f _ _; rfl
  | cons entry rest ih =>
    intro f hr ht
    rw [scanPage]
    have h1 := scanEntry_frame u p f entry
    have h2 := scanEntry_ok u p f entry hr (ht entry (List.mem_cons_self _ _))
    rcases hS : scanEntry u p f entry with ⟨_ | v, g⟩
    · rw [hS] at h2; simp at h2
    · rw [hS] at h1
      exact ih g (by rw [h1.1]; exact hr) (fun e he => ht e (List.mem_cons_of_mem _ he))

theorem scanPages_ok (u : List Byte) (n : Nat) :
    ∀ (p : Nat) (f : TiffFile), f.m_IntegerReader ≠ .empty →
      (∀ d ∈ f.m_PageIfdCollection, ∀ e ∈ d, wellTyped e = true) →
      (scanPages u n p f).1 = .ok () := by
  induction n with
  | zero => intro p f _ _; rfl
  | succ n ih =>
    intro p f hr ht
    rw [scanPages]
    have h1 := scanPage_frame u p (f.m_PageIfdCollection.getD p []) f
    have h2 : (scanPage u p f (f.m_PageIfdCollection.getD p [])).1 = .ok () := by
      apply scanPage_ok u p _ f hr
      intro e he
      by_cases hp : p < f.m_PageIfdCollection.length
      · have : f.m_PageIfdCollection.getD p [] = f.m_PageIfdCollection[p] := by
          simp [List.getD, List.getElem?_eq_getElem hp]
        rw [this] at he
        exact ht _ (List.getElem_mem _) e he
      · have : f.m_PageIfdCollection.getD p [] = [] := by
          simp [List.getD, List.getElem?_eq_none (by omega : f.m_PageIfdCollection.length ≤ p)]
        rw [this] at he
        simp at he
    rcases hS : scanPage u p f (f.m_PageIfdCollection.getD p []) with ⟨_ | v, g⟩
    · rw [hS] at h2; simp at h2
    · rw [hS] at h1
      exact ih (p + 1) g (by rw [h1.1]; exact hr) (by rw [h1.2.1]; exact ht)

end TiffFile

namespace TiffFile

theorem openFile_form (file : List Byte) (f : TiffFile) (h : openFile file = .ok f) :
    ∃ rdr hdr, rdr ≠ TiffNumericReader.empty ∧
      f = ⟨⟨file, 8, false⟩, file.length, rdr, hdr, [], [], [], [], []⟩ := by
  by_cases h8 : file.length < 8
  · rw [openFile, Init, ReadHeader_short file h8] at h
    simp at h
  · have h8 : 8 ≤ file.length := by omega
    rw [openFile, Init, ReadHeader_fresh file h8] at h
    dsimp only at h
    split at h
    · simp at h
    · rename_i g hg
      split at hg
      · simp only [Except.ok.injEq] at hg
        split at h
        · simp at h
        · simp only [Except.ok.injEq] at h
          subst h
          subst hg
          exact ⟨.littleEndian, _, by decide, rfl⟩
      · split at hg
        · simp only [Except.ok.injEq] at hg
          split at h
          · simp at h
          · simp only [Except.ok.injEq] at h
            subst h
            subst hg
            exact ⟨.bigEndian, _, by decide, rfl⟩
        · simp at hg

theorem findPageNumber_none (u : List Byte) (f : TiffFile) (dir : List TiffIfdEntry)
    (h : ∀ e ∈ dir, e.TagId ≠ TiffTagId.TIFF_PAGE_NUMBER) :
    findPageNumber u f dir = (.ok .notFound, f) := by
  induction dir with
  | nil => rfl
  | cons entry rest ih =>
    rw [findPageNumber, if_neg (h entry (List.mem_cons_self _ _))]
    exact ih (fun e he => h e (List.mem_cons_of_mem _ he))

theorem CorrectIfdOrder_none (u : List Byte) (f : TiffFile) (dir : List TiffIfdEntry)
    (rest : List (List TiffIfdEntry)) (hc : f.m_PageIfdCollection = dir :: rest)
    (h : ∀ e ∈ dir, e.TagId ≠ TiffTagId.TIFF_PAGE_NUMBER) :
    CorrectIfdOrder u f = (.ok (), f) := by
  rw [CorrectIfdOrder, hc, placeDirectories, findPageNumber_none u f dir h]

theorem vector_resize_length {α : Type} (l : List α) (n : Nat) (d : α) :
    (vector_resize l n d).length = n := by
  simp [vector_resize, List.length_take]
  omega

end TiffFile

namespace TiffFile

/-! ## Which exceptions leave the directory reader -/

theorem readShorts_error (u : List Byte) (n : Nat) :
    ∀ (f : TiffFile) (e : TiffError), (readShorts u n f).1 = .error e → e = .badFunctionCall := by
  induction n with
  | zero => intro f e h; simp [readShorts] at h
  | succ n ih =>
    intro f e h
    rw [readShorts] at h
    have h1 := Uint16_error u f
    rcases hU : Uint16 u f with ⟨x | v, g⟩
    · rw [hU] at h h1
      simp only [Except.error.injEq] at h
      exact h ▸ h1 x rfl
    · rw [hU] at h
      dsimp only at h
      have h2 := ih g
      rcases hS : readShorts u n g with ⟨y | vs, g2⟩
      · rw [hS] at h h2
        simp only [Except.error.injEq] at h
        exact h ▸ h2 y rfl
      · rw [hS] at h; simp at h

theorem ReadUnsignedShortArray_error (u : List Byte) (f : TiffFile) (entry : TiffIfdEntry)
    (e : TiffError) (h : (ReadUnsignedShortArray u f entry).1 = .error e) :
    e = .unexpectedType ∨ e = .badFunctionCall := by
  unfold ReadUnsignedShortArray at h
  split at h
  · simp only [Except.error.injEq] at h; exact Or.inl h.symm
  · have h1 := readShorts_error u entry.ValueCount
      { f with m_Stream := f.m_Stream.seekg entry.ValueOffset }
    rcases hS : readShorts u entry.ValueCount
      { f with m_Stream := f.m_Stream.seekg entry.ValueOffset } with ⟨x | vs, g⟩
    · rw [hS] at h h1
      simp only [Except.error.injEq] at h
      exact Or.inr (h ▸ h1 x rfl)
    · rw [hS] at h; simp at h

theorem ReadRational_error (u : List Byte) (f : TiffFile) (entry : TiffIfdEntry)
    (e : TiffError) (h : (ReadRational u f entry).1 = .error e) :
    e = .unexpectedType ∨ e = .badFunctionCall := by
  unfold ReadRational at h
  split at h
  · simp only [Except.error.injEq] at h; exact Or.inl h.symm
  · have h1 := Uint32_error u { f with m_Stream := f.m_Stream.seekg entry.ValueOffset }
    rcases hU : Uint32 u { f with m_Stream := f.m_Stream.seekg entry.ValueOffset }
      with ⟨x | v, g⟩
    · rw [hU] at h h1
      simp only [Except.error.injEq] at h
      exact Or.inr (h ▸ h1 x rfl)
    · rw [hU] at h
      dsimp only at h
      have h2 := Uint32_error u g
      rcases hV : Uint32 u g with ⟨y | w, g2⟩
      · rw [hV] at h h2
        simp only [Except.error.injEq] at h
        exact Or.inr (h ▸ h2 y rfl)
      · rw [hV] at h
        dsimp only at h
        split at h <;> simp at h

theorem ReadAsciiString_error (f : TiffFile) (entry : TiffIfdEntry)
    (e : TiffError) (h : (ReadAsciiString f entry).1 = .error e) : e = .unexpectedType := by
  unfold ReadAsciiString at h
  split at h
  · simp only [Except.error.injEq] at h; exact h.symm
  · split at h <;> simp at h

theorem scanEntry_error (u : List Byte) (p : Nat) (f : TiffFile) (entry : TiffIfdEntry)
    (e : TiffError) (h : (scanEntry u p f entry).1 = .error e) :
    e = .unexpectedType ∨ e = .badFunctionCall := by
  have hR := ReadRational_error u f entry
  have hA := ReadAsciiString_error f entry
  unfold scanEntry at h
  split at h
  · rcases hX : ReadRational u f entry with ⟨x | v, g⟩
    · rw [hX] at h hR; simp only [Except.error.injEq] at h; exact h ▸ hR x rfl
    · rw [hX] at h; simp at h
  split at h
  · rcases hX : ReadRational u f entry with ⟨x | v, g⟩
    · rw [hX] at h hR; simp only [Except.error.injEq] at h; exact h ▸ hR x rfl
    · rw [hX] at h; simp at h
  split at h
  · simp at h
  split at h
  · simp at h
  split at h
  · simp at h
  split at h
  · rcases hX : ReadAsciiString f entry with ⟨x | v, g⟩
    · rw [hX] at h hA; simp only [Except.error.injEq] at h; exact Or.inl (h ▸ hA x rfl)
    · rw [hX] at h; simp at h
  split at h
  · rcases hX : ReadAsciiString f entry with ⟨x | v, g⟩
    · rw [hX] at h hA; simp only [Except.error.injEq] at h; exact Or.inl (h ▸ hA x rfl)
    · rw [hX] at h; simp at h
  split at h
  · rcases hX : ReadAsciiString f entry with ⟨x | v, g⟩
    · rw [hX] at h hA; simp only [Except.error.injEq] at h; exact Or.inl (h ▸ hA x rfl)
    · rw [hX] at h; simp at h
  · simp at h

theorem scanPage_error (u : List Byte) (p : Nat) (dir : List TiffIfdEntry) :
    ∀ (f : TiffFile) (e : TiffError), (scanPage u p f dir).1 = .error e →
      e = .unexpectedType ∨ e = .badFunctionCall := by
  induction dir with
  | nil => intro f e h; simp [scanPage] at h
  | cons entry rest ih =>
    intro f e h
    rw [scanPage] at h
    have h1 := scanEntry_error u p f entry
    rcases hS : scanEntry u p f entry with ⟨x | v, g⟩
    · rw [hS] at h h1; simp only [Except.error.injEq] at h; exact h ▸ h1 x rfl
    · rw [hS] at h; exact ih g e h

theorem scanPages_error (u : List Byte) (n : Nat) :
    ∀ (p : Nat) (f : TiffFile) (e : TiffError), (scanPages u n p f).1 = .error e →
      e = .unexpectedType ∨ e = .badFunctionCall := by
  induction n with
  | zero => intro p f e h; simp [scanPages] at h
  | succ n ih =>
    intro p f e h
    rw [scanPages] at h
    have h1 := scanPage_error u p (f.m_PageIfdCollection.getD p []) f
    rcases hS : scanPage u p f (f.m_PageIfdCollection.getD p []) with ⟨x | v, g⟩
    · rw [hS] at h h1; simp only [Except.error.injEq] at h; exact h ▸ h1 x rfl
    · rw [hS] at h; exact ih (p + 1) g e h

theorem findPageNumber_error (u : List Byte) (dir : List TiffIfdEntry) :
    ∀ (f : TiffFile) (e : TiffError), (findPageNumber u f dir).1 = .error e →
      e = .unexpectedType ∨ e = .badFunctionCall ∨ e = .subscriptPastEnd := by
  induction dir with
  | nil => intro f e h; simp [findPageNumber] at h
  | cons entry rest ih =>
    intro f e h
    rw [findPageNumber] at h
    split at h
    · have h1 := ReadUnsignedShortArray_error u f entry
      rcases hR : ReadUnsignedShortArray u f entry with ⟨x | pageInfo, g⟩
      · rw [hR] at h h1
        simp only [Except.error.injEq] at h
        rcases h1 x rfl with h2 | h2
        · exact Or.inl (h ▸ h2)
        · exact Or.inr (Or.inl (h ▸ h2))
      · rw [hR] at h
        cases pageInfo with
        | nil => simp only [Except.error.injEq] at h; exact Or.inr (Or.inr h.symm)
        | cons x xs =>
          dsimp only at h
          split at h <;> simp at h
    · exact ih f e h

theorem placeDirectories_error (u : List Byte) (unordered : List (List TiffIfdEntry)) :
    ∀ (orderedList : List (List TiffIfdEntry)) (f : TiffFile) (e : TiffError),
      (placeDirectories u unordered orderedList f).1 = .error e →
      e = .unexpectedType ∨ e = .badFunctionCall ∨ e = .subscriptPastEnd := by
  induction unordered with
  | nil => intro o f e h; simp [placeDirectories] at h
  | cons collection rest ih =>
    intro o f e h
    rw [placeDirectories] at h
    have h1 := findPageNumber_error u collection f
    rcases hF : findPageNumber u f collection with ⟨x | r, g⟩
    · rw [hF] at h h1; simp only [Except.error.injEq] at h; exact h ▸ h1 x rfl
    · rw [hF] at h
      cases r with
      | returned => simp at h
      | notFound => simp at h
      | found idx => exact ih _ g e h

theorem CorrectIfdOrder_error (u : List Byte) (f : TiffFile) (e : TiffError)
    (h : (CorrectIfdOrder u f).1 = .error e) :
    e = .unexpectedType ∨ e = .badFunctionCall ∨ e = .subscriptPastEnd := by
  unfold CorrectIfdOrder at h
  have h1 := placeDirectories_error u f.m_PageIfdCollection
    (List.replicate f.m_PageIfdCollection.length []) f
  rcases hP : placeDirectories u f.m_PageIfdCollection
    (List.replicate f.m_PageIfdCollection.length []) f with ⟨x | r, g⟩
  · rw [hP] at h h1; simp only [Except.error.injEq] at h; exact h ▸ h1 x rfl
  · rw [hP] at h
    cases r <;> simp at h

end TiffFile

theorem length_chainOffsets (file : List Byte) (k : Nat) :
    ∀ off, (chainOffsets file k off).length = k := by
  induction k with
  | zero => intro off; rfl
  | succ k ih => intro off; simp [chainOffsets, ih]

/-- C11: for a little-endian file that opens, whose chain of directories from the header's
first-directory offset has exactly `K` directories inside the file ending with a zero
next-offset (`wellFormedChain`, so `K ≥ 1`) and in which no directory carries a page-number
tag, `ReadIfdCollection` with fuel for `K` directories leaves `GetPageCount` at `K` and
page `i` is the `i`-th directory of the chain, its entries the decoded 12-byte records in
file order. The walk ends within the fuel, and the call returns normally when the
well-known tags carry the type their reader wants. -/
theorem C11_directories_in_file_order (file uninit : List Byte) (f : TiffFile) (K fuel : Nat)
    (hopen : TiffFile.openFile file = .ok f)
    (hle : f.m_IntegerReader = .littleEndian)
    (hchain : wellFormedChain file K f.m_Header.OffsetFirstIfd = true)
    (hnone : ∀ off ∈ chainOffsets file K f.m_Header.OffsetFirstIfd,
      ∀ e ∈ directoryEntries file off, e.TagId ≠ TiffTagId.TIFF_PAGE_NUMBER)
    (hfuel : K ≤ fuel) :
    (TiffFile.ReadIfdCollection fuel uninit f).2.GetPageCount = K ∧
    (TiffFile.ReadIfdCollection fuel uninit f).2.m_PageIfdCollection =
      (chainOffsets file K f.m_Header.OffsetFirstIfd).map (directoryEntries file) ∧
    (TiffFile.ReadIfdCollection fuel uninit f).1 ≠ .error .fuelExhausted ∧
    ((∀ off ∈ chainOffsets file K f.m_Header.OffsetFirstIfd,
        ∀ e ∈ directoryEntries file off, wellTyped e = true) →
      (TiffFile.ReadIfdCollection fuel uninit f).1 = .ok ()) := by
  obtain ⟨rdr, hdr, -, rfl⟩ := TiffFile.openFile_form file f hopen
  simp only at hle
  subst hle
  simp only at hchain hnone ⊢
  obtain ⟨pos, hwalk⟩ := TiffFile.readDirectories_chain uninit file file.length hdr [] [] [] []
    K fuel hdr.OffsetFirstIfd [] hchain hfuel
  obtain ⟨K, rfl⟩ : ∃ k, K = k + 1 := by
    cases K with
    | zero => simp [wellFormedChain] at hchain
    | succ k => exact ⟨k, rfl⟩
  rw [TiffFile.ReadIfdCollection]
  simp only [seekg_good, hwalk, List.nil_append]
  rw [TiffFile.CorrectIfdOrder_none uninit _ (directoryEntries file hdr.OffsetFirstIfd)
    ((chainOffsets file K (directoryNext file hdr.OffsetFirstIfd)).map (directoryEntries file))
    (by simp [chainOffsets])
    (hnone hdr.OffsetFirstIfd (by simp [chainOffsets]))]
  simp only
  have hfr := TiffFile.scanPages_frame uninit
    (TiffFile.GetPageCount ⟨⟨file, pos, false⟩, file.length, .littleEndian, hdr,
      (chainOffsets file (K + 1) hdr.OffsetFirstIfd).map (directoryEntries file), [], [], [], []⟩)
    0 (TiffFile.resizeSideTables ⟨⟨file, pos, false⟩, file.length, .littleEndian, hdr,
      (chainOffsets file (K + 1) hdr.OffsetFirstIfd).map (directoryEntries file), [], [], [], []⟩)
  refine ⟨?_, ?_, ?_, ?_⟩
  · rw [TiffFile.GetPageCount, hfr.2.1]
    simp [TiffFile.resizeSideTables, length_chainOffsets]
  · rw [hfr.2.1]
    simp [TiffFile.resizeSideTables]
  · intro h
    rcases TiffFile.scanPages_error uninit _ _ _ _ h with h1 | h1 <;> cases h1
  · intro htyped
    exact TiffFile.scanPages_ok uninit _ 0 _ (by simp [TiffFile.resizeSideTables])
      (by
        intro d hd e he
        simp only [TiffFile.resizeSideTables, List.mem_map] at hd
        obtain ⟨off, hoff, rfl⟩ := hd
        exact htyped off hoff e he)

namespace TiffFile

theorem readShorts_good (uninit file : List Byte) (size : Nat)
    (hdr : TiffHeader) (coll : List (List TiffIfdEntry)) (dims : List TiffDimensions)
    (sw dt ar : List (List Byte)) (n : Nat) :
    ∀ pos : Nat, pos + 2 * n ≤ file.length →
    readShorts uninit n ⟨⟨file, pos, false⟩, size, .littleEndian, hdr, coll, dims, sw, dt, ar⟩ =
      (.ok ((List.range n).map
          (fun i => le16 (byteAt file (pos + 2 * i)) (byteAt file (pos + 2 * i + 1)))),
        ⟨⟨file, pos + 2 * n, false⟩, size, .littleEndian, hdr, coll, dims, sw, dt, ar⟩) := by
  induction n with
  | zero => intro pos _; simp [readShorts]
  | succ n ih =>
    intro pos h
    rw [readShorts, Uint16_good _ _ _ _ _ _ _ _ _ _ (by omega)]
    simp only
    rw [ih (pos + 2) (by omega)]
    simp only
    have e1 : pos + 2 + 2 * n = pos + 2 * (n + 1) := by omega
    rw [e1, List.range_succ_eq_map, List.map_cons, List.map_map]
    simp only [Nat.mul_zero, Nat.add_zero]
    congr 3
    apply List.map_congr_left
    intro i _
    simp only [Function.comp]
    have e2 : pos + 2 + 2 * i = pos + 2 * (i + 1) := by omega
    rw [e2]

theorem ReadUnsignedShortArray_good (uninit file : List Byte) (pos size : Nat)
    (hdr : TiffHeader) (coll : List (List TiffIfdEntry)) (dims : List TiffDimensions)
    (sw dt ar : List (List Byte)) (entry : TiffIfdEntry)
    (ht : entry.TagType = TiffTagType.SHORT) (hc : 0 < entry.ValueCount)
    (hin : entry.ValueOffset + 2 * entry.ValueCount ≤ file.length) :
    ∃ tail, ReadUnsignedShortArray uninit
        ⟨⟨file, pos, false⟩, size, .littleEndian, hdr, coll, dims, sw, dt, ar⟩ entry =
      (.ok (firstShort file entry :: tail),
        ⟨⟨file, pos, false⟩, size, .littleEndian, hdr, coll, dims, sw, dt, ar⟩) := by
  rw [ReadUnsignedShortArray, if_neg (by simpa using ht)]
  simp only [seekg_good]
  rw [readShorts_good _ _ _ _ _ _ _ _ _ _ _ hin]
  simp only [tellg_good, seekg_good]
  obtain ⟨n, hn⟩ : ∃ n, entry.ValueCount = n + 1 := ⟨entry.ValueCount - 1, by omega⟩
  rw [hn, List.range_succ_eq_map, List.map_cons]
  exact ⟨_, rfl⟩

theorem find?_eq_none_of_forall (dir : List TiffIfdEntry)
    (h : ∀ e ∈ dir, e.TagId ≠ TiffTagId.TIFF_PAGE_NUMBER) :
    dir.find? (fun entry => decide (entry.TagId = TiffTagId.TIFF_PAGE_NUMBER)) = none := by
  simp [List.find?_eq_none]
  exact h

theorem findPageNumber_good (uninit file : List Byte) (pos size : Nat)
    (hdr : TiffHeader) (coll : List (List TiffIfdEntry)) (dims : List TiffDimensions)
    (sw dt ar : List (List Byte)) (dir : List TiffIfdEntry)
    (h : ∀ e ∈ dir, e.TagId = TiffTagId.TIFF_PAGE_NUMBER →
      e.TagType = TiffTagType.SHORT ∧ 0 < e.ValueCount ∧
        e.ValueOffset + 2 * e.ValueCount ≤ file.length) :
    findPageNumber uninit
        ⟨⟨file, pos, false⟩, size, .littleEndian, hdr, coll, dims, sw, dt, ar⟩ dir =
      (.ok (match suppliedIndex file dir with
          | none => .notFound
          | some x => if x ≥ coll.length then .returned else .found x),
        ⟨⟨file, pos, false⟩, size, .littleEndian, hdr, coll, dims, sw, dt, ar⟩) := by
  induction dir with
  | nil => rfl
  | cons entry rest ih =>
    rw [findPageNumber]
    by_cases hid : entry.TagId = TiffTagId.TIFF_PAGE_NUMBER
    · rw [if_pos hid]
      obtain ⟨ht, hc, hin⟩ := h entry (List.mem_cons_self _ _) hid
      obtain ⟨tail, htail⟩ := ReadUnsignedShortArray_good uninit file pos size hdr coll dims
        sw dt ar entry ht hc hin
      rw [htail]
      simp only [suppliedIndex, List.find?_cons, hid, decide_True, Option.map_some',
        GetPageCount]
      split <;> rfl
    · rw [if_neg hid, ih (fun e he => h e (List.mem_cons_of_mem _ he))]
      simp only [suppliedIndex, List.find?_cons, hid, decide_False]

theorem placeDirectories_returns (uninit file : List Byte) (pos size : Nat)
    (hdr : TiffHeader) (coll : List (List TiffIfdEntry)) (dims : List TiffDimensions)
    (sw dt ar : List (List Byte)) (unordered : List (List TiffIfdEntry)) :
    ∀ orderedList : List (List TiffIfdEntry),
    (∀ d ∈ unordered, ∀ e ∈ d, e.TagId = TiffTagId.TIFF_PAGE_NUMBER →
      e.TagType = TiffTagType.SHORT ∧ 0 < e.ValueCount ∧
        e.ValueOffset + 2 * e.ValueCount ≤ file.length) →
    (∃ d ∈ unordered, ∀ x, suppliedIndex file d = some x → coll.length ≤ x) →
    placeDirectories uninit unordered orderedList
        ⟨⟨file, pos, false⟩, size, .littleEndian, hdr, coll, dims, sw, dt, ar⟩ =
      (.ok none, ⟨⟨file, pos, false⟩, size, .littleEndian, hdr, coll, dims, sw, dt, ar⟩) := by
  induction unordered with
  | nil => intro o _ hb; obtain ⟨d, hd, _⟩ := hb; simp at hd
  | cons collection rest ih =>
    intro o h hb
    rw [placeDirectories, findPageNumber_good uninit file pos size hdr coll dims sw dt ar
      collection (h collection (List.mem_cons_self _ _))]
    cases hs : suppliedIndex file collection with
    | none => rfl
    | some x =>
      dsimp only
      by_cases hx : x ≥ coll.length
      · rw [if_pos hx]
      · rw [if_neg hx]
        dsimp only
        apply ih _ (fun d hd => h d (List.mem_cons_of_mem _ hd))
        obtain ⟨d, hd, hbad⟩ := hb
        rcases List.mem_cons.mp hd with rfl | hd'
        · exact absurd (hbad x hs) (by omega)
        · exact ⟨d, hd', hbad⟩

end TiffFile

theorem TiffFile.CorrectIfdOrder_returns (uninit file : List Byte) (pos size : Nat)
    (hdr : TiffHeader) (coll : List (List TiffIfdEntry)) (dims : List TiffDimensions)
    (sw dt ar : List (List Byte))
    (h : ∀ d ∈ coll, ∀ e ∈ d, e.TagId = TiffTagId.TIFF_PAGE_NUMBER →
      e.TagType = TiffTagType.SHORT ∧ 0 < e.ValueCount ∧
        e.ValueOffset + 2 * e.ValueCount ≤ file.length)
    (hb : ∃ d ∈ coll, ∀ x, suppliedIndex file d = some x → coll.length ≤ x) :
    TiffFile.CorrectIfdOrder uninit
        ⟨⟨file, pos, false⟩, size, .littleEndian, hdr, coll, dims, sw, dt, ar⟩ =
      (.ok (), ⟨⟨file, pos, false⟩, size, .littleEndian, hdr, coll, dims, sw, dt, ar⟩) := by
  rw [TiffFile.CorrectIfdOrder]
  simp only
  rw [TiffFile.placeDirectories_returns uninit file pos size hdr coll dims sw dt ar coll _ h hb]

/-- C12: for a little-endian file that opens and whose chain has exactly `K` directories
(`wellFormedChain`), every page-number tag being SHORT-typed and non-empty with its array
inside the file, if some directory has no page-number tag or supplies a first element that
is not below `K`, then after `ReadIfdCollection` (whether it returns or a later tag makes
it raise) the collection is the file-order one: no directory was moved. -/
theorem C12_no_partial_reorder (file uninit : List Byte) (f : TiffFile) (K fuel : Nat)
    (hopen : TiffFile.openFile file = .ok f)
    (hle : f.m_IntegerReader = .littleEndian)
    (hchain : wellFormedChain file K f.m_Header.OffsetFirstIfd = true)
    (htags : ∀ off ∈ chainOffsets file K f.m_Header.OffsetFirstIfd,
      ∀ e ∈ directoryEntries file off, e.TagId = TiffTagId.TIFF_PAGE_NUMBER →
        e.TagType = TiffTagType.SHORT ∧ 0 < e.ValueCount ∧
          e.ValueOffset + 2 * e.ValueCount ≤ file.length)
    (hbad : ∃ off ∈ chainOffsets file K f.m_Header.OffsetFirstIfd,
      ∀ x, suppliedIndex file (directoryEntries file off) = some x → K ≤ x)
    (hfuel : K ≤ fuel) :
    (TiffFile.ReadIfdCollection fuel uninit f).1 ≠ .error .fuelExhausted ∧
    (TiffFile.ReadIfdCollection fuel uninit f).2.m_PageIfdCollection =
      (chainOffsets file K f.m_Header.OffsetFirstIfd).map (directoryEntries file) := by
  obtain ⟨rdr, hdr, -, rfl⟩ := TiffFile.openFile_form file f hopen
  simp only at hle
  subst hle
  simp only at hchain htags hbad ⊢
  obtain ⟨pos, hwalk⟩ := TiffFile.readDirectories_chain uninit file file.length hdr [] [] [] []
    K fuel hdr.OffsetFirstIfd [] hchain hfuel
  rw [TiffFile.ReadIfdCollection]
  simp only [seekg_good, hwalk, List.nil_append]
  rw [TiffFile.CorrectIfdOrder_returns uninit file pos file.length hdr _ [] [] [] []
    (by
      intro d hd e he
      simp only [List.mem_map] at hd
      obtain ⟨off, hoff, rfl⟩ := hd
      exact htags off hoff e he)
    (by
      obtain ⟨off, hoff, hx⟩ := hbad
      refine ⟨directoryEntries file off, List.mem_map_of_mem _ hoff, ?_⟩
      simpa [length_chainOffsets] using hx)]
  simp only
  have hfr := TiffFile.scanPages_frame uninit
    (TiffFile.GetPageCount ⟨⟨file, pos, false⟩, file.length, .littleEndian, hdr,
      (chainOffsets file K hdr.OffsetFirstIfd).map (directoryEntries file), [], [], [], []⟩)
    0 (TiffFile.resizeSideTables ⟨⟨file, pos, false⟩, file.length, .littleEndian, hdr,
      (chainOffsets file K hdr.OffsetFirstIfd).map (directoryEntries file), [], [], [], []⟩)
  refine ⟨?_, ?_⟩
  · intro h
    rcases TiffFile.scanPages_error uninit _ _ _ _ h with h1 | h1 <;> cases h1
  · rw [hfr.2.1]
    simp [TiffFile.resizeSideTables]

/-- C11, at `twoPageFile`. -/
theorem C11_directories_in_file_order_witness :
    (TiffFile.ReadIfdCollection 2 [] (opened twoPageFile 8)).2.GetPageCount = 2 ∧
    (TiffFile.ReadIfdCollection 2 [] (opened twoPageFile 8)).2.m_PageIfdCollection =
      (chainOffsets twoPageFile 2 (opened twoPageFile 8).m_Header.OffsetFirstIfd).map
        (directoryEntries twoPageFile) ∧
    (TiffFile.ReadIfdCollection 2 [] (opened twoPageFile 8)).1 ≠ .error .fuelExhausted ∧
    ((∀ off ∈ chainOffsets twoPageFile 2 (opened twoPageFile 8).m_Header.OffsetFirstIfd,
        ∀ e ∈ directoryEntries twoPageFile off, wellTyped e = true) →
      (TiffFile.ReadIfdCollection 2 [] (opened twoPageFile 8)).1 = .ok ()) :=
  C11_directories_in_file_order twoPageFile [] (opened twoPageFile 8) 2 2
    rfl rfl (by decide) (by decide) (by decide)

/-- C12, at `threePageFile`: two directories with valid page numbers, the third with
none. -/
theorem C12_no_partial_reorder_witness :
    (TiffFile.ReadIfdCollection 3 [] (opened threePageFile 8)).1 ≠ .error .fuelExhausted ∧
    (TiffFile.ReadIfdCollection 3 [] (opened threePageFile 8)).2.m_PageIfdCollection =
      (chainOffsets threePageFile 3 (opened threePageFile 8).m_Header.OffsetFirstIfd).map
        (directoryEntries threePageFile) :=
  C12_no_partial_reorder threePageFile [] (opened threePageFile 8) 3 3
    rfl rfl (by decide) (by decide) ⟨44, by decide, by decide⟩ (by decide)

namespace TiffFile

/-! ## What a raised `ReadIfdCollection` leaves behind -/

theorem Uint16_error_empty (u : List Byte) (f : TiffFile) (e : TiffError)
    (h : (Uint16 u f).1 = .error e) : f.m_IntegerReader = .empty := by
  by_contra hne
  obtain ⟨v, hv⟩ := Uint16_ok u f hne
  rw [hv] at h
  simp at h

theorem Uint32_error_empty (u : List Byte) (f : TiffFile) (e : TiffError)
    (h : (Uint32 u f).1 = .error e) : f.m_IntegerReader = .empty := by
  by_contra hne
  obtain ⟨v, hv⟩ := Uint32_ok u f hne
  rw [hv] at h
  simp at h

theorem readEntry_frame (u : List Byte) (f : TiffFile) :
    f.sameButStream (readEntry u f).1.2 := by
  unfold readEntry
  have h1 := Uint16_frame u f
  rcases hA : Uint16 u f with ⟨_ | a, g1⟩
  · rw [hA] at h1; exact h1
  · rw [hA] at h1
    dsimp only
    have h2 := Uint16_frame u g1
    rcases hB : Uint16 u g1 with ⟨_ | b, g2⟩
    · rw [hB] at h2; exact sameButStream_trans h1 h2
    · rw [hB] at h2
      dsimp only
      have h3 := Uint32_frame u g2
      rcases hC : Uint32 u g2 with ⟨_ | c, g3⟩
      · rw [hC] at h3; exact sameButStream_trans (sameButStream_trans h1 h2) h3
      · rw [hC] at h3
        dsimp only
        have h4 := Uint32_frame u g3
        rcases hD : Uint32 u g3 with ⟨_ | d, g4⟩
        · rw [hD] at h4
          exact sameButStream_trans (sameButStream_trans (sameButStream_trans h1 h2) h3) h4
        · rw [hD] at h4
          exact sameButStream_trans (sameButStream_trans (sameButStream_trans h1 h2) h3) h4

theorem readEntry_error (u : List Byte) (f : TiffFile) (e : TiffError)
    (h : (readEntry u f).1.1 = .error e) : f.m_IntegerReader = .empty := by
  unfold readEntry at h
  have h1 := Uint16_error_empty u f
  have f1 := Uint16_frame u f
  rcases hA : Uint16 u f with ⟨x | a, g1⟩
  · rw [hA] at h1; exact h1 x rfl
  · rw [hA] at h f1
    dsimp only at h
    have h2 := Uint16_error_empty u g1
    have f2 := Uint16_frame u g1
    rcases hB : Uint16 u g1 with ⟨x | b, g2⟩
    · rw [hB] at h2; rw [← f1.2.1]; exact h2 x rfl
    · rw [hB] at h f2
      dsimp only at h
      have h3 := Uint32_error_empty u g2
      have f3 := Uint32_frame u g2
      rcases hC : Uint32 u g2 with ⟨x | c, g3⟩
      · rw [hC] at h3; rw [← f1.2.1, ← f2.2.1]; exact h3 x rfl
      · rw [hC] at h f3
        dsimp only at h
        have h4 := Uint32_error_empty u g3
        rcases hD : Uint32 u g3 with ⟨x | d, g4⟩
        · rw [hD] at h4; rw [← f1.2.1, ← f2.2.1, ← f3.2.1]; exact h4 x rfl
        · rw [hD] at h; simp at h

theorem readDirectoryEntries_frame (u : List Byte) (n : Nat) :
    ∀ (f : TiffFile) (ifd : List TiffIfdEntry),
      f.sameButStream (readDirectoryEntries u n f ifd).1.2 := by
  induction n with
  | zero => intro f ifd; exact sameButStream_refl f
  | succ n ih =>
    intro f ifd
    rw [readDirectoryEntries]
    have h1 := readEntry_frame u f
    rcases hE : readEntry u f with ⟨⟨_ | v, g⟩, entry⟩
    · rw [hE] at h1; exact h1
    · rw [hE] at h1; exact sameButStream_trans h1 (ih g _)

theorem readDirectoryEntries_error (u : List Byte) (n : Nat) :
    ∀ (f : TiffFile) (ifd : List TiffIfdEntry) (e : TiffError),
      (readDirectoryEntries u n f ifd).1.1 = .error e → f.m_IntegerReader = .empty := by
  induction n with
  | zero => intro f ifd e h; simp [readDirectoryEntries] at h
  | succ n ih =>
    intro f ifd e h
    rw [readDirectoryEntries] at h
    have h1 := readEntry_error u f
    have f1 := readEntry_frame u f
    rcases hE : readEntry u f with ⟨⟨x | v, g⟩, entry⟩
    · rw [hE] at h1; exact h1 x rfl
    · rw [hE] at h f1; rw [← f1.2.1]; exact ih g _ e h

theorem readDirectories_grows (u : List Byte) (fuel : Nat) :
    ∀ f : TiffFile,
      (readDirectories u fuel f).2.m_IntegerReader = f.m_IntegerReader ∧
      f.m_PageIfdCollection.length ≤ (readDirectories u fuel f).2.m_PageIfdCollection.length ∧
      (∀ e, (readDirectories u fuel f).1 = .error e →
        f.m_IntegerReader = .empty ∨ e = .fuelExhausted) ∧
      ((readDirectories u fuel f).1 = .ok () →
        f.m_PageIfdCollection.length < (readDirectories u fuel f).2.m_PageIfdCollection.length) ∧
      (readDirectories u fuel f).2.m_Dimensions = f.m_Dimensions ∧
      (readDirectories u fuel f).2.m_Software = f.m_Software ∧
      (readDirectories u fuel f).2.m_DateTime = f.m_DateTime ∧
      (readDirectories u fuel f).2.m_Artist = f.m_Artist := by
  induction fuel with
  | zero =>
    intro f
    refine ⟨rfl, le_refl _, ?_, ?_, rfl, rfl, rfl, rfl⟩
    · intro e h; simp only [readDirectories, Except.error.injEq] at h; exact Or.inr h.symm
    · intro h; simp [readDirectories] at h
  | succ fuel ih =>
    intro f
    rw [readDirectories]
    have h1 := Uint16_frame u f
    have e1 := Uint16_error_empty u f
    rcases hA : Uint16 u f with ⟨x | entries, g1⟩
    · rw [hA] at h1 e1
      refine ⟨h1.2.1, by rw [h1.2.2.2.1], ?_, ?_, h1.2.2.2.2.1, h1.2.2.2.2.2.1,
        h1.2.2.2.2.2.2.1, h1.2.2.2.2.2.2.2⟩
      · intro e _; exact Or.inl (e1 x rfl)
      · intro h; simp at h
    · rw [hA] at h1
      dsimp only
      have h2 := readDirectoryEntries_frame u entries g1 []
      have e2 := readDirectoryEntries_error u entries g1 []
      rcases hB : readDirectoryEntries u entries g1 [] with ⟨⟨x | v, g2⟩, ifd⟩
      · rw [hB] at h2 e2
        have h12 := sameButStream_trans h1 h2
        dsimp only at h12
        refine ⟨h12.2.1, by simp [h12.2.2.2.1], ?_, ?_, h12.2.2.2.2.1, h12.2.2.2.2.2.1,
          h12.2.2.2.2.2.2.1, h12.2.2.2.2.2.2.2⟩
        · intro e _; exact Or.inl (by rw [← h1.2.1]; exact e2 x rfl)
        · intro h; simp at h
      · rw [hB] at h2
        have h12 := sameButStream_trans h1 h2
        dsimp only
        have h3 := Uint32_frame u
          { g2 with m_PageIfdCollection := g2.m_PageIfdCollection ++ [ifd] }
        have e3 := Uint32_error_empty u
          { g2 with m_PageIfdCollection := g2.m_PageIfdCollection ++ [ifd] }
        rcases hC : Uint32 u
          { g2 with m_PageIfdCollection := g2.m_PageIfdCollection ++ [ifd] } with ⟨x | nxt, g3⟩
        · rw [hC] at h3 e3
          dsimp only at h3
          refine ⟨h3.2.1.trans h12.2.1, by rw [h3.2.2.2.1, h12.2.2.2.1]; simp, ?_, ?_,
            h3.2.2.2.2.1.trans h12.2.2.2.2.1, h3.2.2.2.2.2.1.trans h12.2.2.2.2.2.1,
            h3.2.2.2.2.2.2.1.trans h12.2.2.2.2.2.2.1,
            h3.2.2.2.2.2.2.2.trans h12.2.2.2.2.2.2.2⟩
          · intro e _; exact Or.inl (by rw [← h12.2.1]; exact e3 x rfl)
          · intro h; simp at h
        · rw [hC] at h3
          dsimp only at h3 ⊢
          have hlen : f.m_PageIfdCollection.length < g3.m_PageIfdCollection.length := by
            rw [h3.2.2.2.1, h12.2.2.2.1]; simp
          split
          · refine ⟨h3.2.1.trans h12.2.1, le_of_lt hlen, ?_, fun _ => hlen,
              h3.2.2.2.2.1.trans h12.2.2.2.2.1, h3.2.2.2.2.2.1.trans h12.2.2.2.2.2.1,
              h3.2.2.2.2.2.2.1.trans h12.2.2.2.2.2.2.1,
              h3.2.2.2.2.2.2.2.trans h12.2.2.2.2.2.2.2⟩
            intro e h; simp at h
          · obtain ⟨i1, i2, i3, _, i5, i6, i7, i8⟩ :=
              ih { g3 with m_Stream := g3.m_Stream.seekg nxt }
            dsimp only at i1 i2 i5 i6 i7 i8
            refine ⟨i1.trans (h3.2.1.trans h12.2.1), ?_, ?_, fun _ => ?_,
              i5.trans (h3.2.2.2.2.1.trans h12.2.2.2.2.1),
              i6.trans (h3.2.2.2.2.2.1.trans h12.2.2.2.2.2.1),
              i7.trans (h3.2.2.2.2.2.2.1.trans h12.2.2.2.2.2.2.1),
              i8.trans (h3.2.2.2.2.2.2.2.trans h12.2.2.2.2.2.2.2)⟩
            · exact le_trans (le_of_lt hlen) i2
            · intro e he
              rcases i3 e he with hx | hx
              · exact Or.inl (by rw [← h12.2.1, ← h3.2.1]; exact hx)
              · exact Or.inr hx
            · exact lt_of_lt_of_le hlen i2

theorem placeDirectories_length (u : List Byte) (unordered : List (List TiffIfdEntry)) :
    ∀ (orderedList : List (List TiffIfdEntry)) (f : TiffFile)
      (o : List (List TiffIfdEntry)),
      (placeDirectories u unordered orderedList f).1 = .ok (some o) →
      o.length = orderedList.length := by
  induction unordered with
  | nil =>
    intro ol f o h
    simp only [placeDirectories, Except.ok.injEq, Option.some.injEq] at h
    rw [h]
  | cons collection rest ih =>
    intro ol f o h
    rw [placeDirectories] at h
    rcases hF : findPageNumber u f collection with ⟨x | r, g⟩
    · rw [hF] at h; simp at h
    · rw [hF] at h
      cases r with
      | returned => simp at h
      | notFound => simp at h
      | found idx =>
        dsimp only at h
        rw [ih _ g o h, List.length_set]

theorem CorrectIfdOrder_frame (u : List Byte) (f : TiffFile) :
    (CorrectIfdOrder u f).2.m_IntegerReader = f.m_IntegerReader ∧
    (CorrectIfdOrder u f).2.m_PageIfdCollection.length = f.m_PageIfdCollection.length ∧
    (CorrectIfdOrder u f).2.m_Dimensions = f.m_Dimensions ∧
    (CorrectIfdOrder u f).2.m_Software = f.m_Software ∧
    (CorrectIfdOrder u f).2.m_DateTime = f.m_DateTime ∧
    (CorrectIfdOrder u f).2.m_Artist = f.m_Artist := by
  unfold CorrectIfdOrder
  have h1 := placeDirectories_frame u f.m_PageIfdCollection
    (List.replicate f.m_PageIfdCollection.length []) f
  have h2 := placeDirectories_length u f.m_PageIfdCollection
    (List.replicate f.m_PageIfdCollection.length []) f
  rcases hP : placeDirectories u f.m_PageIfdCollection
    (List.replicate f.m_PageIfdCollection.length []) f with ⟨x | r, g⟩
  · rw [hP] at h1
    exact ⟨h1.2.1, by rw [h1.2.2.2.1], h1.2.2.2.2.1, h1.2.2.2.2.2.1, h1.2.2.2.2.2.2.1,
      h1.2.2.2.2.2.2.2⟩
  · rw [hP] at h1 h2
    cases r with
    | none =>
      exact ⟨h1.2.1, by rw [h1.2.2.2.1], h1.2.2.2.2.1, h1.2.2.2.2.2.1, h1.2.2.2.2.2.2.1,
        h1.2.2.2.2.2.2.2⟩
    | some o =>
      refine ⟨h1.2.1, ?_, h1.2.2.2.2.1, h1.2.2.2.2.2.1, h1.2.2.2.2.2.2.1, h1.2.2.2.2.2.2.2⟩
      dsimp only
      rw [h2 o rfl, List.length_replicate]

end TiffFile

/-- C14 (amended): when `ReadIfdCollection` on an initialised reader raises an exception,
the directories that the walk visited stay in the reader: `GetPageCount` is larger than
before the call (at least 1 on a freshly opened reader). -/
theorem C14_raise_keeps_directories (fuel : Nat) (uninit : List Byte) (f : TiffFile)
    (e : TiffError) (hr : f.m_IntegerReader ≠ .empty)
    (h : (TiffFile.ReadIfdCollection fuel uninit f).1 = .error e)
    (hne : e ≠ .fuelExhausted) :
    f.GetPageCount < (TiffFile.ReadIfdCollection fuel uninit f).2.GetPageCount := by
  unfold TiffFile.ReadIfdCollection at h ⊢
  obtain ⟨w1, -, w3, w4, -⟩ := TiffFile.readDirectories_grows uninit fuel
    { f with m_Stream := f.m_Stream.seekg f.m_Header.OffsetFirstIfd }
  rcases hW : TiffFile.readDirectories uninit fuel
    { f with m_Stream := f.m_Stream.seekg f.m_Header.OffsetFirstIfd } with ⟨x | v, g⟩
  · rw [hW] at h w3
    simp only [Except.error.injEq] at h
    rcases w3 x rfl with hx | hx
    · exact absurd hx hr
    · exact absurd (h ▸ hx) hne
  · rw [hW] at h w4
    dsimp only at h w4 ⊢
    have hlen := w4 rfl
    have c := TiffFile.CorrectIfdOrder_frame uninit g
    rcases hC : TiffFile.CorrectIfdOrder uninit g with ⟨x | v, g2⟩
    · rw [hC] at c
      dsimp only [TiffFile.GetPageCount] at c ⊢
      omega
    · rw [hC] at c
      dsimp only at c ⊢
      have s := TiffFile.scanPages_frame uninit g2.GetPageCount 0 (TiffFile.resizeSideTables g2)
      rw [TiffFile.GetPageCount, TiffFile.GetPageCount, s.2.1]
      simp only [TiffFile.resizeSideTables]
      omega

/-- C13 (the code departs from the claim): in `duplicateIndexFile` both directories
carry a SHORT page-number tag whose first element is 0, an index below 2.
`ReadIfdCollection` returns normally, the second directory sits at index 0, the first
directory is gone and index 1 holds an empty directory: the collection is no
rearrangement of the file-order one. -/
theorem C13_duplicate_index_loses_directory :
    ∃ g, TiffFile.openFile duplicateIndexFile = .ok (opened duplicateIndexFile 8) ∧
      TiffFile.ReadIfdCollection 2 [] (opened duplicateIndexFile 8) = (.ok (), g) ∧
      wellFormedChain duplicateIndexFile 2 8 = true ∧
      chainOffsets duplicateIndexFile 2 8 = [8, 38] ∧
      suppliedIndex duplicateIndexFile (directoryEntries duplicateIndexFile 8) = some 0 ∧
      suppliedIndex duplicateIndexFile (directoryEntries duplicateIndexFile 38) = some 0 ∧
      g.GetPageCount = 2 ∧
      g.m_PageIfdCollection = [directoryEntries duplicateIndexFile 38, []] ∧
      directoryEntries duplicateIndexFile 8 ∉ g.m_PageIfdCollection ∧
      ¬ g.m_PageIfdCollection.Perm
        [directoryEntries duplicateIndexFile 8, directoryEntries duplicateIndexFile 38] :=
  ⟨_, rfl, rfl, by decide, by decide, by decide, by decide, by decide, by decide, by decide,
    by decide⟩

/-- C14 fails as stated: on the freshly opened `mistypedFile` (`GetPageCount` 0), whose
single directory declares its x-resolution tag as SHORT, `ReadIfdCollection` raises the
wrong-type error and leaves the directory in the reader: `GetPageCount` is 1 and
`GetPageIfd(0, 0)` returns its tag. -/
theorem C14_partial_result_counterexample :
    TiffFile.openFile mistypedFile = .ok (opened mistypedFile 8) ∧
    (opened mistypedFile 8).GetPageCount = 0 ∧
    (TiffFile.ReadIfdCollection 1 [] (opened mistypedFile 8)).1 = .error .unexpectedType ∧
    (TiffFile.ReadIfdCollection 1 [] (opened mistypedFile 8)).2.GetPageCount = 1 ∧
    (TiffFile.ReadIfdCollection 1 [] (opened mistypedFile 8)).2.GetPageIfd 0 0 =
      .ok { TagId := 0x11A, TagType := 3, ValueCount := 1, ValueOffset := 72,
            IsWangTag := false } :=
  ⟨rfl, rfl, rfl, rfl, rfl⟩

/-- C14 (amended), at the freshly opened `mistypedFile`. -/
theorem C14_raise_keeps_directories_witness :
    (opened mistypedFile 8).GetPageCount <
      (TiffFile.ReadIfdCollection 1 [] (opened mistypedFile 8)).2.GetPageCount :=
  C14_raise_keeps_directories 1 [] (opened mistypedFile 8) .unexpectedType (by decide) rfl
    (by decide)

/-! ## The accessors after `ReadIfdCollection` has returned -/

theorem TiffFile.ReadIfdCollection_lengths (fuel : Nat) (uninit : List Byte) (f g : TiffFile)
    (h : TiffFile.ReadIfdCollection fuel uninit f = (.ok (), g)) :
    g.m_Dimensions.length = g.GetPageCount ∧ g.m_Software.length = g.GetPageCount ∧
      g.m_DateTime.length = g.GetPageCount ∧ g.m_Artist.length = g.GetPageCount := by
  unfold TiffFile.ReadIfdCollection at h
  rcases hW : TiffFile.readDirectories uninit fuel
    { f with m_Stream := f.m_Stream.seekg f.m_Header.OffsetFirstIfd } with ⟨x | v, g1⟩
  · rw [hW] at h; simp at h
  · rw [hW] at h
    dsimp only at h
    rcases hC : TiffFile.CorrectIfdOrder uninit g1 with ⟨x | v, g2⟩
    · rw [hC] at h; simp at h
    · rw [hC] at h
      dsimp only at h
      have s := TiffFile.scanPages_frame uninit g2.GetPageCount 0 (TiffFile.resizeSideTables g2)
      rw [h] at s
      obtain ⟨-, s2, s3, s4, s5, s6⟩ := s
      dsimp only at s2 s3 s4 s5 s6
      have hc : g.GetPageCount = g2.GetPageCount := by
        rw [TiffFile.GetPageCount, s2]; rfl
      rw [hc, s3, s4, s5, s6]
      simp only [TiffFile.resizeSideTables, TiffFile.vector_resize_length, and_self]

/-- C16: after `ReadIfdCollection` has returned, `GetPageIfdCount`, `GetDimensions`,
`GetSoftware`, `GetDateTime`, `GetArtist` and `GetPageIfd` raise the page-index error for a
page index at or past `GetPageCount`; below it each returns the stored value of that page,
and `GetPageIfd(p, i)` raises the tag-index error for `i` at or past the size of
directory `p` and returns tag `i` of directory `p` below it. -/
theorem C16_accessors_bounds_checked (fuel : Nat) (uninit : List Byte) (f g : TiffFile)
    (h : TiffFile.ReadIfdCollection fuel uninit f = (.ok (), g)) (p i : Nat) :
    (g.GetPageCount ≤ p →
      g.GetPageIfdCount p = .error .pageIndex ∧ g.GetDimensions p = .error .pageIndex ∧
      g.GetSoftware p = .error .pageIndex ∧ g.GetDateTime p = .error .pageIndex ∧
      g.GetArtist p = .error .pageIndex ∧ g.GetPageIfd p i = .error .pageIndex) ∧
    (p < g.GetPageCount →
      ∃ dir d sw dt ar, g.m_PageIfdCollection[p]? = some dir ∧ g.m_Dimensions[p]? = some d ∧
        g.m_Software[p]? = some sw ∧ g.m_DateTime[p]? = some dt ∧ g.m_Artist[p]? = some ar ∧
        g.GetPageIfdCount p = .ok dir.length ∧ g.GetDimensions p = .ok d ∧
        g.GetSoftware p = .ok sw ∧ g.GetDateTime p = .ok dt ∧ g.GetArtist p = .ok ar ∧
        (dir.length ≤ i → g.GetPageIfd p i = .error .ifdIndex) ∧
        (i < dir.length → ∃ e, dir[i]? = some e ∧ g.GetPageIfd p i = .ok e)) := by
  obtain ⟨l1, l2, l3, l4⟩ := TiffFile.ReadIfdCollection_lengths fuel uninit f g h
  constructor
  · intro hp
    have hp2 : p ≥ g.GetPageCount := hp
    simp [TiffFile.GetPageIfdCount, TiffFile.GetDimensions, TiffFile.GetSoftware,
      TiffFile.GetDateTime, TiffFile.GetArtist, TiffFile.GetPageIfd,
      TiffFile.AssertPageIfdIndex, TiffFile.AssertPageIndex, hp2]
  · intro hp
    have hp2 : ¬ p ≥ g.GetPageCount := by omega
    have hc : p < g.m_PageIfdCollection.length := hp
    obtain ⟨dir, hdir⟩ : ∃ dir, g.m_PageIfdCollection[p]? = some dir :=
      ⟨_, List.getElem?_eq_getElem hc⟩
    obtain ⟨d, hd⟩ : ∃ d, g.m_Dimensions[p]? = some d :=
      ⟨_, List.getElem?_eq_getElem (show p < g.m_Dimensions.length by omega)⟩
    obtain ⟨sw, hsw⟩ : ∃ sw, g.m_Software[p]? = some sw :=
      ⟨_, List.getElem?_eq_getElem (show p < g.m_Software.length by omega)⟩
    obtain ⟨dt, hdt⟩ : ∃ dt, g.m_DateTime[p]? = some dt :=
      ⟨_, List.getElem?_eq_getElem (show p < g.m_DateTime.length by omega)⟩
    obtain ⟨ar, har⟩ : ∃ ar, g.m_Artist[p]? = some ar :=
      ⟨_, List.getElem?_eq_getElem (show p < g.m_Artist.length by omega)⟩
    refine ⟨dir, d, sw, dt, ar, hdir, hd, hsw, hdt, har, ?_, ?_, ?_, ?_, ?_, ?_, ?_⟩
    · simp [TiffFile.GetPageIfdCount, TiffFile.AssertPageIndex, hp2, hdir]
    · simp [TiffFile.GetDimensions, TiffFile.AssertPageIndex, hp2, hd]
    · simp [TiffFile.GetSoftware, TiffFile.AssertPageIndex, hp2, hsw]
    · simp [TiffFile.GetDateTime, TiffFile.AssertPageIndex, hp2, hdt]
    · simp [TiffFile.GetArtist, TiffFile.AssertPageIndex, hp2, har]
    · intro hi
      have hi2 : i ≥ dir.length := hi
      simp [TiffFile.GetPageIfd, TiffFile.AssertPageIfdIndex, TiffFile.GetPageIfdCount,
        TiffFile.AssertPageIndex, hp2, hdir, hi2]
    · intro hi
      have hi2 : ¬ i ≥ dir.length := by omega
      obtain ⟨e, he⟩ : ∃ e, dir[i]? = some e := ⟨_, List.getElem?_eq_getElem hi⟩
      refine ⟨e, he, ?_⟩
      simp [TiffFile.GetPageIfd, TiffFile.AssertPageIfdIndex, TiffFile.GetPageIfdCount,
        TiffFile.AssertPageIndex, hp2, hdir, hi2, he]

/-! ## The value readers -/

/-- C17 (the code departs from the claim): `Read(entry, buffer, size)` runs
`AssertSizeLeft(size)` at the cursor of the moment, before it seeks to the value: for a
BYTE-typed entry, whenever fewer than `size` bytes lie between the cursor and the end of
the file the call raises "insufficient data left in stream" and reads nothing, wherever
the value range lies and however large the buffer is. -/
theorem C17_size_checked_at_cursor (f : TiffFile) (entry : TiffIfdEntry) (buffer : List Byte)
    (size : Nat) (ht : entry.TagType = TiffTagType.BYTE) (hleft : f.SizeLeft < size) :
    f.ReadBuffer entry buffer size = (.error .insufficientData, f) := by
  rw [TiffFile.ReadBuffer, if_neg (by simpa using ht), TiffFile.AssertSizeLeft, if_pos hleft]

/-- C17, on `annotatedFile` once `ReadIfdCollection` has returned (cursor at the end of the
file): the annotation tag is BYTE-typed, its 8 values lie at 8..16 inside the 34-byte file
and the buffer has 8 bytes, yet the call raises. -/
theorem C17_size_checked_at_cursor_witness :
    (annotatedRead.GetPageIfd 0 0 = .ok annotationTag ∧
      annotationTag.ValueOffset + annotationTag.ValueCount ≤ annotatedFile.length ∧
      annotatedRead.m_Stream = ⟨annotatedFile, 34, false⟩) ∧
    annotatedRead.ReadBuffer annotationTag [0, 0, 0, 0, 0, 0, 0, 0] 8 =
      (.error .insufficientData, annotatedRead) :=
  ⟨⟨rfl, by decide, rfl⟩,
    C17_size_checked_at_cursor annotatedRead annotationTag [0, 0, 0, 0, 0, 0, 0, 0] 8 rfl
      (by decide)⟩

namespace TiffFile

theorem readEntry_raises (u : List Byte) (f : TiffFile) (e : TiffError)
    (h : (readEntry u f).1.1 = .error e) : e = .badFunctionCall := by
  unfold readEntry at h
  have h1 := Uint16_error u f
  rcases hA : Uint16 u f with ⟨x | a, g1⟩
  · rw [hA] at h h1; simp only [Except.error.injEq] at h; exact h ▸ h1 x rfl
  · rw [hA] at h
    dsimp only at h
    have h2 := Uint16_error u g1
    rcases hB : Uint16 u g1 with ⟨x | b, g2⟩
    · rw [hB] at h h2; simp only [Except.error.injEq] at h; exact h ▸ h2 x rfl
    · rw [hB] at h
      dsimp only at h
      have h3 := Uint32_error u g2
      rcases hC : Uint32 u g2 with ⟨x | c, g3⟩
      · rw [hC] at h h3; simp only [Except.error.injEq] at h; exact h ▸ h3 x rfl
      · rw [hC] at h
        dsimp only at h
        have h4 := Uint32_error u g3
        rcases hD : Uint32 u g3 with ⟨x | d, g4⟩
        · rw [hD] at h h4; simp only [Except.error.injEq] at h; exact h ▸ h4 x rfl
        · rw [hD] at h; simp at h

theorem readDirectoryEntries_raises (u : List Byte) (n : Nat) :
    ∀ (f : TiffFile) (ifd : List TiffIfdEntry) (e : TiffError),
      (readDirectoryEntries u n f ifd).1.1 = .error e → e = .badFunctionCall := by
  induction n with
  | zero => intro f ifd e h; simp [readDirectoryEntries] at h
  | succ n ih =>
    intro f ifd e h
    rw [readDirectoryEntries] at h
    have h1 := readEntry_raises u f
    rcases hE : readEntry u f with ⟨⟨x | v, g⟩, entry⟩
    · rw [hE] at h h1; simp only [Except.error.injEq] at h; exact h ▸ h1 x rfl
    · rw [hE] at h; exact ih g _ e h

theorem readDirectories_raises (u : List Byte) (fuel : Nat) :
    ∀ (f : TiffFile) (e : TiffError), (readDirectories u fuel f).1 = .error e →
      e = .badFunctionCall ∨ e = .fuelExhausted := by
  induction fuel with
  | zero =>
    intro f e h
    simp only [readDirectories, Except.error.injEq] at h
    exact Or.inr h.symm
  | succ fuel ih =>
    intro f e h
    rw [readDirectories] at h
    have h1 := Uint16_error u f
    rcases hA : Uint16 u f with ⟨x | entries, g1⟩
    · rw [hA] at h h1; simp only [Except.error.injEq] at h; exact Or.inl (h ▸ h1 x rfl)
    · rw [hA] at h
      dsimp only at h
      have h2 := readDirectoryEntries_raises u entries g1 []
      rcases hB : readDirectoryEntries u entries g1 [] with ⟨⟨x | v, g2⟩, ifd⟩
      · rw [hB] at h h2; simp only [Except.error.injEq] at h; exact Or.inl (h ▸ h2 x rfl)
      · rw [hB] at h
        dsimp only at h
        have h3 := Uint32_error u
          { g2 with m_PageIfdCollection := g2.m_PageIfdCollection ++ [ifd] }
        rcases hC : Uint32 u
          { g2 with m_PageIfdCollection := g2.m_PageIfdCollection ++ [ifd] } with ⟨x | nxt, g3⟩
        · rw [hC] at h h3; simp only [Except.error.injEq] at h; exact Or.inl (h ▸ h3 x rfl)
        · rw [hC] at h
          dsimp only at h
          split at h
          · simp at h
          · exact ih _ e h

theorem ReadIfdCollection_raises (fuel : Nat) (u : List Byte) (f : TiffFile) (e : TiffError)
    (h : (ReadIfdCollection fuel u f).1 = .error e) :
    e = .unexpectedType ∨ e = .badFunctionCall ∨ e = .subscriptPastEnd ∨ e = .fuelExhausted := by
  unfold ReadIfdCollection at h
  have h1 := readDirectories_raises u fuel
    { f with m_Stream := f.m_Stream.seekg f.m_Header.OffsetFirstIfd }
  rcases hW : readDirectories u fuel
    { f with m_Stream := f.m_Stream.seekg f.m_Header.OffsetFirstIfd } with ⟨x | v, g⟩
  · rw [hW] at h h1
    simp only [Except.error.injEq] at h
    rcases h1 x rfl with hx | hx
    · exact Or.inr (Or.inl (h ▸ hx))
    · exact Or.inr (Or.inr (Or.inr (h ▸ hx)))
  · rw [hW] at h
    dsimp only at h
    have h2 := CorrectIfdOrder_error u g
    rcases hC : CorrectIfdOrder u g with ⟨x | v, g2⟩
    · rw [hC] at h h2
      simp only [Except.error.injEq] at h
      rcases h2 x rfl with hx | hx | hx
      · exact Or.inl (h ▸ hx)
      · exact Or.inr (Or.inl (h ▸ hx))
      · exact Or.inr (Or.inr (Or.inl (h ▸ hx)))
    · rw [hC] at h
      dsimp only at h
      rcases scanPages_error u _ _ _ e h with hx | hx
      · exact Or.inl hx
      · exact Or.inr (Or.inl hx)

end TiffFile

/-- C19 (the code departs from the claim): `Read<TValue>()` has no size check, so the
readers built on it never raise "insufficient data left in stream": `ReadIfdCollection`
does not raise it on any file, with any fuel. On `truncatedFile`, which ends inside its
only directory, the code goes on with what the uninitialised local of `Read<TValue>()`
holds: where that memory is zero `ReadIfdCollection` returns normally, with one directory
of one tag, and the stream is left failed. -/
theorem C19_short_scalar_read_not_raised :
    (∀ (fuel : Nat) (uninit : List Byte) (f : TiffFile),
      (TiffFile.ReadIfdCollection fuel uninit f).1 ≠ .error .insufficientData) ∧
    (TiffFile.openFile truncatedFile = .ok (opened truncatedFile 8) ∧
      (opened truncatedFile 8).SizeLeft = 8 ∧
      (TiffFile.ReadIfdCollection 1 [0, 0, 0, 0] (opened truncatedFile 8)).1 = .ok () ∧
      (TiffFile.ReadIfdCollection 1 [0, 0, 0, 0] (opened truncatedFile 8)).2.m_PageIfdCollection =
        [[⟨0x100, 4, 1, 0, false⟩]] ∧
      (TiffFile.ReadIfdCollection 1 [0, 0, 0, 0] (opened truncatedFile 8)).2.m_Stream.failbit =
        true) := by
  refine ⟨?_, rfl, by decide, rfl, rfl, rfl⟩
  intro fuel uninit f h
  rcases TiffFile.ReadIfdCollection_raises fuel uninit f _ h with hx | hx | hx | hx <;> cases hx

/-- C20 (the code departs from the claim): `annotatedFile` opens and `ReadIfdCollection`
returns; the tag that `GetPageIfd(0, 0)` then returns has the annotation id, type BYTE and
8 values, which lie at 8..16 inside the 34-byte file. Constructing the annotation reader
from it raises "insufficient data left in stream", because the size check of the bulk read
counts from the cursor, which is at the end of the file. Right after `open()`, with the
cursor at 8, the same construction succeeds with the 8 bytes and cursor 0. -/
theorem C20_construct_fails_at_end_of_file :
    TiffFile.openFile annotatedFile = .ok (opened annotatedFile 16) ∧
    TiffFile.ReadIfdCollection 1 [] (opened annotatedFile 16) = (.ok (), annotatedRead) ∧
    annotatedRead.GetPageIfd 0 0 = .ok annotationTag ∧
    annotationTag.TagId = TiffTagId.TIFF_WANG_TAG ∧
    annotationTag.TagType = TiffTagType.BYTE ∧ annotationTag.ValueCount ≠ 0 ∧
    annotationTag.ValueOffset + annotationTag.ValueCount ≤ annotatedFile.length ∧
    (WangAnnotationReader.construct annotatedRead annotationTag).1 =
      .error .insufficientData ∧
    (WangAnnotationReader.construct (opened annotatedFile 16) annotationTag).1 =
      .ok ⟨(annotatedFile.drop 8).take 8, 0, false⟩ :=
  ⟨rfl, rfl, rfl, rfl, rfl, by decide, by decide, rfl, rfl⟩

/-- The two guards of the constructor of `WangAnnotationReader` come before the bulk read:
a tag with another id or type, or with no values, is refused and the file is not touched. -/
theorem construct_guards (file : TiffFile) (tag : TiffIfdEntry) :
    (tag.TagId ≠ TiffTagId.TIFF_WANG_TAG ∨ tag.TagType ≠ TiffTagType.BYTE →
      WangAnnotationReader.construct file tag = (.error .notWangTag, file)) ∧
    (tag.TagId = TiffTagId.TIFF_WANG_TAG → tag.TagType = TiffTagType.BYTE →
      tag.ValueCount = 0 → WangAnnotationReader.construct file tag = (.error .noValues, file)) := by
  constructor
  · intro h
    rw [WangAnnotationReader.construct, if_pos h]
  · intro h1 h2 h3
    rw [WangAnnotationReader.construct, if_neg (by simp [h1, h2]), if_pos h3]

namespace TiffFile

/-! ## The scan of the well-known tags -/

theorem scanEntry_cases (u : List Byte) (p : Nat) (f g : TiffFile) (e : TiffIfdEntry)
    (h : scanEntry u p f e = (.ok (), g)) :
    ∃ (upd : TiffDimensions → TiffDimensions) (s1 s2 s3 : Option (List Byte)),
      g.m_Dimensions = f.m_Dimensions.modify upd p ∧
      g.m_Software = (match s1 with | none => f.m_Software | some v => f.m_Software.set p v) ∧
      g.m_DateTime = (match s2 with | none => f.m_DateTime | some v => f.m_DateTime.set p v) ∧
      g.m_Artist = (match s3 with | none => f.m_Artist | some v => f.m_Artist.set p v) ∧
      (∀ d, (upd d).Width =
        if e.TagId = TiffTagId.TIFF_IMAGE_WIDTH_TAG then e.ValueOffset else d.Width) ∧
      (∀ d, (upd d).Height =
        if e.TagId = TiffTagId.TIFF_IMAGE_LENGTH_TAG then e.ValueOffset else d.Height) ∧
      (e.TagId ≠ TiffTagId.TIFF_IMAGE_XRESOLUTION → ∀ d, (upd d).ResolutionX = d.ResolutionX) ∧
      (e.TagId ≠ TiffTagId.TIFF_IMAGE_YRESOLUTION → ∀ d, (upd d).ResolutionY = d.ResolutionY) ∧
      (e.TagId ≠ TiffTagId.TIFF_IMAGE_SOFTWARE → s1 = none) ∧
      (e.TagId ≠ TiffTagId.TIFF_IMAGE_DATETIME → s2 = none) ∧
      (e.TagId ≠ TiffTagId.TIFF_IMAGE_ARTIST → s3 = none) := by
  have hR := ReadRational_frame u f e
  have hA := ReadAsciiString_frame f e
  unfold scanEntry at h
  split at h
  · rename_i hid
    rcases hX : ReadRational u f e with ⟨x | v, g1⟩
    · rw [hX] at h; simp at h
    · rw [hX] at h hR
      simp only [Prod.mk.injEq, true_and] at h
      subst h
      refine ⟨fun d => { d with ResolutionY := v }, none, none, none, ?_, hR.2.2.2.2.2.1,
        hR.2.2.2.2.2.2.1, hR.2.2.2.2.2.2.2, ?_, ?_, ?_, ?_, ?_, ?_, ?_⟩
      · dsimp only; rw [hR.2.2.2.2.1]
      all_goals simp [hid, TiffTagId.TIFF_IMAGE_YRESOLUTION, TiffTagId.TIFF_IMAGE_WIDTH_TAG,
        TiffTagId.TIFF_IMAGE_LENGTH_TAG, TiffTagId.TIFF_IMAGE_XRESOLUTION]
  split at h
  · rename_i hid
    rcases hX : ReadRational u f e with ⟨x | v, g1⟩
    · rw [hX] at h; simp at h
    · rw [hX] at h hR
      simp only [Prod.mk.injEq, true_and] at h
      subst h
      refine ⟨fun d => { d with ResolutionX := v }, none, none, none, ?_, hR.2.2.2.2.2.1,
        hR.2.2.2.2.2.2.1, hR.2.2.2.2.2.2.2, ?_, ?_, ?_, ?_, ?_, ?_, ?_⟩
      · dsimp only; rw [hR.2.2.2.2.1]
      all_goals simp [hid, TiffTagId.TIFF_IMAGE_YRESOLUTION, TiffTagId.TIFF_IMAGE_WIDTH_TAG,
        TiffTagId.TIFF_IMAGE_LENGTH_TAG, TiffTagId.TIFF_IMAGE_XRESOLUTION]
  split at h
  · rename_i hid
    simp only [Prod.mk.injEq, true_and] at h
    subst h
    refine ⟨fun d => { d with Height := e.ValueOffset }, none, none, none, rfl, rfl, rfl, rfl,
      ?_, ?_, ?_, ?_, ?_, ?_, ?_⟩
    all_goals simp [hid, TiffTagId.TIFF_IMAGE_WIDTH_TAG, TiffTagId.TIFF_IMAGE_LENGTH_TAG]
  split at h
  · rename_i hid
    simp only [Prod.mk.injEq, true_and] at h
    subst h
    refine ⟨fun d => { d with Width := e.ValueOffset }, none, none, none, rfl, rfl, rfl, rfl,
      ?_, ?_, ?_, ?_, ?_, ?_, ?_⟩
    all_goals simp [hid, TiffTagId.TIFF_IMAGE_WIDTH_TAG, TiffTagId.TIFF_IMAGE_LENGTH_TAG]
  split at h
  · rename_i h1 h2 h3 h4 hid
    simp only [Prod.mk.injEq, true_and] at h
    subst h
    refine ⟨fun d => { d with ResolutionUnit := e.ValueOffset % 65536 }, none, none, none,
      rfl, rfl, rfl, rfl, ?_, ?_, ?_, ?_, ?_, ?_, ?_⟩
    all_goals simp [h3, h4]
  split at h
  · rename_i h1 h2 h3 h4 h5 hid
    rcases hX : ReadAsciiString f e with ⟨x | v, g1⟩
    · rw [hX] at h; simp at h
    · rw [hX] at h hA
      simp only [Prod.mk.injEq, true_and] at h
      subst h
      refine ⟨id, some v, none, none, ?_, ?_, hA.2.2.2.2.2.2.1, hA.2.2.2.2.2.2.2,
        ?_, ?_, ?_, ?_, ?_, ?_, ?_⟩
      · dsimp only; rw [hA.2.2.2.2.1]; simp
      · dsimp only; rw [hA.2.2.2.2.2.1]
      all_goals first | (simp [h3, h4]; done) | simp [hid]
  split at h
  · rename_i h1 h2 h3 h4 h5 h6 hid
    rcases hX : ReadAsciiString f e with ⟨x | v, g1⟩
    · rw [hX] at h; simp at h
    · rw [hX] at h hA
      simp only [Prod.mk.injEq, true_and] at h
      subst h
      refine ⟨id, none, some v, none, ?_, hA.2.2.2.2.2.1, ?_, hA.2.2.2.2.2.2.2,
        ?_, ?_, ?_, ?_, ?_, ?_, ?_⟩
      · dsimp only; rw [hA.2.2.2.2.1]; simp
      · dsimp only; rw [hA.2.2.2.2.2.2.1]
      all_goals first | (simp [h3, h4]; done) | simp [hid]
  split at h
  · rename_i h1 h2 h3 h4 h5 h6 h7 hid
    rcases hX : ReadAsciiString f e with ⟨x | v, g1⟩
    · rw [hX] at h; simp at h
    · rw [hX] at h hA
      simp only [Prod.mk.injEq, true_and] at h
      subst h
      refine ⟨id, none, none, some v, ?_, hA.2.2.2.2.2.1, hA.2.2.2.2.2.2.1, ?_,
        ?_, ?_, ?_, ?_, ?_, ?_, ?_⟩
      · dsimp only; rw [hA.2.2.2.2.1]; simp
      · dsimp only; rw [hA.2.2.2.2.2.2.2]
      all_goals first | (simp [h3, h4]; done) | simp [hid]
  · rename_i h1 h2 h3 h4 h5 h6 h7 h8
    simp only [Prod.mk.injEq, true_and] at h
    subst h
    refine ⟨id, none, none, none, by simp, rfl, rfl, rfl, ?_, ?_, ?_, ?_, ?_, ?_, ?_⟩
    all_goals simp [h3, h4]

end TiffFile

namespace TiffFile

theorem scanPage_preserve {α : Type} (get : TiffFile → α) (u : List Byte) (p : Nat)
    (P : TiffIfdEntry → Prop)
    (hstep : ∀ f e g, scanEntry u p f e = (.ok (), g) → P e → get g = get f) :
    ∀ (dir : List TiffIfdEntry) (f g : TiffFile), scanPage u p f dir = (.ok (), g) →
      (∀ e ∈ dir, P e) → get g = get f := by
  intro dir
  induction dir with
  | nil =>
    intro f g h _
    simp only [scanPage, Prod.mk.injEq, true_and] at h
    rw [h]
  | cons entry rest ih =>
    intro f g h hP
    rw [scanPage] at h
    rcases hS : scanEntry u p f entry with ⟨x | v, f1⟩
    · rw [hS] at h; simp at h
    · rw [hS] at h
      dsimp only at h
      rw [ih f1 g h (fun e he => hP e (List.mem_cons_of_mem _ he))]
      exact hstep f entry f1 hS (hP entry (List.mem_cons_self _ _))

theorem scanPage_last {α : Type} (get : TiffFile → Option α) (u : List Byte) (p t : Nat)
    (val : TiffIfdEntry → α)
    (hother : ∀ f e g, scanEntry u p f e = (.ok (), g) → e.TagId ≠ t → get g = get f)
    (hsame : ∀ f e g, scanEntry u p f e = (.ok (), g) → e.TagId = t →
      get g = (get f).map (fun _ => val e)) :
    ∀ (dir : List TiffIfdEntry) (f g : TiffFile), scanPage u p f dir = (.ok (), g) →
      get g = (get f).map (fun a =>
        match lastTag t dir with
        | some e => val e
        | none => a) := by
  intro dir
  induction dir with
  | nil =>
    intro f g h
    simp only [scanPage, Prod.mk.injEq, true_and] at h
    rw [h]
    simp [lastTag]
  | cons entry rest ih =>
    intro f g h
    rw [scanPage] at h
    rcases hS : scanEntry u p f entry with ⟨x | v, f1⟩
    · rw [hS] at h; simp at h
    · rw [hS] at h
      dsimp only at h
      rw [ih f1 g h]
      by_cases hid : entry.TagId = t
      · rw [hsame f entry f1 hS hid, Option.map_map]
        congr 1
        funext a
        simp only [Function.comp, lastTag, hid, if_true]
        cases lastTag t rest <;> rfl
      · rw [hother f entry f1 hS hid]
        congr 1
        funext a
        simp only [lastTag, hid, if_false]
        cases lastTag t rest <;> rfl

theorem scanPages_preserve {α : Type} (get : TiffFile → α) (u : List Byte) (p : Nat)
    (hstep : ∀ q f e g, scanEntry u q f e = (.ok (), g) → q ≠ p → get g = get f) :
    ∀ (n p0 : Nat) (f g : TiffFile), scanPages u n p0 f = (.ok (), g) →
      (p < p0 ∨ p0 + n ≤ p) → get g = get f := by
  intro n
  induction n with
  | zero =>
    intro p0 f g h _
    simp only [scanPages, Prod.mk.injEq, true_and] at h
    rw [h]
  | succ n ih =>
    intro p0 f g h hp
    rw [scanPages] at h
    rcases hS : scanPage u p0 f (f.m_PageIfdCollection.getD p0 []) with ⟨x | v, f1⟩
    · rw [hS] at h; simp at h
    · rw [hS] at h
      dsimp only at h
      rw [ih (p0 + 1) f1 g h (by omega)]
      exact scanPage_preserve get u p0 (fun _ => True)
        (fun f e g hs _ => hstep p0 f e g hs (by omega)) _ f f1 hS (fun _ _ => trivial)

theorem scanPages_at {α : Type} (get : TiffFile → α) (u : List Byte) (p : Nat)
    (hstep : ∀ q f e g, scanEntry u q f e = (.ok (), g) → q ≠ p → get g = get f) :
    ∀ (n p0 : Nat) (f g : TiffFile), scanPages u n p0 f = (.ok (), g) →
      p0 ≤ p → p < p0 + n →
      ∃ f1 g1, get f1 = get f ∧
        scanPage u p f1 (f.m_PageIfdCollection.getD p []) = (.ok (), g1) ∧ get g = get g1 := by
  intro n
  induction n with
  | zero => intro p0 f g _ h1 h2; omega
  | succ n ih =>
    intro p0 f g h h1 h2
    rw [scanPages] at h
    have hfr := scanPage_frame u p0 (f.m_PageIfdCollection.getD p0 []) f
    rcases hS : scanPage u p0 f (f.m_PageIfdCollection.getD p0 []) with ⟨x | v, f1⟩
    · rw [hS] at h; simp at h
    · rw [hS] at h hfr
      dsimp only at h
      by_cases hp : p0 = p
      · subst hp
        exact ⟨f, f1, rfl, hS, scanPages_preserve get u p0 hstep n (p0 + 1) f1 g h (by omega)⟩
      · obtain ⟨f2, g2, e1, e2, e3⟩ := ih (p0 + 1) f1 g h (by omega) (by omega)
        refine ⟨f2, g2, ?_, ?_, e3⟩
        · rw [e1]
          exact scanPage_preserve get u p0 (fun _ => True)
            (fun f e g hs _ => hstep p0 f e g hs hp) _ f f1 hS (fun _ _ => trivial)
        · rw [← hfr.2.1]; exact e2

theorem getElem?_modify_map {β : Type} (l : List TiffDimensions)
    (upd : TiffDimensions → TiffDimensions) (p q : Nat) (proj : TiffDimensions → β)
    (h : p ≠ q ∨ ∀ d, proj (upd d) = proj d) :
    ((l.modify upd p)[q]?).map proj = (l[q]?).map proj := by
  rw [List.getElem?_modify]
  cases l[q]? with
  | none => rfl
  | some d =>
    simp only [Option.map_eq_map, Option.map_some', Option.some.injEq]
    rcases h with h | h
    · rw [if_neg h]
    · split
      · exact h d
      · rfl

theorem getElem?_modify_same {β : Type} (l : List TiffDimensions)
    (upd : TiffDimensions → TiffDimensions) (p : Nat) (proj : TiffDimensions → β) :
    ((l.modify upd p)[p]?).map proj = (l[p]?).map (fun d => proj (upd d)) := by
  rw [List.getElem?_modify]
  cases l[p]? with
  | none => rfl
  | some d => simp

theorem getElem?_set_option (l : List (List Byte)) (s : Option (List Byte)) (p q : Nat)
    (h : p ≠ q ∨ s = none) :
    (match s with | none => l | some v => l.set p v)[q]? = l[q]? := by
  cases s with
  | none => rfl
  | some v =>
    rcases h with h | h
    · simp [List.getElem?_set, h]
    · cases h

end TiffFile

namespace TiffFile

theorem scanEntry_dims_page {β : Type} (proj : TiffDimensions → β) (u : List Byte) (p q : Nat)
    (f g : TiffFile) (e : TiffIfdEntry) (h : scanEntry u q f e = (.ok (), g)) (hq : q ≠ p) :
    (g.m_Dimensions[p]?).map proj = (f.m_Dimensions[p]?).map proj := by
  obtain ⟨upd, s1, s2, s3, hd, -⟩ := scanEntry_cases u q f g e h
  rw [hd]
  exact getElem?_modify_map _ upd q p proj (Or.inl hq)

theorem scanEntry_strings_page (u : List Byte) (p q : Nat)
    (f g : TiffFile) (e : TiffIfdEntry) (h : scanEntry u q f e = (.ok (), g)) (hq : q ≠ p) :
    g.m_Software[p]? = f.m_Software[p]? ∧ g.m_DateTime[p]? = f.m_DateTime[p]? ∧
      g.m_Artist[p]? = f.m_Artist[p]? := by
  obtain ⟨upd, s1, s2, s3, -, h1, h2, h3, -⟩ := scanEntry_cases u q f g e h
  rw [h1, h2, h3]
  exact ⟨getElem?_set_option _ s1 q p (Or.inl hq), getElem?_set_option _ s2 q p (Or.inl hq),
    getElem?_set_option _ s3 q p (Or.inl hq)⟩

theorem scanPages_width (u : List Byte) (n p : Nat) (f g : TiffFile)
    (h : scanPages u n 0 f = (.ok (), g)) (hp : p < n) :
    (g.m_Dimensions[p]?).map (fun d => d.Width) = (f.m_Dimensions[p]?).map (fun d =>
      match lastTag TiffTagId.TIFF_IMAGE_WIDTH_TAG (f.m_PageIfdCollection.getD p []) with
      | some e => e.ValueOffset
      | none => d.Width) := by
  obtain ⟨f1, g1, e1, e2, e3⟩ := scanPages_at
    (fun f => (f.m_Dimensions[p]?).map (fun d => d.Width)) u p
    (fun q f e g hs hq => scanEntry_dims_page (fun d => d.Width) u p q f g e hs hq) n 0 f g h (by omega) (by omega)
  rw [e3, scanPage_last (fun f => (f.m_Dimensions[p]?).map (fun d => d.Width)) u p
    TiffTagId.TIFF_IMAGE_WIDTH_TAG (fun e => e.ValueOffset) ?_ ?_ _ f1 g1 e2]
  · rw [e1, Option.map_map]
    rfl
  · intro f e g hs hid
    obtain ⟨upd, s1, s2, s3, hd, -, -, -, hw, -⟩ := scanEntry_cases u p f g e hs
    dsimp only
    rw [hd]
    exact getElem?_modify_map _ upd p p _ (Or.inr (fun d => by rw [hw d, if_neg hid]))
  · intro f e g hs hid
    obtain ⟨upd, s1, s2, s3, hd, -, -, -, hw, -⟩ := scanEntry_cases u p f g e hs
    dsimp only
    rw [hd, getElem?_modify_same, Option.map_map]
    congr 1
    funext d
    simp only [Function.comp, hw d, if_pos hid]

theorem scanPages_height (u : List Byte) (n p : Nat) (f g : TiffFile)
    (h : scanPages u n 0 f = (.ok (), g)) (hp : p < n) :
    (g.m_Dimensions[p]?).map (fun d => d.Height) = (f.m_Dimensions[p]?).map (fun d =>
      match lastTag TiffTagId.TIFF_IMAGE_LENGTH_TAG (f.m_PageIfdCollection.getD p []) with
      | some e => e.ValueOffset
      | none => d.Height) := by
  obtain ⟨f1, g1, e1, e2, e3⟩ := scanPages_at
    (fun f => (f.m_Dimensions[p]?).map (fun d => d.Height)) u p
    (fun q f e g hs hq => scanEntry_dims_page (fun d => d.Height) u p q f g e hs hq) n 0 f g h (by omega) (by omega)
  rw [e3, scanPage_last (fun f => (f.m_Dimensions[p]?).map (fun d => d.Height)) u p
    TiffTagId.TIFF_IMAGE_LENGTH_TAG (fun e => e.ValueOffset) ?_ ?_ _ f1 g1 e2]
  · rw [e1, Option.map_map]
    rfl
  · intro f e g hs hid
    obtain ⟨upd, s1, s2, s3, hd, -, -, -, -, hw, -⟩ := scanEntry_cases u p f g e hs
    dsimp only
    rw [hd]
    exact getElem?_modify_map _ upd p p _ (Or.inr (fun d => by rw [hw d, if_neg hid]))
  · intro f e g hs hid
    obtain ⟨upd, s1, s2, s3, hd, -, -, -, -, hw, -⟩ := scanEntry_cases u p f g e hs
    dsimp only
    rw [hd, getElem?_modify_same, Option.map_map]
    congr 1
    funext d
    simp only [Function.comp, hw d, if_pos hid]

theorem scanPages_absent {α : Type} (get : TiffFile → α) (u : List Byte) (n p t : Nat)
    (hpage : ∀ q f e g, scanEntry u q f e = (.ok (), g) → q ≠ p → get g = get f)
    (htag : ∀ f e g, scanEntry u p f e = (.ok (), g) → e.TagId ≠ t → get g = get f)
    (f g : TiffFile) (h : scanPages u n 0 f = (.ok (), g)) (hp : p < n)
    (habs : ∀ e ∈ f.m_PageIfdCollection.getD p [], e.TagId ≠ t) : get g = get f := by
  obtain ⟨f1, g1, e1, e2, e3⟩ := scanPages_at get u p hpage n 0 f g h (by omega) (by omega)
  rw [e3, ← e1]
  exact scanPage_preserve get u p (fun e => e.TagId ≠ t) htag _ f1 g1 e2 habs

theorem scanPages_resolutionX (u : List Byte) (n p : Nat) (f g : TiffFile)
    (h : scanPages u n 0 f = (.ok (), g)) (hp : p < n)
    (habs : ∀ e ∈ f.m_PageIfdCollection.getD p [],
      e.TagId ≠ TiffTagId.TIFF_IMAGE_XRESOLUTION) :
    (g.m_Dimensions[p]?).map (fun d => d.ResolutionX) =
      (f.m_Dimensions[p]?).map (fun d => d.ResolutionX) := by
  refine scanPages_absent (fun f => (f.m_Dimensions[p]?).map (fun d => d.ResolutionX)) u n p
    TiffTagId.TIFF_IMAGE_XRESOLUTION
    (fun q f e g hs hq => scanEntry_dims_page (fun d => d.ResolutionX) u p q f g e hs hq) ?_ f g h hp habs
  intro f e g hs hid
  obtain ⟨upd, s1, s2, s3, hd, -, -, -, -, -, hx, -⟩ := scanEntry_cases u p f g e hs
  dsimp only
  rw [hd]
  exact getElem?_modify_map _ upd p p _ (Or.inr (hx hid))

theorem scanPages_resolutionY (u : List Byte) (n p : Nat) (f g : TiffFile)
    (h : scanPages u n 0 f = (.ok (), g)) (hp : p < n)
    (habs : ∀ e ∈ f.m_PageIfdCollection.getD p [],
      e.TagId ≠ TiffTagId.TIFF_IMAGE_YRESOLUTION) :
    (g.m_Dimensions[p]?).map (fun d => d.ResolutionY) =
      (f.m_Dimensions[p]?).map (fun d => d.ResolutionY) := by
  refine scanPages_absent (fun f => (f.m_Dimensions[p]?).map (fun d => d.ResolutionY)) u n p
    TiffTagId.TIFF_IMAGE_YRESOLUTION
    (fun q f e g hs hq => scanEntry_dims_page (fun d => d.ResolutionY) u p q f g e hs hq) ?_ f g h hp habs
  intro f e g hs hid
  obtain ⟨upd, s1, s2, s3, hd, -, -, -, -, -, -, hy, -⟩ := scanEntry_cases u p f g e hs
  dsimp only
  rw [hd]
  exact getElem?_modify_map _ upd p p _ (Or.inr (hy hid))

theorem scanPages_software (u : List Byte) (n p : Nat) (f g : TiffFile)
    (h : scanPages u n 0 f = (.ok (), g)) (hp : p < n)
    (habs : ∀ e ∈ f.m_PageIfdCollection.getD p [], e.TagId ≠ TiffTagId.TIFF_IMAGE_SOFTWARE) :
    g.m_Software[p]? = f.m_Software[p]? := by
  refine scanPages_absent (fun f => f.m_Software[p]?) u n p TiffTagId.TIFF_IMAGE_SOFTWARE
    (fun q f e g hs hq => (scanEntry_strings_page u p q f g e hs hq).1) ?_ f g h hp habs
  intro f e g hs hid
  obtain ⟨upd, s1, s2, s3, -, h1, -, -, -, -, -, -, hs1, -⟩ := scanEntry_cases u p f g e hs
  dsimp only
  rw [h1]
  exact getElem?_set_option _ s1 p p (Or.inr (hs1 hid))

theorem scanPages_dateTime (u : List Byte) (n p : Nat) (f g : TiffFile)
    (h : scanPages u n 0 f = (.ok (), g)) (hp : p < n)
    (habs : ∀ e ∈ f.m_PageIfdCollection.getD p [], e.TagId ≠ TiffTagId.TIFF_IMAGE_DATETIME) :
    g.m_DateTime[p]? = f.m_DateTime[p]? := by
  refine scanPages_absent (fun f => f.m_DateTime[p]?) u n p TiffTagId.TIFF_IMAGE_DATETIME
    (fun q f e g hs hq => (scanEntry_strings_page u p q f g e hs hq).2.1) ?_ f g h hp habs
  intro f e g hs hid
  obtain ⟨upd, s1, s2, s3, -, -, h2, -, -, -, -, -, -, hs2, -⟩ := scanEntry_cases u p f g e hs
  dsimp only
  rw [h2]
  exact getElem?_set_option _ s2 p p (Or.inr (hs2 hid))

theorem scanPages_artist (u : List Byte) (n p : Nat) (f g : TiffFile)
    (h : scanPages u n 0 f = (.ok (), g)) (hp : p < n)
    (habs : ∀ e ∈ f.m_PageIfdCollection.getD p [], e.TagId ≠ TiffTagId.TIFF_IMAGE_ARTIST) :
    g.m_Artist[p]? = f.m_Artist[p]? := by
  refine scanPages_absent (fun f => f.m_Artist[p]?) u n p TiffTagId.TIFF_IMAGE_ARTIST
    (fun q f e g hs hq => (scanEntry_strings_page u p q f g e hs hq).2.2) ?_ f g h hp habs
  intro f e g hs hid
  obtain ⟨upd, s1, s2, s3, -, -, -, h3, -, -, -, -, -, -, hs3⟩ := scanEntry_cases u p f g e hs
  dsimp only
  rw [h3]
  exact getElem?_set_option _ s3 p p (Or.inr (hs3 hid))

end TiffFile

theorem TiffFile.getElem?_vector_resize_nil {α : Type} (n p : Nat) (d : α) (hp : p < n) :
    (vector_resize ([] : List α) n d)[p]? = some d := by
  simp [vector_resize, List.getElem?_replicate, hp]

/-- C15: when `ReadIfdCollection` on a freshly opened reader has returned, for every final
page position `p`, with `dir` the directory at that position of the final collection:
`GetDimensions(p)` returns dimensions whose `Width` and `Height` are the value fields of the
image-width and image-length tags of `dir` (0 when `dir` has no such tag), whose
`ResolutionX` / `ResolutionY` are 0 when `dir` has no such tag, and `GetSoftware(p)`,
`GetDateTime(p)`, `GetArtist(p)` return the empty string when `dir` has no such tag. -/
theorem C15_side_tables_follow_pages (file uninit : List Byte) (f g : TiffFile)
    (fuel p : Nat) (dir : List TiffIfdEntry)
    (hopen : TiffFile.openFile file = .ok f)
    (hret : TiffFile.ReadIfdCollection fuel uninit f = (.ok (), g))
    (hdir : g.m_PageIfdCollection[p]? = some dir) :
    ∃ d, g.GetDimensions p = .ok d ∧
      d.Width = tagValue TiffTagId.TIFF_IMAGE_WIDTH_TAG dir ∧
      d.Height = tagValue TiffTagId.TIFF_IMAGE_LENGTH_TAG dir ∧
      ((∀ e ∈ dir, e.TagId ≠ TiffTagId.TIFF_IMAGE_XRESOLUTION) → d.ResolutionX = 0) ∧
      ((∀ e ∈ dir, e.TagId ≠ TiffTagId.TIFF_IMAGE_YRESOLUTION) → d.ResolutionY = 0) ∧
      ((∀ e ∈ dir, e.TagId ≠ TiffTagId.TIFF_IMAGE_SOFTWARE) → g.GetSoftware p = .ok []) ∧
      ((∀ e ∈ dir, e.TagId ≠ TiffTagId.TIFF_IMAGE_DATETIME) → g.GetDateTime p = .ok []) ∧
      ((∀ e ∈ dir, e.TagId ≠ TiffTagId.TIFF_IMAGE_ARTIST) → g.GetArtist p = .ok []) := by
  obtain ⟨l1, l2, l3, l4⟩ := TiffFile.ReadIfdCollection_lengths fuel uninit f g hret
  obtain ⟨rdr, hdr, -, rfl⟩ := TiffFile.openFile_form file f hopen
  unfold TiffFile.ReadIfdCollection at hret
  obtain ⟨-, -, -, -, w5, w6, w7, w8⟩ := TiffFile.readDirectories_grows uninit fuel
    { (⟨⟨file, 8, false⟩, file.length, rdr, hdr, [], [], [], [], []⟩ : TiffFile) with
      m_Stream := ifstream.seekg ⟨file, 8, false⟩ hdr.OffsetFirstIfd }
  rcases hW : TiffFile.readDirectories uninit fuel
    { (⟨⟨file, 8, false⟩, file.length, rdr, hdr, [], [], [], [], []⟩ : TiffFile) with
      m_Stream := ifstream.seekg ⟨file, 8, false⟩ hdr.OffsetFirstIfd } with ⟨x | v, g1⟩
  · rw [hW] at hret; simp at hret
  · rw [hW] at hret w5 w6 w7 w8
    dsimp only at hret w5 w6 w7 w8
    obtain ⟨-, -, c3, c4, c5, c6⟩ := TiffFile.CorrectIfdOrder_frame uninit g1
    rcases hC : TiffFile.CorrectIfdOrder uninit g1 with ⟨x | v, g2⟩
    · rw [hC] at hret; simp at hret
    · rw [hC] at hret c3 c4 c5 c6
      dsimp only at hret c3 c4 c5 c6
      have s := TiffFile.scanPages_frame uninit g2.GetPageCount 0 (TiffFile.resizeSideTables g2)
      rw [hret] at s
      have hcoll : g.m_PageIfdCollection = g2.m_PageIfdCollection := s.2.1
      have hp : p < g2.GetPageCount := by
        rw [hcoll] at hdir
        have := (List.getElem?_eq_some_iff.mp hdir).1
        exact this
      have hgetD : (TiffFile.resizeSideTables g2).m_PageIfdCollection.getD p [] = dir := by
        rw [hcoll] at hdir
        simp [TiffFile.resizeSideTables, List.getD, hdir]
      have i1 : (TiffFile.resizeSideTables g2).m_Dimensions[p]? = some {} := by
        simp only [TiffFile.resizeSideTables, c3, w5]
        exact TiffFile.getElem?_vector_resize_nil _ _ _ hp
      have i2 : (TiffFile.resizeSideTables g2).m_Software[p]? = some [] := by
        simp only [TiffFile.resizeSideTables, c4, w6]
        exact TiffFile.getElem?_vector_resize_nil _ _ _ hp
      have i3 : (TiffFile.resizeSideTables g2).m_DateTime[p]? = some [] := by
        simp only [TiffFile.resizeSideTables, c5, w7]
        exact TiffFile.getElem?_vector_resize_nil _ _ _ hp
      have i4 : (TiffFile.resizeSideTables g2).m_Artist[p]? = some [] := by
        simp only [TiffFile.resizeSideTables, c6, w8]
        exact TiffFile.getElem?_vector_resize_nil _ _ _ hp
      have hpg : p < g.GetPageCount := by rw [TiffFile.GetPageCount, hcoll]; exact hp
      obtain ⟨d, hd⟩ : ∃ d, g.m_Dimensions[p]? = some d :=
        ⟨_, List.getElem?_eq_getElem (show p < g.m_Dimensions.length by omega)⟩
      have hW1 := TiffFile.scanPages_width uninit _ p _ g hret hp
      have hH1 := TiffFile.scanPages_height uninit _ p _ g hret hp
      rw [hgetD, i1, hd] at hW1 hH1
      simp only [Option.map_some', Option.some.injEq] at hW1 hH1
      have hng : ¬ p ≥ g.GetPageCount := by omega
      refine ⟨d, by simp [TiffFile.GetDimensions, TiffFile.AssertPageIndex, hng, hd],
        hW1, hH1, ?_, ?_, ?_, ?_, ?_⟩
      · intro habs
        have hx := TiffFile.scanPages_resolutionX uninit _ p _ g hret hp
          (by rw [hgetD]; exact habs)
        rw [i1, hd] at hx
        simpa using hx
      · intro habs
        have hx := TiffFile.scanPages_resolutionY uninit _ p _ g hret hp
          (by rw [hgetD]; exact habs)
        rw [i1, hd] at hx
        simpa using hx
      · intro habs
        have hx := TiffFile.scanPages_software uninit _ p _ g hret hp
          (by rw [hgetD]; exact habs)
        rw [i2] at hx
        simp [TiffFile.GetSoftware, TiffFile.AssertPageIndex, hng, hx]
      · intro habs
        have hx := TiffFile.scanPages_dateTime uninit _ p _ g hret hp
          (by rw [hgetD]; exact habs)
        rw [i3] at hx
        simp [TiffFile.GetDateTime, TiffFile.AssertPageIndex, hng, hx]
      · intro habs
        have hx := TiffFile.scanPages_artist uninit _ p _ g hret hp
          (by rw [hgetD]; exact habs)
        rw [i4] at hx
        simp [TiffFile.GetArtist, TiffFile.AssertPageIndex, hng, hx]

/-- C15, at page 0 of `reorderedFile`: the directory that the file holds second, moved to
position 0 by its page number, with image width 200. -/
theorem C15_side_tables_follow_pages_witness :
    ∃ d, reorderedRead.GetDimensions 0 = .ok d ∧
      d.Width = tagValue TiffTagId.TIFF_IMAGE_WIDTH_TAG (directoryEntries reorderedFile 38) ∧
      d.Height = tagValue TiffTagId.TIFF_IMAGE_LENGTH_TAG (directoryEntries reorderedFile 38) ∧
      ((∀ e ∈ directoryEntries reorderedFile 38,
        e.TagId ≠ TiffTagId.TIFF_IMAGE_XRESOLUTION) → d.ResolutionX = 0) ∧
      ((∀ e ∈ directoryEntries reorderedFile 38,
        e.TagId ≠ TiffTagId.TIFF_IMAGE_YRESOLUTION) → d.ResolutionY = 0) ∧
      ((∀ e ∈ directoryEntries reorderedFile 38, e.TagId ≠ TiffTagId.TIFF_IMAGE_SOFTWARE) →
        reorderedRead.GetSoftware 0 = .ok []) ∧
      ((∀ e ∈ directoryEntries reorderedFile 38, e.TagId ≠ TiffTagId.TIFF_IMAGE_DATETIME) →
        reorderedRead.GetDateTime 0 = .ok []) ∧
      ((∀ e ∈ directoryEntries reorderedFile 38, e.TagId ≠ TiffTagId.TIFF_IMAGE_ARTIST) →
        reorderedRead.GetArtist 0 = .ok []) :=
  C15_side_tables_follow_pages reorderedFile [] (opened reorderedFile 8) reorderedRead 2 0
    (directoryEntries reorderedFile 38) rfl rfl rfl

/-- C16, at page 1 and tag 0 of `twoPageFile` once `ReadIfdCollection` has returned. -/
theorem C16_accessors_bounds_checked_witness :
    (twoPageRead.GetPageCount ≤ 1 →
      twoPageRead.GetPageIfdCount 1 = .error .pageIndex ∧
      twoPageRead.GetDimensions 1 = .error .pageIndex ∧
      twoPageRead.GetSoftware 1 = .error .pageIndex ∧
      twoPageRead.GetDateTime 1 = .error .pageIndex ∧
      twoPageRead.GetArtist 1 = .error .pageIndex ∧
      twoPageRead.GetPageIfd 1 0 = .error .pageIndex) ∧
    (1 < twoPageRead.GetPageCount →
      ∃ dir d sw dt ar,
        twoPageRead.m_PageIfdCollection[1]? = some dir ∧
        twoPageRead.m_Dimensions[1]? = some d ∧ twoPageRead.m_Software[1]? = some sw ∧
        twoPageRead.m_DateTime[1]? = some dt ∧ twoPageRead.m_Artist[1]? = some ar ∧
        twoPageRead.GetPageIfdCount 1 = .ok dir.length ∧
        twoPageRead.GetDimensions 1 = .ok d ∧ twoPageRead.GetSoftware 1 = .ok sw ∧
        twoPageRead.GetDateTime 1 = .ok dt ∧ twoPageRead.GetArtist 1 = .ok ar ∧
        (dir.length ≤ 0 → twoPageRead.GetPageIfd 1 0 = .error .ifdIndex) ∧
        (0 < dir.length → ∃ e, dir[0]? = some e ∧ twoPageRead.GetPageIfd 1 0 = .ok e)) :=
  C16_accessors_bounds_checked 2 [] (opened twoPageFile 8) twoPageRead rfl 1 0

/-! ## The text of a mark: classification of the bytes of "OiAnText" -/

theorem shiftLeft_or_byte (a b : Byte) : (a.val <<< 8) ||| b.val = a.val * 256 + b.val := by
  have hb : b.val < 2 ^ 8 := b.isLt
  rw [Nat.shiftLeft_eq, Nat.mul_comm, ← Nat.mul_add_lt_is_or hb]

theorem toUnicode_eq (k : Nat) : ∀ (text : List Byte), text.length = 2 * k →
    toUnicode text = (List.range k).map
      (fun i => (byteAt text (2 * i)).val * 256 + (byteAt text (2 * i + 1)).val) := by
  induction k with
  | zero =>
    intro text h
    have : text = [] := List.length_eq_zero.mp (by omega)
    subst this
    rfl
  | succ k ih =>
    intro text h
    match text, h with
    | a :: b :: rest, h =>
      have hr : rest.length = 2 * k := by simp only [List.length_cons] at h; omega
      rw [toUnicode, ih rest hr, List.range_succ_eq_map, List.map_cons, List.map_map,
        shiftLeft_or_byte]
      congr 1

theorem isAnsi_eq_true_iff (text : List Byte) :
    isAnsi text = true ↔
      (text.length % 2 = 1 ∨ ∀ i, i + 1 < text.length → byteAt text i ≠ 0) := by
  unfold isAnsi
  rw [Nat.and_one_is_mod]
  by_cases hpar : text.length % 2 = 0
  · rw [if_pos hpar]
    simp only [Bool.not_eq_true', List.any_eq_false, beq_iff_eq]
    constructor
    · intro h
      right
      intro i hi hz
      have hmem : byteAt text i ∈ text.take (text.length - 1) := by
        rw [List.mem_iff_getElem]
        refine ⟨i, by rw [List.length_take]; omega, ?_⟩
        rw [List.getElem_take]
        simp [byteAt, List.getD, List.getElem?_eq_getElem (show i < text.length by omega)]
      exact h _ hmem hz
    · intro h
      rcases h with h | h
      · omega
      · intro x hx hz
        rw [List.mem_iff_getElem] at hx
        obtain ⟨i, hi, hxi⟩ := hx
        rw [List.length_take] at hi
        rw [List.getElem_take] at hxi
        apply h i (by omega)
        simp [byteAt, List.getD, List.getElem?_eq_getElem (show i < text.length by omega), hxi, hz]
  · rw [if_neg hpar]
    simp only [true_iff]
    left
    omega

namespace TiffWangMark

theorem Text_assign_Text (m : TiffWangMark) (g : Bool) (info : OIAN_TEXTPRIVDATA) :
    ((m.TextSetter g).assign g (fun p => { p with Text := info })).Text g = info := by
  cases g <;> rfl

theorem tier_AsciiText (m : TiffWangMark) (g : Bool) (text : List Byte) :
    (if g then ((m.AsciiTextSetter g).assign g (fun p => { p with AsciiText := text })).m_Global
      else ((m.AsciiTextSetter g).assign g
        (fun p => { p with AsciiText := text })).m_Local).AsciiText = text ∧
    ((m.AsciiTextSetter g).assign g (fun p => { p with AsciiText := text })).IsSet
      (if g then .GlobalAsciiTextSet else .LocalAsciiTextSet) = true := by
  refine ⟨by cases g <;> rfl, ?_⟩
  rw [IsSet_assign, AsciiTextSetter,
    IsSet_return_setter_either _ _ _ _ _ (by decide) (by decide) (by cases g <;> decide)]
  simp

theorem tier_UnicodeText (m : TiffWangMark) (g : Bool) (text : List Nat) :
    (if g then ((m.UnicodeTextSetter g).assign g (fun p => { p with UnicodeText := text })).m_Global
      else ((m.UnicodeTextSetter g).assign g
        (fun p => { p with UnicodeText := text })).m_Local).UnicodeText = text ∧
    ((m.UnicodeTextSetter g).assign g (fun p => { p with UnicodeText := text })).IsSet
      (if g then .GlobalUnicodeTextSet else .LocalUnicodeTextSet) = true := by
  refine ⟨by cases g <;> rfl, ?_⟩
  rw [IsSet_assign, UnicodeTextSetter,
    IsSet_return_setter_either _ _ _ _ _ (by decide) (by decide) (by cases g <;> decide)]
  simp

end TiffWangMark

/-- What a successful pass through the branch "OiAnText" leaves in the tier it writes. -/
theorem processAnText_true (r r2 : WangAnnotationReader) (mark m2 : TiffWangMark)
    (isGlobal : Bool) (h : processAnText r mark isGlobal = (true, r2, m2)) :
    ∃ b : List Byte,
      b = (r.advance 16).bytesAtCursor (decodeText (r.bytesAtCursor 16)).uAnoTextLength ∧
      b.length = (decodeText (r.bytesAtCursor 16)).uAnoTextLength ∧
      (isAnsi b = true →
        (if isGlobal then m2.m_Global else m2.m_Local).AsciiText = b ∧
        m2.IsSet (if isGlobal then .GlobalAsciiTextSet else .LocalAsciiTextSet) = true) ∧
      (isAnsi b = false →
        (if isGlobal then m2.m_Global else m2.m_Local).UnicodeText = toUnicode b ∧
        m2.IsSet (if isGlobal then .GlobalUnicodeTextSet else .LocalUnicodeTextSet) = true) := by
  unfold processAnText at h
  rw [WangAnnotationReader.ReadStruct_eq] at h
  by_cases h16 : r.rest.length < 16
  · rw [if_pos h16] at h
    simp only [Prod.mk.injEq, Bool.false_eq_true, false_and] at h
  rw [if_neg h16] at h
  dsimp only at h
  rw [TiffWangMark.Text_assign_Text] at h
  by_cases h0 : (decodeText (r.rest.take 16)).uAnoTextLength = 0
  · rw [if_pos h0] at h
    simp only [Prod.mk.injEq, true_and] at h
    obtain ⟨-, hm⟩ := h
    subst hm
    refine ⟨[], ?_, ?_, ?_, ?_⟩
    · simp [WangAnnotationReader.bytesAtCursor, h0]
    · simp [WangAnnotationReader.bytesAtCursor, h0]
    · intro _
      exact TiffWangMark.tier_AsciiText _ _ _
    · intro hf
      exact absurd hf (by decide)
  rw [if_neg h0, WangAnnotationReader.ReadBytes_eq] at h
  by_cases hlen : (r.advance 16).rest.length < (decodeText (r.rest.take 16)).uAnoTextLength
  · rw [if_pos hlen] at h
    simp only [Prod.mk.injEq, Bool.false_eq_true, false_and] at h
  rw [if_neg hlen] at h
  dsimp only at h
  by_cases hansi : isAnsi ((r.advance 16).rest.take (decodeText (r.rest.take 16)).uAnoTextLength) = true
  · rw [if_pos hansi] at h
    simp only [Prod.mk.injEq, true_and] at h
    obtain ⟨-, hm⟩ := h
    subst hm
    refine ⟨_, rfl, ?_, ?_, ?_⟩
    · simp only [WangAnnotationReader.bytesAtCursor, List.length_take]
      omega
    · intro _
      exact TiffWangMark.tier_AsciiText _ _ _
    · intro hf
      rw [WangAnnotationReader.bytesAtCursor, WangAnnotationReader.bytesAtCursor, hansi] at hf
      cases hf
  · rw [if_neg hansi] at h
    simp only [Prod.mk.injEq, true_and] at h
    obtain ⟨-, hm⟩ := h
    subst hm
    refine ⟨_, rfl, ?_, ?_, ?_⟩
    · simp only [WangAnnotationReader.bytesAtCursor, List.length_take]
      omega
    · intro ht
      rw [WangAnnotationReader.bytesAtCursor, WangAnnotationReader.bytesAtCursor] at ht
      exact absurd ht hansi
    · intro _
      exact TiffWangMark.tier_UnicodeText _ _ _

theorem name_OiAnText_branch (r : WangAnnotationReader) (block : TiffWangNamedBlock)
    (mark : TiffWangMark) (isGlobal : Bool)
    (hname : block.Name.take (strnlen_s block.Name 8) = ascii "OiAnText") :
    namedBlockBranch r block mark isGlobal = .ok (processAnText r mark isGlobal) := by
  have n1 : ascii "OiAnText" ≠ ascii "OiAnoDat" := by decide
  have n2 : ascii "OiAnText" ≠ ascii "OiFilNam" := by decide
  have n3 : ascii "OiAnText" ≠ ascii "OiDIB" := by decide
  have n4 : ascii "OiAnText" ≠ ascii "OiGroup" := by decide
  have n5 : ascii "OiAnText" ≠ ascii "OiIndex" := by decide
  unfold namedBlockBranch
  simp only [hname, n1, n2, n3, n4, n5, if_false, if_true]

/-- A named block processed with success: its branch ended with success and the final
`Seek` put the cursor at `next`. -/
theorem ProcessNamedBlock_success (r r1 : WangAnnotationReader) (block : TiffWangNamedBlock)
    (mark m1 : TiffWangMark) (is16bit isGlobal : Bool)
    (h : ProcessNamedBlock r block mark is16bit isGlobal = .ok (true, r1, m1)) :
    (∃ r2, namedBlockBranch r block mark isGlobal = .ok (true, r2, m1)) ∧
      r1.m_Offset = r.m_Offset + block.Size + (if is16bit then 4 else 0) ∧
      r1.m_Offset < r1.m_Size := by
  unfold ProcessNamedBlock at h
  simp only at h
  split at h
  next => cases h
  next => cases h
  next r2 m2 hb =>
    have hnext : (r.m_Offset : Int) + (block.Size : Int) + (if is16bit = true then 4 else 0) =
        ((r.m_Offset + block.Size + (if is16bit = true then 4 else 0) : Nat) : Int) := by
      split_ifs <;> push_cast <;> ring
    rw [hnext, WangAnnotationReader.Seek_beg_eq] at h
    by_cases hs : r2.m_Size ≤ r.m_Offset + block.Size + (if is16bit = true then 4 else 0)
    · rw [if_pos hs] at h
      cases h
    rw [if_neg hs] at h
    simp only [Except.ok.injEq, Prod.mk.injEq, true_and] at h
    obtain ⟨h1, h2⟩ := h
    subst h1 h2
    refine ⟨⟨r2, hb⟩, rfl, ?_⟩
    simp only [WangAnnotationReader.m_Size] at hs ⊢
    omega

/-! ## The annotation reader: the cursor stays inside the payload -/

namespace WangAnnotationReader

theorem staysInside_refl (r : WangAnnotationReader) : r.staysInside r := ⟨rfl, rfl, id⟩

theorem staysInside_trans {r r1 r2 : WangAnnotationReader} (h1 : r.staysInside r1)
    (h2 : r1.staysInside r2) : r.staysInside r2 :=
  ⟨h2.1.trans h1.1, h2.2.1.trans h1.2.1, fun h => h2.2.2 (h1.2.2 h)⟩

theorem staysInside_advance (r : WangAnnotationReader) (n : Nat)
    (h : ¬ r.rest.length < n) : r.staysInside (r.advance n) := by
  rw [length_rest] at h
  refine ⟨rfl, rfl, fun h0 => ?_⟩
  rw [m_Size_advance, m_Offset_advance]
  omega

theorem ReadStruct_some {α : Type} (r r1 : WangAnnotationReader) (n : Nat)
    (decode : List Byte → α) (v : α) (h : r.ReadStruct n decode = some (v, r1)) :
    r1 = r.advance n ∧ n ≤ r.m_Size - r.m_Offset ∧ (r.bytesAtCursor n).length = n ∧
      r.staysInside r1 := by
  rw [ReadStruct_eq] at h
  split_ifs at h with hl
  simp only [Option.some.injEq, Prod.mk.injEq] at h
  obtain ⟨-, h⟩ := h
  subst h
  refine ⟨rfl, ?_, ?_, staysInside_advance r n hl⟩
  · rw [length_rest] at hl; omega
  · rw [bytesAtCursor, List.length_take]; omega

theorem ReadString_some (r r1 : WangAnnotationReader) (n : Nat) (v : List Byte)
    (h : r.ReadString n = some (v, r1)) :
    r1 = r.advance n ∧ n ≤ r.m_Size - r.m_Offset ∧ v.length = n ∧ r.staysInside r1 := by
  rw [ReadString_eq] at h
  split_ifs at h with hl
  simp only [Option.some.injEq, Prod.mk.injEq] at h
  obtain ⟨hv, h⟩ := h
  subst h hv
  refine ⟨rfl, ?_, ?_, staysInside_advance r n hl⟩
  · rw [length_rest] at hl; omega
  · rw [List.length_take]; omega

theorem ReadBytes_some (r r1 : WangAnnotationReader) (n : Nat) (v : List Byte)
    (h : r.ReadBytes n = some (v, r1)) :
    r1 = r.advance n ∧ n ≤ r.m_Size - r.m_Offset ∧ v.length = n ∧ r.staysInside r1 := by
  rw [ReadBytes_eq] at h
  split_ifs at h with hl
  simp only [Option.some.injEq, Prod.mk.injEq] at h
  obtain ⟨hv, h⟩ := h
  subst h hv
  refine ⟨rfl, ?_, ?_, staysInside_advance r n hl⟩
  · rw [length_rest] at hl; omega
  · rw [List.length_take]; omega

theorem ReadScalar32_ok (r r1 : WangAnnotationReader) (v : Nat)
    (h : r.ReadScalar32 = .ok (v, r1)) :
    r1 = r.advance 4 ∧ 4 ≤ r.m_Size - r.m_Offset ∧ (r.bytesAtCursor 4).length = 4 ∧
      r.staysInside r1 := by
  have hq : r.ReadScalar32 =
      if r.rest.length < 4 then .error .insufficientData
      else .ok (u32At (r.rest.take 4) 0, r.advance 4) := by
    simp only [ReadScalar32, AssertSizeLeft, SizeLeft_eq, bytesAtCursor, advance]
    split_ifs <;> rfl
  rw [hq] at h
  split_ifs at h with hl
  simp only [Except.ok.injEq, Prod.mk.injEq] at h
  obtain ⟨-, h⟩ := h
  subst h
  refine ⟨rfl, ?_, ?_, staysInside_advance r 4 hl⟩
  · rw [length_rest] at hl; omega
  · rw [bytesAtCursor, List.length_take]; omega

theorem Seek_ok (r r1 : WangAnnotationReader) (offset : Int) (dir : seekdir)
    (h : r.Seek offset dir = .ok r1) :
    r1.m_AnnotationData = r.m_AnnotationData ∧ r1.m_Handler = r.m_Handler ∧
      r1.m_Offset < r1.m_Size := by
  unfold Seek at h
  cases dir <;> simp only at h <;> split_ifs at h with hc <;>
    simp only [Except.ok.injEq] at h <;> subst h <;>
    refine ⟨rfl, rfl, ?_⟩ <;> simp only [m_Size] at hc ⊢ <;> omega

theorem Seek_inside (r r1 : WangAnnotationReader) (offset : Int) (dir : seekdir)
    (h : r.Seek offset dir = .ok r1) : r.staysInside r1 :=
  ⟨(Seek_ok r r1 offset dir h).1, (Seek_ok r r1 offset dir h).2.1,
    fun _ => Nat.le_of_lt (Seek_ok r r1 offset dir h).2.2⟩

end WangAnnotationReader

theorem readPointList_inside (isGlobal : Bool) (n i : Nat) (r : WangAnnotationReader)
    (mark : TiffWangMark) : r.staysInside (readPointList isGlobal n i r mark).2.1 := by
  induction n generalizing i r mark with
  | zero => exact WangAnnotationReader.staysInside_refl r
  | succ k ih =>
    rw [readPointList]
    cases hread : r.ReadStruct 8 decodePOINT with
    | none => exact WangAnnotationReader.staysInside_refl r
    | some p =>
      obtain ⟨pt, r1⟩ := p
      simp only
      exact WangAnnotationReader.staysInside_trans (WangAnnotationReader.ReadStruct_some _ _ _ _ _ hread).2.2.2 (ih _ _ _)

theorem processPoints_inside (r : WangAnnotationReader) (mark : TiffWangMark) (isGlobal : Bool)
    (b : Bool) (r1 : WangAnnotationReader) (m1 : TiffWangMark)
    (h : processPoints r mark isGlobal = .ok (b, r1, m1)) : r.staysInside r1 := by
  unfold processPoints at h
  simp only at h
  cases hread : r.ReadStruct 8 decodePoints with
  | none =>
    rw [hread] at h
    simp only [Except.ok.injEq, Prod.mk.injEq] at h
    rw [← h.2.1]
    exact WangAnnotationReader.staysInside_refl r
  | some p =>
    obtain ⟨pts, r2⟩ := p
    rw [hread] at h
    simp only at h
    split at h
    next => cases h
    next points hP =>
      split_ifs at h
      simp only [Except.ok.injEq] at h
      have h2 := congrArg (fun t => t.2.1) h
      simp only at h2
      rw [← h2]
      exact WangAnnotationReader.staysInside_trans (WangAnnotationReader.ReadStruct_some _ _ _ _ _ hread).2.2.2 (readPointList_inside _ _ _ _ _)

theorem processRotation_inside (r : WangAnnotationReader) (mark : TiffWangMark) (isGlobal : Bool) :
    r.staysInside (processRotation r mark isGlobal).2.1 := by
  unfold processRotation
  simp only
  cases hread : r.ReadStruct 56 decodeRotation with
  | none => exact WangAnnotationReader.staysInside_refl r
  | some p => exact (WangAnnotationReader.ReadStruct_some _ _ _ _ _ hread).2.2.2

theorem processFilNam_inside (r : WangAnnotationReader) (block : TiffWangNamedBlock)
    (mark : TiffWangMark) (isGlobal : Bool) :
    r.staysInside (processFilNam r block mark isGlobal).2.1 := by
  unfold processFilNam
  simp only
  cases hread : r.ReadString block.Size with
  | none => exact WangAnnotationReader.staysInside_refl r
  | some p => exact (WangAnnotationReader.ReadString_some _ _ _ _ hread).2.2.2

theorem processDIB_inside (r : WangAnnotationReader) (block : TiffWangNamedBlock)
    (mark : TiffWangMark) (isGlobal : Bool) :
    r.staysInside (processDIB r block mark isGlobal).2.1 := by
  unfold processDIB
  simp only
  cases hread : r.ReadBytes block.Size with
  | none => exact WangAnnotationReader.staysInside_refl r
  | some p => exact (WangAnnotationReader.ReadBytes_some _ _ _ _ hread).2.2.2

theorem processGroup_inside (r : WangAnnotationReader) (block : TiffWangNamedBlock)
    (mark : TiffWangMark) (isGlobal : Bool) :
    r.staysInside (processGroup r block mark isGlobal).2.1 := by
  unfold processGroup
  simp only
  cases hread : r.ReadString block.Size with
  | none => exact WangAnnotationReader.staysInside_refl r
  | some p => exact (WangAnnotationReader.ReadString_some _ _ _ _ hread).2.2.2

theorem processIndex_inside (r : WangAnnotationReader) (block : TiffWangNamedBlock)
    (mark : TiffWangMark) (isGlobal : Bool) :
    r.staysInside (processIndex r block mark isGlobal).2.1 := by
  unfold processIndex
  simp only
  cases hread : r.ReadString block.Size with
  | none => exact WangAnnotationReader.staysInside_refl r
  | some p => exact (WangAnnotationReader.ReadString_some _ _ _ _ hread).2.2.2

theorem processAnText_inside (r : WangAnnotationReader) (mark : TiffWangMark) (isGlobal : Bool) :
    r.staysInside (processAnText r mark isGlobal).2.1 := by
  unfold processAnText
  simp only
  cases hread : r.ReadStruct 16 decodeText with
  | none => exact WangAnnotationReader.staysInside_refl r
  | some p =>
    obtain ⟨info, r1⟩ := p
    have h1 := (WangAnnotationReader.ReadStruct_some _ _ _ _ _ hread).2.2.2
    simp only
    split_ifs
    · exact h1
    · cases hbytes : r1.ReadBytes
          ((TiffWangMark.assign isGlobal (fun p => { p with Text := info })
            (mark.TextSetter isGlobal)).Text isGlobal).uAnoTextLength with
      | none => exact h1
      | some q =>
        obtain ⟨text, r2⟩ := q
        have h2 := (WangAnnotationReader.ReadBytes_some _ _ _ _ hbytes).2.2.2
        simp only
        split_ifs <;> exact WangAnnotationReader.staysInside_trans h1 h2

theorem namedBlockBranch_inside (r : WangAnnotationReader) (block : TiffWangNamedBlock)
    (mark : TiffWangMark) (isGlobal : Bool) (b : Bool) (r1 : WangAnnotationReader)
    (m1 : TiffWangMark) (h : namedBlockBranch r block mark isGlobal = .ok (b, r1, m1)) :
    r.staysInside r1 := by
  unfold namedBlockBranch at h
  simp only at h
  split_ifs at h
  · unfold processAnoDat at h
    simp only at h
    split_ifs at h
    · exact processPoints_inside _ _ _ _ _ _ h
    · rw [reader_of_ok_eq h]
      exact processRotation_inside _ _ _
    · rw [reader_of_ok_eq h]; exact WangAnnotationReader.staysInside_refl r
    · rw [reader_of_ok_eq h]; exact WangAnnotationReader.staysInside_refl r
  · rw [reader_of_ok_eq h]; exact processFilNam_inside _ _ _ _
  · rw [reader_of_ok_eq h]; exact processDIB_inside _ _ _ _
  · rw [reader_of_ok_eq h]; exact processGroup_inside _ _ _ _
  · rw [reader_of_ok_eq h]; exact processIndex_inside _ _ _ _
  · rw [reader_of_ok_eq h]; exact processAnText_inside _ _ _
  · rw [reader_of_ok_eq h]; exact WangAnnotationReader.staysInside_refl r

theorem ProcessNamedBlock_inside (r : WangAnnotationReader) (block : TiffWangNamedBlock)
    (mark : TiffWangMark) (is16bit isGlobal : Bool) (b : Bool) (r1 : WangAnnotationReader)
    (m1 : TiffWangMark)
    (h : ProcessNamedBlock r block mark is16bit isGlobal = .ok (b, r1, m1)) :
    r.staysInside r1 := by
  unfold ProcessNamedBlock at h
  simp only at h
  split at h
  next => cases h
  next r2 m2 hb =>
    simp only [Except.ok.injEq, Prod.mk.injEq] at h
    rw [← h.2.1]
    exact namedBlockBranch_inside _ _ _ _ _ _ _ hb
  next r2 m2 hb =>
    have h1 := namedBlockBranch_inside _ _ _ _ _ _ _ hb
    split at h
    next =>
      simp only [Except.ok.injEq, Prod.mk.injEq] at h
      rw [← h.2.1]
      exact h1
    next r3 hs =>
      simp only [Except.ok.injEq, Prod.mk.injEq] at h
      rw [← h.2.1]
      exact WangAnnotationReader.staysInside_trans h1 (WangAnnotationReader.Seek_inside _ _ _ _ hs)

theorem namedBlockCase_inside (is16BitMode isGlobal : Bool) (s s1 : ReadState) (b : Bool)
    (h : namedBlockCase is16BitMode isGlobal s = .ok (b, s1)) :
    s.reader.staysInside s1.reader := by
  unfold namedBlockCase at h
  split at h
  next =>
    simp only [Except.ok.injEq, Prod.mk.injEq] at h
    rw [← h.2]
    exact WangAnnotationReader.staysInside_refl _
  next block r hr =>
    have h1 := (WangAnnotationReader.ReadStruct_some _ _ _ _ _ hr).2.2.2
    split at h
    next => cases h
    next ok r2 m2 hp =>
      simp only [Except.ok.injEq, Prod.mk.injEq] at h
      rw [← h.2]
      exact WangAnnotationReader.staysInside_trans h1 (ProcessNamedBlock_inside _ _ _ _ _ _ _ _ hp)

theorem attributeCase_inside (s s1 : ReadState) (b : Bool)
    (h : attributeCase s = .ok (b, s1)) : s.reader.staysInside s1.reader := by
  unfold attributeCase at h
  split at h
  next => cases h
  next s2 he =>
    have hr : s2.reader = s.reader := by
      split_ifs at he
      · exact emit_reader _ _ he
      · cases he; rfl
    simp only at h
    split at h
    next =>
      simp only [Except.ok.injEq, Prod.mk.injEq] at h
      rw [← h.2]
      simp only [hr]
      exact WangAnnotationReader.staysInside_refl _
    next attributes r hread =>
      have h1 := (WangAnnotationReader.ReadStruct_some _ _ _ _ _ hread).2.2.2
      simp only [Except.ok.injEq, Prod.mk.injEq] at h
      rw [← h.2]
      rw [hr] at h1
      exact h1

theorem iteration_inside (is16BitMode : Bool) (s s1 : ReadState) (b : Bool)
    (h : iteration is16BitMode s = .ok (b, s1)) : s.reader.staysInside s1.reader := by
  unfold iteration at h
  split at h
  next =>
    simp only [Except.ok.injEq, Prod.mk.injEq] at h
    rw [← h.2]
    exact WangAnnotationReader.staysInside_refl _
  next entry r hr =>
    have h1 := (WangAnnotationReader.ReadStruct_some _ _ _ _ _ hr).2.2.2
    simp only at h
    split at h
    next => cases h
    next keepParsing s2 hsw =>
      simp only [Except.ok.injEq, Prod.mk.injEq] at h
      rw [← h.2]
      refine WangAnnotationReader.staysInside_trans h1 ?_
      split_ifs at hsw
      · exact namedBlockCase_inside _ _ _ _ _ hsw
      · exact attributeCase_inside _ _ _ hsw
      · exact namedBlockCase_inside _ _ _ _ _ hsw
      · simp only [Except.ok.injEq, Prod.mk.injEq] at hsw
        rw [← hsw.2]
        exact WangAnnotationReader.staysInside_refl _

theorem readLoop_inside (is16BitMode : Bool) (fuel : Nat) (s s1 : ReadState)
    (h : readLoop is16BitMode fuel s = .ok s1) : s.reader.staysInside s1.reader := by
  induction fuel generalizing s with
  | zero => rw [readLoop] at h; cases h
  | succ k ih =>
    rw [readLoop] at h
    split at h
    next => cases h
    next s2 he => exact WangAnnotationReader.staysInside_trans (iteration_inside _ _ _ _ he) (ih _ h)
    next s2 he =>
      simp only [Except.ok.injEq] at h
      rw [← h]
      exact iteration_inside _ _ _ _ he

theorem Read_inside (r : WangAnnotationReader) (s : ReadState) (h : Read r = .ok s) :
    r.staysInside s.reader := by
  unfold Read at h
  split at h
  next => cases h
  next r1 hseek =>
    have h1 := WangAnnotationReader.Seek_inside _ _ _ _ hseek
    split at h
    next => cases h
    next mode r2 hmode =>
      have h2 := (WangAnnotationReader.ReadScalar32_ok _ _ _ hmode).2.2.2
      simp only at h
      split at h
      next => cases h
      next s1 hloop =>
        have h3 := readLoop_inside _ _ _ _ hloop
        simp only at h3
        have h4 : s.reader = s1.reader := by
          split_ifs at h
          · exact emit_reader _ _ h
          · cases h; rfl
        rw [h4]
        exact WangAnnotationReader.staysInside_trans h1 (WangAnnotationReader.staysInside_trans h2 h3)

/-- The loop of `Read` ends within `remaining / 8 + 1` passes, where `remaining` is the
number of bytes from the cursor to the end of the payload. -/
theorem readLoop_within_fuel (is16BitMode : Bool) (fuel : Nat) (s : ReadState)
    (hf : (s.reader.m_Size - s.reader.m_Offset) / 8 < fuel) :
    readLoop is16BitMode fuel s ≠ .error .fuelExhausted := by
  induction fuel generalizing s with
  | zero => omega
  | succ k ih =>
    rw [readLoop]
    split
    next e he =>
      rcases iteration_error _ _ _ he with h | h <;> subst h <;> simp
    next s1 he =>
      obtain ⟨hd, ho, hlt⟩ := iteration_true _ _ _ he
      apply ih
      have : s1.reader.m_Size = s.reader.m_Size := by
        simp only [WangAnnotationReader.m_Size, hd]
      omega
    next s1 he => simp

/-! ## Claims on the named blocks, on `EmitMark` and on the loop of `Read` -/

/-- C21, where it fails: for every visible embedded-image mark whose Local DIB data is set
and whose Local rotation is not, with a handler registered, `EmitMark` raises "property
not set" (from `LocalRotation()`) and makes no call, whether or not the Local file name is
set. -/
theorem C21_embedded_image_without_rotation_raises (r : WangAnnotationReader)
    (mark : TiffWangMark) (hh : r.m_Handler = true)
    (ht : mark.Attributes.uType = OAIN_MARK_TYPE.ImageEmbedded)
    (hv : mark.Attributes.bVisible ≠ 0)
    (hd : mark.IsSet .LocalDibInfoSet = true)
    (hr : mark.IsSet .LocalRotationSet = false) :
    EmitMark r mark = .error .propertyNotSet := by
  have hr2 : ((mark.FileNameSetter false).assign false
      (fun p => { p with FileName := unknownImageName })).IsSet .LocalRotationSet = false := by
    rw [TiffWangMark.IsSet_assign, TiffWangMark.FileNameSetter,
      TiffWangMark.IsSet_return_setter_either _ _ _ _ _ (by decide) (by decide) (by decide), hr]
    decide
  have hf2 : ((mark.FileNameSetter false).assign false
      (fun p => { p with FileName := unknownImageName })).IsSet .LocalFilenameSet = true := by
    rw [TiffWangMark.IsSet_assign, TiffWangMark.FileNameSetter,
      TiffWangMark.IsSet_return_setter_either _ _ _ _ _ (by decide) (by decide) (by decide)]
    simp
  unfold EmitMark
  simp only [ht, OAIN_MARK_TYPE.ImageEmbedded, OAIN_MARK_TYPE.AttachANote,
    OAIN_MARK_TYPE.TextStamp, OAIN_MARK_TYPE.TypedText, OAIN_MARK_TYPE.TextFromFile,
    OAIN_MARK_TYPE.StraightLine, OAIN_MARK_TYPE.FreehandLine, OAIN_MARK_TYPE.FilledRectangle,
    OAIN_MARK_TYPE.HollowRectangle, OAIN_MARK_TYPE.Form, OAIN_MARK_TYPE.ImageReference]
  simp only [emitImageEmbedded, notRendered, hh, hv, hd]
  by_cases hf : mark.IsSet .LocalFilenameSet = true
  · simp [hf, hr, hv, TiffWangMark.LocalFileName, TiffWangMark.LocalRotation,
      TiffWangMark.return_local]
  · simp only [Bool.not_eq_true] at hf
    simp [hf, hr2, hf2, hv, TiffWangMark.LocalFileName, TiffWangMark.LocalRotation,
      TiffWangMark.return_local]

set_option maxRecDepth 100000 in
/-- C21, where it fails, at the mark of a payload that holds the attribute record of a
visible embedded image and a Local block "OiDIB" of four bytes, and no rotation: `run()`
on that payload raises "property not set" in the final `EmitMark`. -/
theorem C21_embedded_image_without_rotation_raises_witness :
    run (preamble32 ++ entryHeader 5 164 ++ visibleMark 1 ++ entryHeader 6 16 ++
        blockHeader "OiDIB" 4 ++ [1, 2, 3, 4] ++ [0]) true = .error .propertyNotSet ∧
    EmitMark { m_AnnotationData := [], m_Offset := 0, m_Handler := true }
        { (default : TiffWangMark) with
          m_Local := { (default : TiffWangMarkProperties) with DibInfo := [1, 2, 3, 4] }
          m_Attributes := decodeAttributes (visibleMark 1)
          m_SetProperties := 1056 } = .error .propertyNotSet :=
  ⟨by decide,
    C21_embedded_image_without_rotation_raises _ _ rfl (by decide) (by decide) (by decide)
      (by decide)⟩

/-- C22, where it fails: for every visible Form or image-reference mark of which exactly
one of Local file name and Local rotation is set, with a handler registered, `EmitMark`
passes the gate "at least one is set" and then raises "property not set" from the accessor
of the other one; no call is made. -/
theorem C22_form_with_one_property_raises (r : WangAnnotationReader)
    (mark : TiffWangMark) (hh : r.m_Handler = true)
    (ht : mark.Attributes.uType = OAIN_MARK_TYPE.Form ∨
      mark.Attributes.uType = OAIN_MARK_TYPE.ImageReference)
    (hv : mark.Attributes.bVisible ≠ 0)
    (hone : mark.IsSet .LocalFilenameSet ≠ mark.IsSet .LocalRotationSet) :
    EmitMark r mark = .error .propertyNotSet := by
  unfold EmitMark
  rcases ht with ht | ht
  · simp only [ht, OAIN_MARK_TYPE.ImageEmbedded, OAIN_MARK_TYPE.AttachANote,
      OAIN_MARK_TYPE.TextStamp, OAIN_MARK_TYPE.TypedText, OAIN_MARK_TYPE.TextFromFile,
      OAIN_MARK_TYPE.StraightLine, OAIN_MARK_TYPE.FreehandLine, OAIN_MARK_TYPE.FilledRectangle,
      OAIN_MARK_TYPE.HollowRectangle, OAIN_MARK_TYPE.Form, OAIN_MARK_TYPE.ImageReference]
    simp only [emitForm, notRendered, hh, hv, TiffWangMark.AnySet]
    cases hf : mark.IsSet .LocalFilenameSet <;> cases hr : mark.IsSet .LocalRotationSet <;>
      simp [hf, hr, hv, TiffWangMark.LocalFileName, TiffWangMark.LocalRotation,
        TiffWangMark.return_local] at hone ⊢
  · simp only [ht, OAIN_MARK_TYPE.ImageEmbedded, OAIN_MARK_TYPE.AttachANote,
      OAIN_MARK_TYPE.TextStamp, OAIN_MARK_TYPE.TypedText, OAIN_MARK_TYPE.TextFromFile,
      OAIN_MARK_TYPE.StraightLine, OAIN_MARK_TYPE.FreehandLine, OAIN_MARK_TYPE.FilledRectangle,
      OAIN_MARK_TYPE.HollowRectangle, OAIN_MARK_TYPE.Form, OAIN_MARK_TYPE.ImageReference]
    simp only [emitImageReference, notRendered, hh, hv, TiffWangMark.AnySet]
    cases hf : mark.IsSet .LocalFilenameSet <;> cases hr : mark.IsSet .LocalRotationSet <;>
      simp [hf, hr, hv, TiffWangMark.LocalFileName, TiffWangMark.LocalRotation,
        TiffWangMark.return_local] at hone ⊢

set_option maxRecDepth 100000 in
/-- C22, where it fails, at the mark of a payload that holds the attribute record of a
visible Form mark and a Local block "OiFilNam" with the name "ab", and no rotation: `run()`
on that payload raises "property not set" in the final `EmitMark`; so does `run()` on the
payload of a visible image reference with a rotation record and no file name. -/
theorem C22_form_with_one_property_raises_witness :
    run (preamble32 ++ entryHeader 5 164 ++ visibleMark 12 ++ entryHeader 6 14 ++
        blockHeader "OiFilNam" 2 ++ [97, 98] ++ [0]) true = .error .propertyNotSet ∧
    run (preamble32 ++ entryHeader 5 164 ++ visibleMark 2 ++ entryHeader 6 68 ++
        blockHeader "OiAnoDat" 56 ++ List.replicate 56 2 ++ [0]) true = .error .propertyNotSet ∧
    EmitMark { m_AnnotationData := [], m_Offset := 0, m_Handler := true }
        { (default : TiffWangMark) with
          m_Local := { (default : TiffWangMarkProperties) with FileName := [97, 98] }
          m_Attributes := decodeAttributes (visibleMark 12)
          m_SetProperties := 1032 } = .error .propertyNotSet :=
  ⟨by decide, by decide,
    C22_form_with_one_property_raises _ _ rfl (Or.inl (by decide)) (by decide) (by decide)⟩

set_option maxRecDepth 100000 in
/-- C23, where it fails: a payload with the attribute record of a visible straight line,
a Local block "OiAnoDat" with count 2 and two points, then a Global block "OiAnoDat" with
count 3 and three points, followed by one more byte. Both blocks are processed with success
(the cursor ends at 276, the end of the Global block). The Global tier then holds the count
record just read, 3, but its point list has 2 points: the list was sized, and the points
were read, with the count that `Points()` resolves, which is the Local one. -/
theorem C23_global_points_sized_by_local_count :
    (run (preamble32 ++ entryHeader 5 164 ++ visibleMark 3 ++
        entryHeader 6 36 ++ blockHeader "OiAnoDat" 24 ++ [2, 0, 0, 0, 2, 0, 0, 0] ++
          [1, 0, 0, 0, 2, 0, 0, 0] ++ [3, 0, 0, 0, 4, 0, 0, 0] ++
        entryHeader 2 44 ++ blockHeader "OiAnoDat" 32 ++ [3, 0, 0, 0, 3, 0, 0, 0] ++
          [5, 0, 0, 0, 6, 0, 0, 0] ++ [7, 0, 0, 0, 8, 0, 0, 0] ++ [9, 0, 0, 0, 10, 0, 0, 0] ++
        [0]) true).map
      (fun s => (s.reader.m_Offset, s.currentMark.m_Global.Points, s.currentMark.m_Global.PointList,
        s.currentMark.m_Local.Points, s.currentMark.m_Local.PointList)) =
    .ok (276, { nMaxPoints := 3, nPoints := 3 }, [{ x := 5, y := 6 }, { x := 7, y := 8 }],
      { nMaxPoints := 2, nPoints := 2 }, [{ x := 1, y := 2 }, { x := 3, y := 4 }]) := by
  decide

/-- C24: for every named block "OiAnText" processed with success against a tier `T` (the
Global tier for `isGlobal`, else the Local one), with `L` the text length declared in the
descriptor read at the start of the block and `b` the `L` bytes that follow it: if `L = 0`
the ascii text of `T` is set to the empty string; if `L` is odd it is set to `b`; if `L` is
even and none of `b[0 .. L-2]` is zero it is set to `b`; if `L` is even and some byte of
`b[0 .. L-2]` is zero, the wide text of `T` is set to the `L / 2` code units
`b[2i] * 256 + b[2i+1]`. "Set" is the value in the tier together with the flag. -/
theorem C24_text_classification (r r1 : WangAnnotationReader) (block : TiffWangNamedBlock)
    (mark m1 : TiffWangMark) (is16bit isGlobal : Bool)
    (hname : block.Name.take (strnlen_s block.Name 8) = ascii "OiAnText")
    (h : ProcessNamedBlock r block mark is16bit isGlobal = .ok (true, r1, m1)) :
    ∃ b : List Byte,
      b = (r.advance 16).bytesAtCursor (decodeText (r.bytesAtCursor 16)).uAnoTextLength ∧
      b.length = (decodeText (r.bytesAtCursor 16)).uAnoTextLength ∧
      (b.length = 0 →
        (if isGlobal then m1.m_Global else m1.m_Local).AsciiText = [] ∧
        m1.IsSet (if isGlobal then .GlobalAsciiTextSet else .LocalAsciiTextSet) = true) ∧
      (b.length % 2 = 1 →
        (if isGlobal then m1.m_Global else m1.m_Local).AsciiText = b ∧
        m1.IsSet (if isGlobal then .GlobalAsciiTextSet else .LocalAsciiTextSet) = true) ∧
      (b.length % 2 = 0 → (∀ i, i + 1 < b.length → byteAt b i ≠ 0) →
        (if isGlobal then m1.m_Global else m1.m_Local).AsciiText = b ∧
        m1.IsSet (if isGlobal then .GlobalAsciiTextSet else .LocalAsciiTextSet) = true) ∧
      (b.length % 2 = 0 → (∃ i, i + 1 < b.length ∧ byteAt b i = 0) →
        (if isGlobal then m1.m_Global else m1.m_Local).UnicodeText =
          (List.range (b.length / 2)).map
            (fun i => (byteAt b (2 * i)).val * 256 + (byteAt b (2 * i + 1)).val) ∧
        m1.IsSet (if isGlobal then .GlobalUnicodeTextSet else .LocalUnicodeTextSet) = true) := by
  obtain ⟨⟨r2, hb⟩, -, -⟩ := ProcessNamedBlock_success _ _ _ _ _ _ _ h
  rw [name_OiAnText_branch _ _ _ _ hname] at hb
  injection hb with hb
  obtain ⟨b, hb1, hb2, hA, hW⟩ := processAnText_true _ _ _ _ _ hb
  refine ⟨b, hb1, hb2, ?_, ?_, ?_, ?_⟩
  · intro h0
    have hnil : b = [] := List.length_eq_zero.mp h0
    have := hA ((isAnsi_eq_true_iff b).mpr (Or.inr (fun i hi => by omega)))
    rw [hnil] at this
    exact this
  · intro hodd
    exact hA ((isAnsi_eq_true_iff b).mpr (Or.inl hodd))
  · intro _ hnz
    exact hA ((isAnsi_eq_true_iff b).mpr (Or.inr hnz))
  · intro heven hz
    have hf : isAnsi b = false := by
      cases hc : isAnsi b with
      | false => rfl
      | true =>
        rcases (isAnsi_eq_true_iff b).mp hc with hodd | hnz
        · omega
        · obtain ⟨i, hi, hzi⟩ := hz
          exact absurd hzi (hnz i hi)
    have := hW hf
    rw [toUnicode_eq (b.length / 2) b (by omega)] at this
    exact this

set_option maxRecDepth 100000 in
/-- C24, at a Local block whose four bytes `00 48 00 69` hold a zero among the first
three: the wide text of the Local tier becomes the two code units 0x48, 0x69. -/
theorem C24_text_classification_witness :
    ∃ b : List Byte,
      b = (wideTextReader.advance 16).bytesAtCursor
        (decodeText (wideTextReader.bytesAtCursor 16)).uAnoTextLength ∧
      b.length = (decodeText (wideTextReader.bytesAtCursor 16)).uAnoTextLength ∧
      (b.length = 0 →
        (if false then wideTextMark.m_Global else wideTextMark.m_Local).AsciiText = [] ∧
        wideTextMark.IsSet (if false then .GlobalAsciiTextSet else .LocalAsciiTextSet) = true) ∧
      (b.length % 2 = 1 →
        (if false then wideTextMark.m_Global else wideTextMark.m_Local).AsciiText = b ∧
        wideTextMark.IsSet (if false then .GlobalAsciiTextSet else .LocalAsciiTextSet) = true) ∧
      (b.length % 2 = 0 → (∀ i, i + 1 < b.length → byteAt b i ≠ 0) →
        (if false then wideTextMark.m_Global else wideTextMark.m_Local).AsciiText = b ∧
        wideTextMark.IsSet (if false then .GlobalAsciiTextSet else .LocalAsciiTextSet) = true) ∧
      (b.length % 2 = 0 → (∃ i, i + 1 < b.length ∧ byteAt b i = 0) →
        (if false then wideTextMark.m_Global else wideTextMark.m_Local).UnicodeText =
          (List.range (b.length / 2)).map
            (fun i => (byteAt b (2 * i)).val * 256 + (byteAt b (2 * i + 1)).val) ∧
        wideTextMark.IsSet (if false then .GlobalUnicodeTextSet else .LocalUnicodeTextSet) =
          true) :=
  C24_text_classification wideTextReader { wideTextReader with m_Offset := 20 }
    { Name := ascii "OiAnText", Size := 20 } default wideTextMark false false
    (by decide) (by decide)

/-- C25: for every named block (any name, either tier, either framing mode) that
`ProcessNamedBlock` processes with success, the cursor afterwards is the cursor at which
the data of the block started (just after the 12-byte header) plus the size field of the
block, plus 4 in 16-bit mode; how far the branch of the name moved the cursor plays no
part. The payload is unchanged. -/
theorem C25_cursor_after_named_block (r r1 : WangAnnotationReader) (block : TiffWangNamedBlock)
    (mark m1 : TiffWangMark) (is16bit isGlobal : Bool)
    (h : ProcessNamedBlock r block mark is16bit isGlobal = .ok (true, r1, m1)) :
    r1.m_Offset = r.m_Offset + block.Size + (if is16bit then 4 else 0) ∧
      r1.m_AnnotationData = r.m_AnnotationData :=
  ⟨(ProcessNamedBlock_success _ _ _ _ _ _ _ h).2.1, (ProcessNamedBlock_true _ _ _ _ _ _ _ h).1⟩

set_option maxRecDepth 100000 in
/-- C25, at a block "OiAnText" in 16-bit mode whose size field says 3 while its branch
reads 20 bytes: the cursor ends at 0 + 3 + 4. -/
theorem C25_cursor_after_named_block_witness :
    ({ wideTextReader with m_Offset := 7 } : WangAnnotationReader).m_Offset =
        wideTextReader.m_Offset + ({ Name := ascii "OiAnText", Size := 3 } : TiffWangNamedBlock).Size +
          (if true then 4 else 0) ∧
      ({ wideTextReader with m_Offset := 7 } : WangAnnotationReader).m_AnnotationData =
        wideTextReader.m_AnnotationData :=
  C25_cursor_after_named_block wideTextReader { wideTextReader with m_Offset := 7 }
    { Name := ascii "OiAnText", Size := 3 } default wideTextMark true false (by decide)

set_option maxRecDepth 100000 in
/-- C26, where it fails: a payload with one complete attribute record (a visible filled
rectangle), then an `ATTRIBUTE_DATA` entry header and only 12 of the 164 bytes of a second
record. `run()` returns normally after two calls of `EmitMark`, both for the one mark that
was read: once when the second entry header is met, and once more in the final flush,
because the failed read leaves the attributes-set flag raised. The handler receives the
rectangle twice. -/
theorem C26_cut_attribute_record_emits_twice :
    (run (preamble32 ++ entryHeader 5 164 ++ visibleMark 6 ++ entryHeader 5 164 ++
        List.replicate 12 6) true).map
      (fun s => (s.emitted.map (fun m => m.m_Attributes), s.calls)) =
    .ok ([decodeAttributes (visibleMark 6), decodeAttributes (visibleMark 6)],
      [Call.RenderRect default default false false,
       Call.RenderRect default default false false]) := by
  decide

/-- C27: `run()` terminates on every payload. In the model the loop of `Read` is given
`m_Size + 1` passes of fuel, and on no payload does `run` use them up: it returns or raises
one of the errors of the source. Every pass of the loop that does not stop it leaves the
cursor at least 8 bytes (an entry header) further than it found it, inside the same
payload; so from any state the loop ends within `remaining / 8 + 1` passes, where
`remaining` is the number of bytes from the cursor to the end of the payload. -/
theorem C27_run_terminates (payload : List Byte) (handler : Bool) :
    run payload handler ≠ .error .fuelExhausted ∧
    (∀ (is16BitMode : Bool) (s s1 : ReadState), iteration is16BitMode s = .ok (true, s1) →
      s.reader.m_Offset + 8 ≤ s1.reader.m_Offset ∧ s1.reader.m_Offset < s1.reader.m_Size ∧
      s1.reader.m_Size = s.reader.m_Size) ∧
    (∀ (is16BitMode : Bool) (fuel : Nat) (s : ReadState),
      (s.reader.m_Size - s.reader.m_Offset) / 8 < fuel →
      readLoop is16BitMode fuel s ≠ .error .fuelExhausted) := by
  refine ⟨?_, ?_, fun m fuel s hf => readLoop_within_fuel m fuel s hf⟩
  · by_cases h8 : 8 ≤ payload.length
    · rcases Read_result (WangAnnotationReader.over payload handler) rfl h8 with ⟨s, h⟩ | h | h <;>
        (unfold run; rw [h]; simp)
    · by_cases h4 : payload.length ≤ 4
      · rw [(run_short payload handler).1 h4]; simp
      · rw [(run_short payload handler).2 (by omega) (by omega)]; simp
  · intro m s s1 h
    obtain ⟨hd, ho, hlt⟩ := iteration_true _ _ _ h
    exact ⟨ho, hlt, by simp only [WangAnnotationReader.m_Size, hd]⟩

/-- The cursor stays inside the payload, and every read copies bytes of the payload only.
From any reader whose cursor is not past the end: a scalar, struct, string or byte-vector
read that succeeds has `c + n ≤ m_Size` for its cursor `c` and its `n` bytes, delivers
exactly `n` bytes and moves the cursor to `c + n`; a `Seek` that succeeds leaves the cursor
below `m_Size`; `ProcessNamedBlock` and a whole pass of the loop, whatever they return,
leave the cursor not past the end of the same payload; and so does `run()` when it returns.
In the classification of "OiAnText" every index is a valid index of the text that was read:
the scan for a zero byte looks at `text[i]` for `i + 1 < size` only, and code unit `i` (for
`i < size / 2`) is made of `text[2i]` and `text[2i+1]`. Nothing is said here about the
subscript `&m_AnnotationData[m_Offset]` of a read of no bytes (`subscriptOfRead`). -/
theorem reads_stay_inside_payload :
    (∀ (payload : List Byte) (handler : Bool) (s : ReadState), run payload handler = .ok s →
      s.reader.m_AnnotationData = payload ∧ s.reader.m_Offset ≤ payload.length) ∧
    (∀ (is16BitMode b : Bool) (s s1 : ReadState), s.reader.m_Offset ≤ s.reader.m_Size →
      iteration is16BitMode s = .ok (b, s1) →
      s1.reader.m_AnnotationData = s.reader.m_AnnotationData ∧
      s1.reader.m_Offset ≤ s1.reader.m_Size) ∧
    (∀ (r r1 : WangAnnotationReader) (block : TiffWangNamedBlock) (mark m1 : TiffWangMark)
      (is16bit isGlobal b : Bool), r.m_Offset ≤ r.m_Size →
      ProcessNamedBlock r block mark is16bit isGlobal = .ok (b, r1, m1) →
      r1.m_AnnotationData = r.m_AnnotationData ∧ r1.m_Offset ≤ r1.m_Size) ∧
    (∀ (r r1 : WangAnnotationReader) (offset : Int) (dir : seekdir),
      r.Seek offset dir = .ok r1 →
      r1.m_AnnotationData = r.m_AnnotationData ∧ r1.m_Offset < r1.m_Size) ∧
    (∀ (r r1 : WangAnnotationReader) (v : Nat), r.m_Offset ≤ r.m_Size →
      r.ReadScalar32 = .ok (v, r1) →
      r.m_Offset + 4 ≤ r.m_Size ∧ (r.bytesAtCursor 4).length = 4 ∧
      r1.m_Offset = r.m_Offset + 4) ∧
    (∀ (α : Type) (r r1 : WangAnnotationReader) (n : Nat) (decode : List Byte → α) (v : α),
      r.m_Offset ≤ r.m_Size → r.ReadStruct n decode = some (v, r1) →
      r.m_Offset + n ≤ r.m_Size ∧ (r.bytesAtCursor n).length = n ∧
      r1.m_Offset = r.m_Offset + n) ∧
    (∀ (r r1 : WangAnnotationReader) (n : Nat) (v : List Byte), r.m_Offset ≤ r.m_Size →
      r.ReadString n = some (v, r1) →
      r.m_Offset + n ≤ r.m_Size ∧ v.length = n ∧ r1.m_Offset = r.m_Offset + n) ∧
    (∀ (r r1 : WangAnnotationReader) (n : Nat) (v : List Byte), r.m_Offset ≤ r.m_Size →
      r.ReadBytes n = some (v, r1) →
      r.m_Offset + n ≤ r.m_Size ∧ v.length = n ∧ r1.m_Offset = r.m_Offset + n) ∧
    (∀ (text : List Byte), text.length % 2 = 0 →
      (isAnsi text = true ↔ ∀ (i : Nat) (h : i + 1 < text.length), text[i] ≠ 0)) ∧
    (∀ (text : List Byte), text.length % 2 = 0 →
      (toUnicode text).length = text.length / 2 ∧
      ∀ (i : Nat) (h : i < text.length / 2),
        (toUnicode text)[i]? = some (text[2 * i].val * 256 + text[2 * i + 1].val)) := by
  refine ⟨?_, ?_, ?_, ?_, ?_, ?_, ?_, ?_, ?_, ?_⟩
  · intro payload handler s h
    obtain ⟨hd, -, ho⟩ := Read_inside _ _ h
    refine ⟨hd, ?_⟩
    have := ho (Nat.zero_le _)
    rw [WangAnnotationReader.m_Size, hd] at this
    exact this
  · intro m b s s1 h0 h
    obtain ⟨hd, -, ho⟩ := iteration_inside _ _ _ _ h
    exact ⟨hd, ho h0⟩
  · intro r r1 block mark m1 m g b h0 h
    obtain ⟨hd, -, ho⟩ := ProcessNamedBlock_inside _ _ _ _ _ _ _ _ h
    exact ⟨hd, ho h0⟩
  · intro r r1 offset dir h
    exact ⟨(WangAnnotationReader.Seek_ok _ _ _ _ h).1, (WangAnnotationReader.Seek_ok _ _ _ _ h).2.2⟩
  · intro r r1 v h0 h
    obtain ⟨h1, h2, h3, -⟩ := WangAnnotationReader.ReadScalar32_ok _ _ _ h
    subst h1
    exact ⟨by omega, h3, rfl⟩
  · intro α r r1 n decode v h0 h
    obtain ⟨h1, h2, h3, -⟩ := WangAnnotationReader.ReadStruct_some _ _ _ _ _ h
    subst h1
    exact ⟨by omega, h3, rfl⟩
  · intro r r1 n v h0 h
    obtain ⟨h1, h2, h3, -⟩ := WangAnnotationReader.ReadString_some _ _ _ _ h
    subst h1
    exact ⟨by omega, h3, rfl⟩
  · intro r r1 n v h0 h
    obtain ⟨h1, h2, h3, -⟩ := WangAnnotationReader.ReadBytes_some _ _ _ _ h
    subst h1
    exact ⟨by omega, h3, rfl⟩
  · intro text heven
    rw [isAnsi_eq_true_iff]
    have hb : ∀ i (h : i < text.length), byteAt text i = text[i] := by
      intro i h
      simp [byteAt, List.getD, List.getElem?_eq_getElem h]
    constructor
    · intro h i hi
      rcases h with h | h
      · omega
      · rw [← hb i (by omega)]
        exact h i hi
    · intro h
      right
      intro i hi
      rw [hb i (by omega)]
      exact h i hi
  · intro text heven
    have hb : ∀ i (h : i < text.length), byteAt text i = text[i] := by
      intro i h
      simp [byteAt, List.getD, List.getElem?_eq_getElem h]
    rw [toUnicode_eq (text.length / 2) text (by omega)]
    refine ⟨by simp, ?_⟩
    intro i hi
    rw [List.getElem?_map, List.getElem?_range hi]
    simp only [Option.map_some']
    rw [hb (2 * i) (by omega), hb (2 * i + 1) (by omega)]

set_option maxRecDepth 100000 in
/-- C29, where it fails: a payload with mark 1 (visible typed text) and its Local block
"OiAnText" (orientation 1, scale 72, text "x"), then a Global block "OiAnText"
(orientation 2, scale 96, text "abc"), then mark 2 (visible typed text) with no Local text
block. Mark 2 inherits the text "abc" from the Global tier, but the descriptor handed to
the text callback with it is the one of the Local block of mark 1, not the one read from
the Global block: `AssignGlobalToLocal` copies the text and leaves the descriptor. -/
theorem C29_inherited_text_keeps_stale_descriptor :
    (run (preamble32 ++ entryHeader 5 164 ++ visibleMark 7 ++
        entryHeader 6 29 ++ blockHeader "OiAnText" 17 ++ textInfo 1 72 1 ++ [120] ++
        entryHeader 2 31 ++ blockHeader "OiAnText" 19 ++ textInfo 2 96 3 ++ [97, 98, 99] ++
        entryHeader 5 164 ++ visibleMark 7) true).map (fun s => s.calls) =
    .ok [Call.RenderText [120] default (decodeAttributes (visibleMark 7)).lfFont
          { nCurrentOrientation := 1, uReserved1 := 0, uCreationScale := 72, uAnoTextLength := 1 }
          default,
         Call.RenderText [97, 98, 99] default (decodeAttributes (visibleMark 7)).lfFont
          { nCurrentOrientation := 1, uReserved1 := 0, uCreationScale := 72, uAnoTextLength := 1 }
          default] ∧
    decodeText (textInfo 2 96 3) =
      { nCurrentOrientation := 2, uReserved1 := 0, uCreationScale := 96, uAnoTextLength := 3 } := by
  refine ⟨by decide, by decide⟩

set_option maxRecDepth 100000 in
/-- C30, where it fails: a payload with a Global block "OiAnText" whose text "abc" is kept
as 8-bit text, then the attribute record of a visible typed-text mark, then a Local block
"OiAnText" of length 4 whose bytes `00 48 00 69` are classified as wide text (the code
units 0x48, 0x69), followed by one more byte. The text callback receives the inherited
8-bit text "abc" (with the descriptor of the Local block), not the wide text decoded from
the Local block: the Local ascii flag, raised by the inheritance, is tested first. -/
theorem C30_local_wide_text_hidden_by_inherited_ascii :
    (run (preamble32 ++
        entryHeader 2 31 ++ blockHeader "OiAnText" 19 ++ textInfo 2 96 3 ++ [97, 98, 99] ++
        entryHeader 5 164 ++ visibleMark 7 ++
        entryHeader 6 32 ++ blockHeader "OiAnText" 20 ++ textInfo 3 50 4 ++ [0, 72, 0, 105] ++
        [0]) true).map
      (fun s => (s.calls, s.currentMark.m_Local.UnicodeText,
        s.currentMark.IsSet .LocalUnicodeTextSet)) =
    .ok ([Call.RenderText [97, 98, 99] default (decodeAttributes (visibleMark 7)).lfFont
          { nCurrentOrientation := 3, uReserved1 := 0, uCreationScale := 50, uAnoTextLength := 4 }
          default], [72, 105], true) := by
  decide

/-! ## The quotient of `ReadRational` -/

namespace TiffFile

end TiffFile

set_option maxRecDepth 100000 in
/-- C28, where it fails: on the 28-byte payload that ends with the header of a Local block
"OiGroup" of size 0, the first pass of the loop reads the entry header (type 6) and the block
header, which leaves the cursor at 28, the length of the payload; the branch "OiGroup" then
calls `Read(std::string&, 0)`. Its guard lets it pass (0 bytes are left, 0 are asked for),
so it evaluates `&m_AnnotationData[m_Offset]` with `m_Offset = 28 = m_Size`: a subscript
that is not strictly below the length of the buffer. The read reports success, the group
is set to the empty string, and `run()` returns normally with the cursor at 28. -/
theorem C28_zero_length_read_subscripts_at_size :
    emptyGroupPayload.length = 28 ∧
    ((WangAnnotationReader.over emptyGroupPayload true).advance 8).ReadStruct 8 decodeEntry =
      some ({ DataType := TiffWangDataType.LOCAL_NAMED_BLOCK, DataSize := 12 },
        (WangAnnotationReader.over emptyGroupPayload true).advance 16) ∧
    ((WangAnnotationReader.over emptyGroupPayload true).advance 16).ReadStruct 12
        decodeNamedBlock =
      some ({ Name := ascii "OiGroup" ++ [0], Size := 0 }, emptyGroupReader) ∧
    namedBlockBranch emptyGroupReader { Name := ascii "OiGroup" ++ [0], Size := 0 } default false =
      .ok (processGroup emptyGroupReader { Name := ascii "OiGroup" ++ [0], Size := 0 }
        default false) ∧
    emptyGroupReader.m_Size = 28 ∧
    emptyGroupReader.subscriptOfRead 0 = some 28 ∧
    emptyGroupReader.ReadString 0 = some ([], emptyGroupReader) ∧
    (run emptyGroupPayload true).map
      (fun s => (s.reader.m_Offset, s.reader.m_Size,
        s.currentMark.IsSet .LocalGroupSet, s.currentMark.m_Local.Group)) =
      .ok (28, 28, true, []) := by
  refine ⟨by decide, by decide, by decide, by decide, by decide, by decide, by decide, by decide⟩

/-! ## `Read` on a payload without a visible image mark and without a negative count -/

namespace TiffWangMark

end TiffWangMark

set_option maxRecDepth 100000 in
/-- Outside the two provisos `run()` can raise past the preamble. A payload with a visible
Form mark, cut inside its block "OiFilNam", makes the final `EmitMark` raise "property not
set" (the gate of the case lets a mark with a file name and no rotation pass, and truncation
produces one), and a points record with count -1 makes `resize` raise a length error; the
first payload holds a visible image mark, the second a negative count. -/
theorem run_raises_outside_provisos :
    run ([0, 0, 0, 0, 1, 0, 0, 0] ++ [5, 0, 0, 0, 164, 0, 0, 0] ++
          ([12, 0, 0, 0] ++ List.replicate 112 0 ++ [1, 0, 0, 0] ++ List.replicate 44 0) ++
          [6, 0, 0, 0, 14, 0, 0, 0] ++ ascii "OiFilNam" ++ [2, 0, 0, 0] ++ [97, 98]) true =
      .error .propertyNotSet ∧
    noVisibleImageMark ([0, 0, 0, 0, 1, 0, 0, 0] ++ [5, 0, 0, 0, 164, 0, 0, 0] ++
          ([12, 0, 0, 0] ++ List.replicate 112 0 ++ [1, 0, 0, 0] ++ List.replicate 44 0) ++
          [6, 0, 0, 0, 14, 0, 0, 0] ++ ascii "OiFilNam" ++ [2, 0, 0, 0] ++ [97, 98]) = false ∧
    run ([0, 0, 0, 0, 1, 0, 0, 0] ++ [5, 0, 0, 0, 164, 0, 0, 0] ++
          ([3, 0, 0, 0] ++ List.replicate 112 0 ++ [1, 0, 0, 0] ++ List.replicate 44 0) ++
          [6, 0, 0, 0, 20, 0, 0, 0] ++ ascii "OiAnoDat" ++ [8, 0, 0, 0] ++
          [0, 0, 0, 0, 255, 255, 255, 255]) true =
      .error .lengthError ∧
    noNegativeCount ([0, 0, 0, 0, 1, 0, 0, 0] ++ [5, 0, 0, 0, 164, 0, 0, 0] ++
          ([3, 0, 0, 0] ++ List.replicate 112 0 ++ [1, 0, 0, 0] ++ List.replicate 44 0) ++
          [6, 0, 0, 0, 20, 0, 0, 0] ++ ascii "OiAnoDat" ++ [8, 0, 0, 0] ++
          [0, 0, 0, 0, 255, 255, 255, 255]) = false := by
  refine ⟨by decide, by decide, by decide, by decide⟩

end TiffWang
